import Mathlib

/-!
Ensemble prediction core of `index.js`.

A shallow embedding of the prediction engine of `src/index.js` (`processResult`,
`detectStreakAndBreak`, `evaluateModelPerformance`, the six predictors, `isBadPattern`
and `generatePrediction`) together with the properties proved about it.

Conventions of the embedding.

* JavaScript numbers are exact rationals (`ℚ`); counters and array lengths are `Nat`.
  Rounding is modelled for `evaluateModelPerformance` only, which is embedded a second
  time as `evaluateModelPerformanceDouble` over IEEE 754 doubles: there `binary64`
  rounds the exact result of every arithmetic operation.
* A history is a `List Entry`, oldest entry first.  A missing history (`null` or
  `undefined`) is `none` at the entry point `generatePrediction`.
* The embedding is *checked*: every array element read `xs[i]` goes through `readAt`,
  and every division whose divisor is not a numeric literal goes through `divide`.
  Both return `none` when the index is out of bounds, respectively when the divisor
  is zero, and the surrounding function then returns `none`.  A function that returns
  `some v` therefore ran without any out-of-bounds read and without any division by
  zero, and `v` is its result.  A result `none` marks a run with such a read or
  division; JavaScript itself goes on with `undefined` or `NaN` there.
* This holds for the read `Object.entries(..).sort(..)[0]` as well, although the
  source tests its result (`mostCommon && ..`): on an empty table the model returns
  `none` where the source takes the other branch of that test.
* The vote store `modelPredictions` is passed explicitly; `generatePrediction`
  returns the updated store.  `Math.random()` is a parameter.
-/

namespace Sicbo

/-! ## Data model -/

/-- The three strings `processResult` can return. -/
inductive Result where
  /-- The string `'Tài'` (category A). -/
  | Tai
  /-- The string `'Xỉu'` (category B). -/
  | Xiu
  /-- The string `'Không xác định'` (unclassified). -/
  | KhongXacDinh
  deriving DecidableEq, Repr

/-- The JavaScript string of a category. -/
def Result.toString : Result → String
  | .Tai => "Tài"
  | .Xiu => "Xỉu"
  | .KhongXacDinh => "Không xác định"

/-- Template interpolation of `currentResult`, which is `null` on the empty history. -/
def showCurrent : Option Result → String
  | some r => r.toString
  | none => "null"

/-- Function `processResult(score)`. -/
def processResult (score : Int) : Result :=
  if score ≥ 4 ∧ score ≤ 10 then .Xiu
  else if score ≥ 11 ∧ score ≤ 17 then .Tai
  else .KhongXacDinh

/-- The fields of a history entry that the core reads: `session`, `totalScore`, `result`.
Session identifiers are game numbers such as `#0012345`. -/
structure Entry where
  session : String
  totalScore : Int
  result : Result
  deriving DecidableEq, Repr

/-- The store `modelPredictions`: one table per model, from session identifier to the
recorded vote (`none` when the table has no such key). Session identifiers are game
numbers, never the name of a property that a JavaScript object inherits. -/
structure ModelPredictions where
  trend : String → Option Nat
  short : String → Option Nat
  mean : String → Option Nat
  switch : String → Option Nat
  bridge : String → Option Nat

/-- The store as the source initialises it: five empty tables. -/
def ModelPredictions.empty : ModelPredictions :=
  ⟨fun _ => none, fun _ => none, fun _ => none, fun _ => none, fun _ => none⟩

/-- Property names every JavaScript object inherits from `Object.prototype`. -/
def inheritedNames : List String :=
  ["constructor", "__proto__", "hasOwnProperty", "isPrototypeOf", "propertyIsEnumerable",
   "toLocaleString", "toString", "valueOf", "__defineGetter__", "__defineSetter__",
   "__lookupGetter__", "__lookupSetter__"]

/-- Lookup `modelPredictions[modelName]`: the table of one of the five models; for an
inherited property name a truthy object that holds no vote under any session identifier
(an empty table); `none` (`undefined`) for every other name. -/
def ModelPredictions.table (mp : ModelPredictions) (modelName : String) :
    Option (String → Option Nat) :=
  if modelName = "trend" then some mp.trend
  else if modelName = "short" then some mp.short
  else if modelName = "mean" then some mp.mean
  else if modelName = "switch" then some mp.switch
  else if modelName = "bridge" then some mp.bridge
  else if modelName ∈ inheritedNames then some (fun _ => none)
  else none

/-- Assignment `table[session] = vote`. -/
def setVote (table : String → Option Nat) (session : String) (vote : Nat) :
    String → Option Nat :=
  fun s => if s = session then some vote else table s

/-! ## Checked primitives -/

/-- Array element read `xs[i]`: `none` when `i` is out of bounds. -/
def readAt {α : Type} (xs : List α) (i : Int) : Option α :=
  if 0 ≤ i then xs[i.toNat]? else none

/-- Division `a / b`: `none` when the divisor is zero. -/
def divide (a b : ℚ) : Option ℚ :=
  if b = 0 then none else some (a / b)

/-- Call `xs.slice(-n)`: the last `n` elements (all of them when there are fewer). -/
def sliceLast {α : Type} (xs : List α) (n : Nat) : List α :=
  xs.drop (xs.length - n)

/-- Call `xs.reduce((acc, curr, idx) => f(acc, curr, idx), init)` started at index `idx`,
for a callback that reads array elements. -/
def reduceIdx {α β : Type} (f : β → α → Nat → Option β) : List α → Nat → β → Option β
  | [], _, acc => some acc
  | x :: xs, idx, acc => (f acc x idx).bind (fun acc' => reduceIdx f xs (idx + 1) acc')

/-- The reducer `last.slice(1).reduce((count, curr, idx) => count + (curr !== last[idx] ? 1 : 0), 0)`
shared by `detectStreakAndBreak`, `recentSwitch` and `isBadPattern`. -/
def countSwitches (last : List Result) : Option Nat :=
  reduceIdx (fun count curr idx =>
    (readAt last idx).bind (fun prev => some (count + (if curr ≠ prev then 1 else 0))))
    (last.drop 1) 0 0

/-- Expression `n || 1` on an array length. -/
def orOne (n : Nat) : Nat := if n = 0 then 1 else n

/-- Method `x.toFixed(1)` on an exact rational: the nearest tenth, the larger one on a tie. -/
def toFixed1 (x : ℚ) : String :=
  let n : Nat := (Int.floor (|x| * 10 + 1 / 2)).toNat
  (if x < 0 then "-" else "") ++ toString (n / 10) ++ "." ++ toString (n % 10)

/-! ## Double-precision arithmetic -/

/-- The power `2^e` as a rational. -/
def pow2 (e : Int) : ℚ :=
  if 0 ≤ e then ((2 ^ e.toNat : Nat) : ℚ) else 1 / ((2 ^ (-e).toNat : Nat) : ℚ)

/-- The number of halvings that bring `n` below 2, at most `fuel` of them. -/
def halvings : Nat → Nat → Nat
  | 0, _ => 0
  | fuel + 1, n => if 2 ≤ n then halvings fuel (n / 2) + 1 else 0

/-- The binary logarithm `⌊log2 n⌋` of a positive natural number (`0` for `n = 0`). -/
def floorLog2 (n : Nat) : Nat := halvings n n

/-- The binary exponent `⌊log2 |x|⌋` of a nonzero rational. -/
def exponentOf (x : ℚ) : Int :=
  let e0 : Int := (floorLog2 x.num.natAbs : Int) - (floorLog2 x.den : Int)
  if pow2 e0 ≤ |x| then e0 else e0 - 1

/-- The integer nearest to `x`, the even one of the two when `x` lies halfway. -/
def roundHalfEven (x : ℚ) : Int :=
  let f : Int := Int.floor x
  let r : ℚ := x - (f : ℚ)
  if r < 1 / 2 then f
  else if 1 / 2 < r then f + 1
  else if f % 2 = 0 then f else f + 1

/-- The IEEE 754 binary64 value of the real `x`, as JavaScript rounds the exact result of
every arithmetic operation: round to nearest, ties to even, 53 significant bits, with the
fixed spacing `2^-1074` below `2^-1022`. The result is `none` when the rounded magnitude
reaches `2^1024`, where JavaScript yields `Infinity`. -/
def binary64 (x : ℚ) : Option ℚ :=
  if x = 0 then some 0
  else
    let ulp : ℚ := pow2 (max (exponentOf x) (-1022) - 52)
    let r : ℚ := (roundHalfEven (x / ulp) : ℚ) * ulp
    if |r| < pow2 1024 then some r else none

/-! ## Pattern tables -/

/-- Statement `counts[pattern] = (counts[pattern] || 0) + 1` on an object whose keys are
kept in insertion order. A key is the list of categories that `join(',')` renders. -/
def bump (counts : List (List Result × Nat)) (pattern : List Result) :
    List (List Result × Nat) :=
  match counts with
  | [] => [(pattern, 1)]
  | (k, n) :: rest => if k = pattern then (k, n + 1) :: rest else (k, n) :: bump rest pattern

/-- The patterns `xs.slice(i, i + len)` for `i = 0 .. xs.length - len`, in order. -/
def patternsOf (xs : List Result) (len : Nat) : List (List Result) :=
  (List.range (xs.length + 1 - len)).map (fun i => (xs.drop i).take len)

/-- The counting object built from the patterns, in insertion order. -/
def patternCounts (patterns : List (List Result)) : List (List Result × Nat) :=
  patterns.foldl bump []

/-- Expression `Object.entries(counts).sort((a, b) => b[1] - a[1])`: a stable sort by
decreasing count. -/
def sortEntries (counts : List (List Result × Nat)) : List (List Result × Nat) :=
  counts.insertionSort (fun a b => b.2 ≤ a.2)

/-- Rendering `pattern.join(',')`. -/
def joinPattern (pattern : List Result) : String :=
  String.intercalate "," (pattern.map Result.toString)

/-! ## Streak detection -/

/-- Return value of `detectStreakAndBreak`. -/
structure StreakInfo where
  streak : Nat
  currentResult : Option Result
  breakProb : ℚ
  deriving DecidableEq, Repr

/-- The loop `for (let i = history.length - 2; i >= 0; i--)` of `detectStreakAndBreak`;
the first numeric argument is `i + 1`, the second the running `streak`. -/
def streakLoop (history : List Entry) (currentResult : Result) : Nat → Nat → Option Nat
  | 0, streak => some streak
  | i + 1, streak =>
    (readAt history (i : Int)).bind (fun e =>
      if e.result = currentResult then streakLoop history currentResult i (streak + 1)
      else some streak)

/-- The break-probability policy of `detectStreakAndBreak` (source lines 62-71). -/
def breakProbPolicy (streak switches : Nat) (imbalance : ℚ) : ℚ :=
  if streak ≥ 6 then min (0.8 + (switches : ℚ) / 15 + imbalance * 0.3) 0.95
  else if streak ≥ 4 then min (0.5 + (switches : ℚ) / 12 + imbalance * 0.25) 0.9
  else if streak ≥ 2 ∧ switches ≥ 5 then 0.45
  else if streak = 1 ∧ switches ≥ 6 then 0.3
  else 0.0

/-- Function `detectStreakAndBreak(history)`. -/
def detectStreakAndBreak (history : List Entry) : Option StreakInfo :=
  if history.length = 0 then some ⟨0, none, 0.0⟩
  else
    (readAt history ((history.length : Int) - 1)).bind (fun lastEntry =>
    let currentResult := lastEntry.result
    (streakLoop history currentResult (history.length - 1) 1).bind (fun streak =>
    let last15 := (sliceLast history 15).map (fun h => h.result)
    if last15.length = 0 then some ⟨streak, some currentResult, 0.0⟩
    else
      (countSwitches last15).bind (fun switches =>
      let taiCount := (last15.filter (fun r => r = Result.Tai)).length
      let xiuCount := (last15.filter (fun r => r = Result.Xiu)).length
      (divide |(taiCount : ℚ) - (xiuCount : ℚ)| (last15.length : ℚ)).bind (fun imbalance =>
      some ⟨streak, some currentResult, breakProbPolicy streak switches imbalance⟩))))

/-! ## Performance tracking -/

/-- Body of the loop `for (let i = 0; i < lookback; i++)` of `evaluateModelPerformance`:
the new value of `correctCount` after iteration `i`. -/
def scoreStep (table : String → Option Nat) (history : List Entry)
    (correctCount : Nat) (i : Nat) : Option Nat :=
  (readAt history ((history.length : Int) - ((i : Int) + 2))).bind (fun voted =>
  let pred := (table voted.session).getD 0
  (readAt history ((history.length : Int) - ((i : Int) + 1))).bind (fun next =>
  let actual := next.result
  if (pred = 1 ∧ actual = Result.Tai) ∨ (pred = 2 ∧ actual = Result.Xiu)
  then some (correctCount + 1) else some correctCount))

/-- Function `evaluateModelPerformance(history, modelName, lookback)`; the callers of the
source leave `lookback` at its default `10`. -/
def evaluateModelPerformance (mp : ModelPredictions) (history : List Entry)
    (modelName : String) (lookback : Nat) : Option ℚ :=
  match mp.table modelName with
  | none => some 1.0
  | some table =>
    if history.length < 2 then some 1.0
    else
      let lookback := min lookback (history.length - 1)
      ((List.range lookback).foldlM (scoreStep table history) 0).bind (fun correctCount =>
      (if lookback > 0 then
        (divide ((correctCount : ℚ) - (lookback : ℚ) / 2) ((lookback : ℚ) / 2)).bind
          (fun q => some (1.0 + q))
       else some 1.0).bind (fun performanceScore =>
      some (max 0.0 (min 2.0 performanceScore))))

/-- Expression `1.0 + (correctCount - lookback / 2) / (lookback / 2)` of
`evaluateModelPerformance` (source line 86) in double precision: each of the five
operations is rounded by `binary64`, in the order JavaScript evaluates them. -/
def performanceScoreDouble (correctCount lookback : Nat) : Option ℚ :=
  (binary64 ((lookback : ℚ) / 2)).bind (fun half =>
  (binary64 ((correctCount : ℚ) - half)).bind (fun diff =>
  (binary64 ((lookback : ℚ) / 2)).bind (fun half2 =>
  (divide diff half2).bind (fun q =>
  (binary64 q).bind (fun quotient =>
  binary64 (1.0 + quotient))))))

/-- Function `evaluateModelPerformance(history, modelName, lookback)` with its numbers
taken as doubles instead of exact rationals. The counters `lookback` and `correctCount`
and the constants `0.0`, `1.0`, `2.0` are doubles without rounding, `Math.max` and
`Math.min` do not round, and the score expression is `performanceScoreDouble`. -/
def evaluateModelPerformanceDouble (mp : ModelPredictions) (history : List Entry)
    (modelName : String) (lookback : Nat) : Option ℚ :=
  match mp.table modelName with
  | none => some 1.0
  | some table =>
    if history.length < 2 then some 1.0
    else
      let lookback := min lookback (history.length - 1)
      ((List.range lookback).foldlM (scoreStep table history) 0).bind (fun correctCount =>
      (if lookback > 0 then performanceScoreDouble correctCount lookback
       else some 1.0).bind (fun performanceScore =>
      some (max 0.0 (min 2.0 performanceScore))))

/-! ## Predictors -/

/-- The streak regime shared by `trendAndProb`, `shortPattern`, `meanDeviation` and
`recentSwitch`: break the streak when `breakProb > 0.6`, follow it otherwise. -/
def streakVote (info : StreakInfo) : Nat :=
  if info.breakProb > 0.6 then (if info.currentResult = some Result.Tai then 2 else 1)
  else (if info.currentResult = some Result.Tai then 1 else 2)

/-- The reducer `weights.reduce((sum, w, i) => sum + (last[i] === category ? w : 0), 0)`. -/
def weightedSum (last : List Result) (category : Result) (weights : List ℚ) : Option ℚ :=
  reduceIdx (fun sum w i =>
    (readAt last i).bind (fun r => some (sum + (if r = category then w else 0))))
    weights 0 0

/-- The comparison `pattern[pattern.length - 1] !== last[last.length - 1] ? 1 : 2`. -/
def patternVote (pattern last : List Result) : Option Nat :=
  (readAt pattern ((pattern.length : Int) - 1)).bind (fun p =>
  (readAt last ((last.length : Int) - 1)).bind (fun l =>
  some (if p ≠ l then 1 else 2)))

/-- The closing vote `last[last.length - 1] === 'Xỉu' ? 1 : 2`. -/
def oppositeOfLast (last : List Result) : Option Nat :=
  (readAt last ((last.length : Int) - 1)).bind (fun l =>
  some (if l = Result.Xiu then 1 else 2))

/-- The sorted pattern table of `trendAndProb`: length-4 patterns of the last 10 of the
last 15 categories. -/
def trendTable (history : List Entry) : List (List Result × Nat) :=
  let last15 := (sliceLast history 15).map (fun h => h.result)
  let last10 := sliceLast last15 10
  let patterns := if last10.length ≥ 4 then patternsOf last10 4 else []
  sortEntries (patternCounts patterns)

/-- The last two alternatives of `trendAndProb`: the weighted margin
`totalWeight > 0 && |taiWeighted - xiuWeighted| / totalWeight >= 0.25`, then the closing
vote against the most recent category. -/
def weightedVote (taiWeighted xiuWeighted : ℚ) (last15 : List Result) : Option Nat :=
  let totalWeight := taiWeighted + xiuWeighted
  if totalWeight > 0 then
    (divide |taiWeighted - xiuWeighted| totalWeight).bind (fun margin =>
    if margin ≥ 0.25 then some (if taiWeighted > xiuWeighted then 1 else 2)
    else oppositeOfLast last15)
  else oppositeOfLast last15

/-- Function `trendAndProb(history)`; the read `Object.entries(patternCounts).sort(..)[0]`
of source line 149 is `readAt (trendTable history) 0`. -/
def trendAndProb (history : List Entry) : Option Nat :=
  (detectStreakAndBreak history).bind (fun info =>
  if info.streak ≥ 3 then some (streakVote info)
  else
    let last15 := (sliceLast history 15).map (fun h => h.result)
    if last15.length = 0 then some 0
    else
      let weights := (List.range last15.length).map (fun i => (1.3 : ℚ) ^ i)
      (weightedSum last15 Result.Tai weights).bind (fun taiWeighted =>
      (weightedSum last15 Result.Xiu weights).bind (fun xiuWeighted =>
      let last10 := sliceLast last15 10
      (readAt (trendTable history) 0).bind (fun mostCommon =>
      if mostCommon.2 ≥ 3 then patternVote mostCommon.1 last10
      else weightedVote taiWeighted xiuWeighted last15))))

/-- The sorted pattern table of `shortPattern`: length-2 patterns of the last 8
categories. -/
def shortTable (history : List Entry) : List (List Result × Nat) :=
  let last8 := (sliceLast history 8).map (fun h => h.result)
  let patterns := if last8.length ≥ 2 then patternsOf last8 2 else []
  sortEntries (patternCounts patterns)

/-- Function `shortPattern(history)`; the read `Object.entries(patternCounts).sort(..)[0]`
of source line 176 is `readAt (shortTable history) 0`. -/
def shortPattern (history : List Entry) : Option Nat :=
  (detectStreakAndBreak history).bind (fun info =>
  if info.streak ≥ 2 then some (streakVote info)
  else
    let last8 := (sliceLast history 8).map (fun h => h.result)
    if last8.length = 0 then some 0
    else
      (readAt (shortTable history) 0).bind (fun mostCommon =>
      if mostCommon.2 ≥ 2 then patternVote mostCommon.1 last8 else oppositeOfLast last8))

/-- Function `meanDeviation(history)`. -/
def meanDeviation (history : List Entry) : Option Nat :=
  (detectStreakAndBreak history).bind (fun info =>
  if info.streak ≥ 2 then some (streakVote info)
  else
    let last12 := (sliceLast history 12).map (fun h => h.result)
    if last12.length = 0 then some 0
    else
      let taiCount := (last12.filter (fun r => r = Result.Tai)).length
      let xiuCount := last12.length - taiCount
      (divide |(taiCount : ℚ) - (xiuCount : ℚ)| (last12.length : ℚ)).bind (fun deviation =>
      if deviation < 0.2 then oppositeOfLast last12
      else some (if xiuCount > taiCount then 1 else 2)))

/-- Function `recentSwitch(history)`. -/
def recentSwitch (history : List Entry) : Option Nat :=
  (detectStreakAndBreak history).bind (fun info =>
  if info.streak ≥ 2 then some (streakVote info)
  else
    let last10 := (sliceLast history 10).map (fun h => h.result)
    if last10.length = 0 then some 0
    else
      (countSwitches last10).bind (fun switches =>
      if switches ≥ 4 then oppositeOfLast last10 else oppositeOfLast last10))

/-- Function `isBadPattern(history)`. -/
def isBadPattern (history : List Entry) : Option Bool :=
  let last15 := (sliceLast history 15).map (fun h => h.result)
  if last15.length = 0 then some false
  else
    (countSwitches last15).bind (fun switches =>
    (detectStreakAndBreak history).bind (fun info =>
    some (decide (switches ≥ 6 ∨ info.streak ≥ 7))))

/-- Return value of `smartBridgeBreak`. -/
structure BridgePred where
  prediction : Nat
  breakProb : ℚ
  reason : String
  deriving DecidableEq, Repr

/-- The sorted pattern table of `smartBridgeBreak`: length-2 patterns of the last 20
categories. -/
def bridgeTable (history : List Entry) : List (List Result × Nat) :=
  let last20 := (sliceLast history 20).map (fun h => h.result)
  sortEntries (patternCounts (patternsOf last20 2))

/-- Function `smartBridgeBreak(history)`; the read `Object.entries(patternCounts).sort(..)[0]`
of source line 105 is `readAt (bridgeTable history) 0`. -/
def smartBridgeBreak (history : List Entry) : Option BridgePred :=
  if history.length < 5 then some ⟨0, 0.0, "Không đủ dữ liệu để theo/bẻ cầu"⟩
  else
    (detectStreakAndBreak history).bind (fun info =>
    let streak := info.streak
    let currentResult := info.currentResult
    let last20 := (sliceLast history 20).map (fun h => h.result)
    let lastScores : List ℚ := (sliceLast history 20).map (fun h => (h.totalScore : ℚ))
    (divide (lastScores.foldl (fun sum score => sum + score) 0)
      (orOne lastScores.length : ℚ)).bind (fun avgScore =>
    (divide (lastScores.foldl (fun sum score => sum + |score - avgScore|) 0)
      (orOne lastScores.length : ℚ)).bind (fun scoreDeviation =>
    let last5 := sliceLast last20 5
    (readAt (bridgeTable history) 0).bind (fun mostCommonPattern =>
    let isStablePattern : Bool := decide (mostCommonPattern.2 ≥ 3)
    let adjusted : ℚ × String :=
      if streak ≥ 3 ∧ scoreDeviation < 2.0 ∧ isStablePattern = false then
        (max (info.breakProb - 0.25) 0.1,
         "[Theo Cầu Thông Minh] Chuỗi " ++ toString streak ++ " " ++ showCurrent currentResult
           ++ " ổn định, tiếp tục theo cầu")
      else if streak ≥ 6 then
        (min (info.breakProb + 0.3) 0.95,
         "[Bẻ Cầu Thông Minh] Chuỗi " ++ toString streak ++ " " ++ showCurrent currentResult
           ++ " quá dài, khả năng bẻ cầu cao")
      else if streak ≥ 3 ∧ scoreDeviation > 3.5 then
        (min (info.breakProb + 0.25) 0.9,
         "[Bẻ Cầu Thông Minh] Biến động điểm số lớn (" ++ toFixed1 scoreDeviation
           ++ "), khả năng bẻ cầu tăng")
      else if isStablePattern = true ∧ last5.all (fun r => decide (some r = currentResult)) then
        (min (info.breakProb + 0.2) 0.85,
         "[Bẻ Cầu Thông Minh] Phát hiện mẫu lặp " ++ joinPattern mostCommonPattern.1
           ++ ", có khả năng bẻ cầu")
      else
        (max (info.breakProb - 0.2) 0.1,
         "[Theo Cầu Thông Minh] Không phát hiện mẫu bẻ mạnh, tiếp tục theo cầu")
    let breakProbability := adjusted.1
    let prediction : Nat :=
      if breakProbability > 0.5 then (if currentResult = some Result.Tai then 2 else 1)
      else (if currentResult = some Result.Tai then 1 else 2)
    some ⟨prediction, breakProbability, adjusted.2⟩))))

/-- Return value of `aiHtddLogic`. -/
structure AiPred where
  prediction : Option Result
  reason : String
  source : String
  deriving DecidableEq, Repr

/-- Function `aiHtddLogic(history)`. -/
def aiHtddLogic (history : List Entry) : Option AiPred :=
  let recentHistory := (sliceLast history 5).map (fun h => h.result)
  let recentScores : List ℚ := (sliceLast history 5).map (fun h => (h.totalScore : ℚ))
  let taiCount := (recentHistory.filter (fun r => r = Result.Tai)).length
  let xiuCount := (recentHistory.filter (fun r => r = Result.Xiu)).length
  (detectStreakAndBreak history).bind (fun info =>
  let streak := info.streak
  let currentResult := info.currentResult
  if streak ≥ 2 ∧ streak ≤ 4 then
    some ⟨currentResult,
      "[Theo Cầu Thông Minh] Chuỗi ngắn " ++ toString streak ++ " " ++ showCurrent currentResult
        ++ ", tiếp tục theo cầu", "AI HTDD"⟩
  else
    let last3 := (sliceLast history 3).map (fun h => h.result)
    let last4 := (sliceLast history 4).map (fun h => h.result)
    if history.length ≥ 3 ∧ last3 = [Result.Tai, Result.Xiu, Result.Tai] then
      some ⟨some Result.Xiu,
        "[Bẻ Cầu Thông Minh] Phát hiện mẫu 1T1X → tiếp theo nên đánh Xỉu", "AI HTDD"⟩
    else if history.length ≥ 3 ∧ last3 = [Result.Xiu, Result.Tai, Result.Xiu] then
      some ⟨some Result.Tai,
        "[Bẻ Cầu Thông Minh] Phát hiện mẫu 1X1T → tiếp theo nên đánh Tài", "AI HTDD"⟩
    else if history.length ≥ 4 ∧ last4 = [Result.Tai, Result.Tai, Result.Xiu, Result.Xiu] then
      some ⟨some Result.Tai,
        "[Theo Cầu Thông Minh] Phát hiện mẫu 2T2X → tiếp theo nên đánh Tài", "AI HTDD"⟩
    else if history.length ≥ 4 ∧ last4 = [Result.Xiu, Result.Xiu, Result.Tai, Result.Tai] then
      some ⟨some Result.Xiu,
        "[Theo Cầu Thông Minh] Phát hiện mẫu 2X2T → tiếp theo nên đánh Xỉu", "AI HTDD"⟩
    else if history.length ≥ 7 ∧ (sliceLast history 7).all (fun h => decide (h.result = Result.Xiu)) then
      some ⟨some Result.Tai,
        "[Bẻ Cầu Thông Minh] Chuỗi Xỉu quá dài (7 lần) → dự đoán Tài", "AI HTDD"⟩
    else if history.length ≥ 7 ∧ (sliceLast history 7).all (fun h => decide (h.result = Result.Tai)) then
      some ⟨some Result.Xiu,
        "[Bẻ Cầu Thông Minh] Chuỗi Tài quá dài (7 lần) → dự đoán Xỉu", "AI HTDD"⟩
    else
      (divide (recentScores.foldl (fun sum score => sum + score) 0)
        (orOne recentScores.length : ℚ)).bind (fun avgScore =>
      if avgScore > 11 then
        some ⟨some Result.Tai,
          "[Theo Cầu Thông Minh] Điểm trung bình cao (" ++ toFixed1 avgScore ++ ") → dự đoán Tài",
          "AI HTDD"⟩
      else if avgScore < 7 then
        some ⟨some Result.Xiu,
          "[Theo Cầu Thông Minh] Điểm trung bình thấp (" ++ toFixed1 avgScore ++ ") → dự đoán Xỉu",
          "AI HTDD"⟩
      else if taiCount > xiuCount + 1 then
        some ⟨some Result.Xiu,
          "[Bẻ Cầu Thông Minh] Tài chiếm đa số (" ++ toString taiCount ++ "/"
            ++ toString recentHistory.length ++ ") → dự đoán Xỉu", "AI HTDD"⟩
      else if xiuCount > taiCount + 1 then
        some ⟨some Result.Tai,
          "[Bẻ Cầu Thông Minh] Xỉu chiếm đa số (" ++ toString xiuCount ++ "/"
            ++ toString recentHistory.length ++ ") → dự đoán Tài", "AI HTDD"⟩
      else
        let overallTai := (history.filter (fun h => h.result = Result.Tai)).length
        let overallXiu := (history.filter (fun h => h.result = Result.Xiu)).length
        if overallTai > overallXiu then
          some ⟨some Result.Xiu,
            "[Bẻ Cầu Thông Minh] Tổng thể Tài nhiều hơn → dự đoán Xỉu", "AI HTDD"⟩
        else
          some ⟨some Result.Tai,
            "[Theo Cầu Thông Minh] Tổng thể Xỉu nhiều hơn hoặc bằng → dự đoán Tài", "AI HTDD"⟩))

/-! ## Ensemble combiner -/

/-- Return value of `generatePrediction`. -/
structure Prediction where
  prediction : Result
  reason : String
  do_tin_cay : ℚ
  dudoan_vi : String
  deriving DecidableEq, Repr

/-- The statement `if (vote === 1) taiScore += w; else if (vote === 2) xiuScore += w;`
on the pair `(taiScore, xiuScore)`. -/
def addVote (scores : ℚ × ℚ) (vote : Nat) (w : ℚ) : ℚ × ℚ :=
  if vote = 1 then (scores.1 + w, scores.2)
  else if vote = 2 then (scores.1, scores.2 + w)
  else scores

/-- The votes computed at source lines 292-297. -/
structure Votes where
  trendPred : Nat
  shortPred : Nat
  meanPred : Nat
  switchPred : Nat
  bridgePred : BridgePred
  aiPred : AiPred

/-- The object `modelScores` (source lines 303-309). -/
structure ModelScores where
  trend : ℚ
  short : ℚ
  mean : ℚ
  switch : ℚ
  bridge : ℚ

/-- Source lines 292-297: the six predictors, in call order. -/
def computeVotes (history : List Entry) : Option Votes :=
  (trendAndProb history).bind (fun trendPred =>
  (shortPattern history).bind (fun shortPred =>
  (meanDeviation history).bind (fun meanPred =>
  (recentSwitch history).bind (fun switchPred =>
  (smartBridgeBreak history).bind (fun bridgePred =>
  (aiHtddLogic history).bind (fun aiPred =>
  some ⟨trendPred, shortPred, meanPred, switchPred, bridgePred, aiPred⟩))))))

/-- Source lines 298-302: the five assignments `modelPredictions[model][currentIndex] = vote`. -/
def recordVotes (mp : ModelPredictions) (currentIndex : String) (v : Votes) :
    ModelPredictions :=
  ⟨setVote mp.trend currentIndex v.trendPred,
   setVote mp.short currentIndex v.shortPred,
   setVote mp.mean currentIndex v.meanPred,
   setVote mp.switch currentIndex v.switchPred,
   setVote mp.bridge currentIndex v.bridgePred.prediction⟩

/-- Source lines 303-309: the five performance scores, read from the updated store. -/
def computeScores (mp : ModelPredictions) (history : List Entry) : Option ModelScores :=
  (evaluateModelPerformance mp history "trend" 10).bind (fun trend =>
  (evaluateModelPerformance mp history "short" 10).bind (fun short =>
  (evaluateModelPerformance mp history "mean" 10).bind (fun mean =>
  (evaluateModelPerformance mp history "switch" 10).bind (fun switch =>
  (evaluateModelPerformance mp history "bridge" 10).bind (fun bridge =>
  some ⟨trend, short, mean, switch, bridge⟩)))))

/-- Source lines 310-325: the weights, accumulated into `(taiScore, xiuScore)`. -/
def accumulate (streak : Nat) (v : Votes) (sc : ModelScores) : ℚ × ℚ :=
  let wTrend : ℚ := if streak ≥ 3 then 0.15 * sc.trend else 0.2 * sc.trend
  let wShort : ℚ := if streak ≥ 2 then 0.2 * sc.short else 0.15 * sc.short
  let wMean : ℚ := 0.1 * sc.mean
  let wSwitch : ℚ := 0.1 * sc.switch
  let wBridge : ℚ := if streak ≥ 3 then 0.35 * sc.bridge else 0.3 * sc.bridge
  let wAihtdd : ℚ := if streak ≥ 2 then 0.3 else 0.25
  let s5 := addVote (addVote (addVote (addVote (addVote (0, 0) v.trendPred wTrend)
    v.shortPred wShort) v.meanPred wMean) v.switchPred wSwitch) v.bridgePred.prediction wBridge
  if v.aiPred.prediction = some Result.Tai then (s5.1 + wAihtdd, s5.2)
  else (s5.1, s5.2 + wAihtdd)

/-- Source lines 326-329: both accumulators are halved on a bad pattern. -/
def applyBadPattern (bad : Bool) (s : ℚ × ℚ) : ℚ × ℚ :=
  if bad = true then (s.1 * 0.5, s.2 * 0.5) else s

/-- Source lines 330-334: the bonus for the vote of `smartBridgeBreak`. -/
def applyBonus (streak : Nat) (bridgePred : BridgePred) (s : ℚ × ℚ) : ℚ × ℚ :=
  if bridgePred.breakProb > 0.5 then
    (if bridgePred.prediction = 1 then (s.1 + 0.4, s.2) else (s.1, s.2 + 0.4))
  else if streak ≥ 3 then
    (if bridgePred.prediction = 1 then (s.1 + 0.35, s.2) else (s.1, s.2 + 0.35))
  else s

/-- Source lines 335-343: the final category, the confidence and the returned object. -/
def finalResult (s : ℚ × ℚ) (aiReason bridgeReason : String) : Option Prediction :=
  let taiScore := s.1
  let xiuScore := s.2
  let finalPrediction := if taiScore > xiuScore then Result.Tai else Result.Xiu
  let totalScore := taiScore + xiuScore
  (if totalScore > 0 then
    (if taiScore > xiuScore then divide taiScore totalScore else divide xiuScore totalScore)
   else some 0.5).bind (fun confidence =>
  some ⟨finalPrediction, aiReason ++ " | " ++ bridgeReason, confidence,
    "Dự đoán " ++ finalPrediction.toString⟩)

/-- Source lines 282-288: the answer to a history that is missing or shorter than 5. -/
def randomPrediction (random : ℚ) : Prediction :=
  let randomResult := if random < 0.5 then Result.Tai else Result.Xiu
  ⟨randomResult, "Không đủ lịch sử, dự đoán ngẫu nhiên", 0.5, "Dự đoán " ++ randomResult.toString⟩

/-- Function `generatePrediction(history)`, with the store and the value of
`Math.random()` as arguments; it returns the prediction and the updated store. -/
def generatePrediction (mp : ModelPredictions) (random : ℚ) (history : Option (List Entry)) :
    Option (Prediction × ModelPredictions) :=
  match history with
  | none => some (randomPrediction random, mp)
  | some history =>
    if history.length < 5 then some (randomPrediction random, mp)
    else
      (readAt history ((history.length : Int) - 1)).bind (fun lastEntry =>
      let currentIndex := lastEntry.session
      (detectStreakAndBreak history).bind (fun info =>
      let streak := info.streak
      (computeVotes history).bind (fun v =>
      let mp1 := recordVotes mp currentIndex v
      (computeScores mp1 history).bind (fun modelScores =>
      let s6 := accumulate streak v modelScores
      (isBadPattern history).bind (fun bad =>
      let s8 := applyBonus streak v.bridgePred (applyBadPattern bad s6)
      (finalResult s8 v.aiPred.reason v.bridgePred.reason).bind (fun result =>
      some (result, mp1)))))))

/-! ## Functional descriptions used in the statements -/

/-- Length of the maximal trailing run of entries whose category is `c`. -/
def trailingRun (c : Result) (history : List Entry) : Nat :=
  (history.reverse.takeWhile (fun e => decide (e.result = c))).length

/-- Number of adjacent positions of a category list whose two categories differ. -/
def switchCount : List Result → Nat
  | a :: b :: rest => (if b ≠ a then 1 else 0) + switchCount (b :: rest)
  | _ => 0

/-- The imbalance `|taiCount - xiuCount| / length` of a window of categories. -/
def imbalanceOf (last : List Result) : ℚ :=
  |((last.filter (fun r => r = Result.Tai)).length : ℚ)
    - ((last.filter (fun r => r = Result.Xiu)).length : ℚ)| / (last.length : ℚ)

/-- The categories of the last 15 entries. -/
def last15Of (history : List Entry) : List Result :=
  (sliceLast history 15).map (fun h => h.result)

/-- The five model names under which `generatePrediction` records votes. -/
def knownModels : List String := ["trend", "short", "mean", "switch", "bridge"]

/-- Whether the vote stored for the session of entry `history[len - 2 - i]` (none when
absent) is A (`1`) while entry `history[len - 1 - i]` has category A, or is B (`2`) while
that following entry has category B. -/
def voteCorrect (table : String → Option Nat) (history : List Entry) (i : Nat) : Bool :=
  match history[history.length - 2 - i]?, history[history.length - 1 - i]? with
  | some voted, some next =>
    decide ((table voted.session = some 1 ∧ next.result = Result.Tai) ∨
      (table voted.session = some 2 ∧ next.result = Result.Xiu))
  | _, _ => false

/-- The number of `i` in `[0, w)` whose stored vote is correct. -/
def correctCount (table : String → Option Nat) (history : List Entry) (w : Nat) : Nat :=
  ((List.range w).filter (voteCorrect table history)).length

/-- The score formula `clamp(0, 2, 1 + (c - w/2) / (w/2))`. -/
def clampedScore (c w : Nat) : ℚ :=
  max 0 (min 2 (1 + ((c : ℚ) - (w : ℚ) / 2) / ((w : ℚ) / 2)))

/-- A ten-entry history: five B entries followed by five A entries, sessions `#1` to `#10`. -/
def longWindow : List Entry :=
  [⟨"#1", 7, Result.Xiu⟩, ⟨"#2", 8, Result.Xiu⟩, ⟨"#3", 6, Result.Xiu⟩, ⟨"#4", 9, Result.Xiu⟩,
   ⟨"#5", 7, Result.Xiu⟩, ⟨"#6", 12, Result.Tai⟩, ⟨"#7", 13, Result.Tai⟩,
   ⟨"#8", 11, Result.Tai⟩, ⟨"#9", 14, Result.Tai⟩, ⟨"#10", 12, Result.Tai⟩]

/-- The last five entries of `longWindow`: five A entries, sessions `#6` to `#10`. -/
def shortWindow : List Entry :=
  [⟨"#6", 12, Result.Tai⟩, ⟨"#7", 13, Result.Tai⟩, ⟨"#8", 11, Result.Tai⟩,
   ⟨"#9", 14, Result.Tai⟩, ⟨"#10", 12, Result.Tai⟩]

/-- The vote number of a category: 1 for A (`'Tài'`), 2 for B (`'Xỉu'`); the unclassified
value is no vote. -/
def categoryVote : Result → Nat
  | .Tai => 1
  | .Xiu => 2
  | .KhongXacDinh => 0

/-- The other one of the two categories A and B. -/
def opposite : Result → Result
  | .Tai => .Xiu
  | .Xiu => .Tai
  | .KhongXacDinh => .KhongXacDinh

/-- The accumulators `(taiScore, xiuScore)` of `generatePrediction` right before the final
comparison: the weighted votes, halved on a bad pattern, plus the bonus. -/
def finalScores (streak : Nat) (v : Votes) (sc : ModelScores) (bad : Bool) : ℚ × ℚ :=
  applyBonus streak v.bridgePred (applyBadPattern bad (accumulate streak v sc))

/-- Length of the maximal trailing run of the category `c` in a list of categories. -/
def categoryRun (c : Result) (cats : List Result) : Nat :=
  (cats.reverse.takeWhile (fun r => decide (r = c))).length

/-- The fifteen categories B,A,B,…,A,B: strictly alternating and ending in B. -/
def alternating15 : List Result :=
  [Result.Xiu, Result.Tai, Result.Xiu, Result.Tai, Result.Xiu, Result.Tai, Result.Xiu,
   Result.Tai, Result.Xiu, Result.Tai, Result.Xiu, Result.Tai, Result.Xiu, Result.Tai,
   Result.Xiu]

/-- A fifteen-entry history with the categories `alternating15`, sessions `#1` to `#15`. -/
def alternatingHistory : List Entry :=
  [⟨"#1", 8, Result.Xiu⟩, ⟨"#2", 12, Result.Tai⟩, ⟨"#3", 7, Result.Xiu⟩,
   ⟨"#4", 13, Result.Tai⟩, ⟨"#5", 9, Result.Xiu⟩, ⟨"#6", 11, Result.Tai⟩,
   ⟨"#7", 10, Result.Xiu⟩, ⟨"#8", 14, Result.Tai⟩, ⟨"#9", 6, Result.Xiu⟩,
   ⟨"#10", 12, Result.Tai⟩, ⟨"#11", 8, Result.Xiu⟩, ⟨"#12", 15, Result.Tai⟩,
   ⟨"#13", 9, Result.Xiu⟩, ⟨"#14", 11, Result.Tai⟩, ⟨"#15", 7, Result.Xiu⟩]

/-- The count stored for the pattern `k` in a counting object, `counts[k] || 0`. -/
def countOf (counts : List (List Result × Nat)) (k : List Result) : Nat :=
  match counts with
  | [] => 0
  | (key, n) :: rest => if key = k then n else countOf rest k

/-- The history of exactly seven A entries, sessions `#1` to `#7`. -/
def sevenTai : List Entry :=
  [⟨"#1", 12, Result.Tai⟩, ⟨"#2", 11, Result.Tai⟩, ⟨"#3", 15, Result.Tai⟩,
   ⟨"#4", 13, Result.Tai⟩, ⟨"#5", 12, Result.Tai⟩, ⟨"#6", 14, Result.Tai⟩,
   ⟨"#7", 11, Result.Tai⟩]

/-- A five-entry history whose last two entries are unclassified (scores 3 and 18). -/
def unclassifiedTail : List Entry :=
  [⟨"#1", 12, Result.Tai⟩, ⟨"#2", 8, Result.Xiu⟩, ⟨"#3", 13, Result.Tai⟩,
   ⟨"#4", 3, Result.KhongXacDinh⟩, ⟨"#5", 18, Result.KhongXacDinh⟩]

/-- A store whose only vote is the vote 1 (A) of the model `trend` for session `#6`. -/
def oneVoteStore : ModelPredictions :=
  ⟨setVote (fun _ => none) "#6" 1, fun _ => none, fun _ => none, fun _ => none,
    fun _ => none⟩

/-- The history of six unclassified entries (total 3 or 18), sessions `#1` to `#6`. -/
def sixUnclassified : List Entry :=
  [⟨"#1", 3, Result.KhongXacDinh⟩, ⟨"#2", 18, Result.KhongXacDinh⟩,
   ⟨"#3", 3, Result.KhongXacDinh⟩, ⟨"#4", 18, Result.KhongXacDinh⟩,
   ⟨"#5", 3, Result.KhongXacDinh⟩, ⟨"#6", 18, Result.KhongXacDinh⟩]

/-! ## Basic facts about the checked primitives -/

theorem readAt_natCast {α : Type} (xs : List α) (i : Nat) : readAt xs (i : Int) = xs[i]? := by
  simp [readAt]

theorem readAt_of_lt {α : Type} (xs : List α) (i : Nat) (h : i < xs.length) :
    readAt xs (i : Int) = some (xs.get ⟨i, h⟩) := by
  simp [readAt, List.getElem?_eq_getElem h]

theorem readAt_length_sub {α : Type} (xs : List α) (k : Nat) (h : k + 1 ≤ xs.length) :
    readAt xs ((xs.length : Int) - ((k : Int) + 1)) = xs[xs.length - (k + 1)]? := by
  have e : (xs.length : Int) - ((k : Int) + 1) = ((xs.length - (k + 1) : Nat) : Int) := by
    omega
  rw [e, readAt_natCast]

theorem readAt_last {α : Type} (xs : List α) (h : xs ≠ []) :
    readAt xs ((xs.length : Int) - 1) = some (xs.getLast h) := by
  have hlen : 0 < xs.length := List.length_pos.mpr h
  have e : (xs.length : Int) - 1 = ((xs.length - 1 : Nat) : Int) := by omega
  rw [e, readAt_natCast, List.getLast_eq_getElem]
  exact List.getElem?_eq_getElem (by omega)

theorem divide_of_ne (a b : ℚ) (h : b ≠ 0) : divide a b = some (a / b) := by
  simp [divide, h]

theorem sliceLast_length {α : Type} (xs : List α) (n : Nat) :
    (sliceLast xs n).length = min n xs.length := by
  simp [sliceLast]
  omega

theorem sliceLast_ne_nil {α : Type} (xs : List α) (n : Nat) (h : xs ≠ []) (hn : 0 < n) :
    sliceLast xs n ≠ [] := by
  have hlen : 0 < xs.length := List.length_pos.mpr h
  intro hnil
  have := sliceLast_length xs n
  rw [hnil, List.length_nil] at this
  omega

/-- A reduction whose callback succeeds at every index it is called with succeeds. -/
theorem reduceIdx_isSome {α β : Type} (f : β → α → Nat → Option β) (xs : List α)
    (idx : Nat) (acc : β)
    (hf : ∀ acc x j, idx ≤ j → j < idx + xs.length → ∃ b, f acc x j = some b) :
    ∃ b, reduceIdx f xs idx acc = some b := by
  induction xs generalizing idx acc with
  | nil => exact ⟨acc, rfl⟩
  | cons x xs ih =>
    obtain ⟨b, hb⟩ := hf acc x idx (le_refl _) (by simp)
    have := ih (idx + 1) b (fun acc x j h1 h2 => hf acc x j (by omega) (by simp; omega))
    simpa [reduceIdx, hb] using this

/-! ## Streak detection -/

theorem trailingRun_concat (c : Result) (l : List Entry) (e : Entry) :
    trailingRun c (l ++ [e]) = if e.result = c then 1 + trailingRun c l else 0 := by
  unfold trailingRun
  rw [List.reverse_append, List.reverse_singleton, List.singleton_append, List.takeWhile_cons]
  simp only [decide_eq_true_eq]
  by_cases hc : e.result = c
  · rw [if_pos hc, if_pos hc, List.length_cons]
    omega
  · rw [if_neg hc, if_neg hc]
    rfl

theorem streakLoop_eq (history : List Entry) (c : Result) (k s : Nat)
    (hk : k ≤ history.length) :
    streakLoop history c k s = some (s + trailingRun c (history.take k)) := by
  induction k generalizing s with
  | zero => simp [streakLoop, trailingRun]
  | succ i ih =>
    have hi : i < history.length := hk
    have htake : history.take (i + 1) = history.take i ++ [history.get ⟨i, hi⟩] := by
      rw [List.take_succ, List.getElem?_eq_getElem hi]
      rfl
    rw [streakLoop, readAt_of_lt history i hi, htake, trailingRun_concat]
    simp only [Option.bind_eq_bind, Option.some_bind]
    by_cases hc : (history.get ⟨i, hi⟩).result = c
    · rw [if_pos hc, if_pos hc, ih (s + 1) (by omega)]
      congr 1
      omega
    · rw [if_neg hc, if_neg hc]
      rfl

theorem countSwitches_aux (last pre : List Result) (a : Result) (rest : List Result)
    (acc : Nat) (hl : last = pre ++ a :: rest) :
    reduceIdx (fun count curr idx =>
      (readAt last idx).bind (fun prev => some (count + (if curr ≠ prev then 1 else 0))))
      rest pre.length acc = some (acc + switchCount (a :: rest)) := by
  induction rest generalizing pre a acc with
  | nil => simp [reduceIdx, switchCount]
  | cons b rest ih =>
    have hread : readAt last (pre.length : Int) = some a := by
      rw [readAt_natCast, hl, List.getElem?_append_right (le_refl _)]
      simp
    have hl2 : last = (pre ++ [a]) ++ b :: rest := by simp [hl]
    have := ih (pre ++ [a]) b (acc + (if b ≠ a then 1 else 0)) hl2
    simp only [List.length_append, List.length_singleton] at this
    simp only [reduceIdx, hread, Option.bind_eq_bind, Option.some_bind, this, switchCount]
    congr 1
    omega

theorem countSwitches_eq (last : List Result) : countSwitches last = some (switchCount last) := by
  cases last with
  | nil => simp [countSwitches, reduceIdx, switchCount]
  | cons a rest =>
    have := countSwitches_aux (a :: rest) [] a rest 0 rfl
    simpa [countSwitches] using this

theorem last15Of_length (history : List Entry) :
    (last15Of history).length = min 15 history.length := by
  simp [last15Of, sliceLast_length]

/-- Closed form of `detectStreakAndBreak` on a non-empty history. -/
theorem detectStreakAndBreak_eq (history : List Entry) (last : Entry)
    (h : history.getLast? = some last) :
    detectStreakAndBreak history = some
      ⟨trailingRun last.result history, some last.result,
       breakProbPolicy (trailingRun last.result history)
         (switchCount (last15Of history)) (imbalanceOf (last15Of history))⟩ := by
  have hne : history ≠ [] := by
    intro hnil
    simp [hnil] at h
  obtain ⟨l, e, rfl⟩ : ∃ l e, history = l ++ [e] :=
    ⟨history.dropLast, history.getLast hne, (List.dropLast_append_getLast hne).symm⟩
  have he : e = last := by simpa using h
  subst he
  have h15 : (last15Of (l ++ [e])).length ≠ 0 := by
    rw [last15Of_length]
    simp
  have h15n : ((sliceLast (l ++ [e]) 15).map (fun h => h.result)).length ≠ 0 := h15
  have h15q : ((((sliceLast (l ++ [e]) 15).map (fun h => h.result)).length : Nat) : ℚ) ≠ 0 := by
    exact_mod_cast h15
  have hread : readAt (l ++ [e]) (((l ++ [e]).length : Int) - 1) = some e := by
    rw [readAt_last _ hne]
    simp
  have hloop : streakLoop (l ++ [e]) e.result ((l ++ [e]).length - 1) 1
      = some (trailingRun e.result (l ++ [e])) := by
    rw [streakLoop_eq _ _ _ _ (by omega), trailingRun_concat]
    simp
  unfold detectStreakAndBreak
  rw [if_neg (by simp), hread]
  simp only [Option.bind_eq_bind, Option.some_bind]
  rw [hloop]
  simp only [Option.some_bind]
  rw [if_neg h15n, countSwitches_eq]
  simp only [Option.some_bind]
  rw [divide_of_ne _ _ h15q]
  rfl

theorem detectStreakAndBreak_nil : detectStreakAndBreak [] = some ⟨0, none, 0⟩ := by
  simp [detectStreakAndBreak]
  norm_num

theorem detectStreakAndBreak_total (history : List Entry) :
    ∃ info, detectStreakAndBreak history = some info := by
  cases h : history.getLast? with
  | none =>
    rw [List.getLast?_eq_none_iff] at h
    subst h
    exact ⟨_, detectStreakAndBreak_nil⟩
  | some last => exact ⟨_, detectStreakAndBreak_eq history last h⟩

theorem takeWhile_length_spec {α : Type} (p : α → Bool) (l : List α) :
    (∀ i e, i < (l.takeWhile p).length → l[i]? = some e → p e = true) ∧
    ((l.takeWhile p).length = l.length ∨
      ∃ e, l[(l.takeWhile p).length]? = some e ∧ p e = false) := by
  induction l with
  | nil => simp
  | cons a l ih =>
    cases hp : p a with
    | false =>
      refine ⟨?_, Or.inr ⟨a, ?_, hp⟩⟩
      · intro i e hi
        simp [List.takeWhile_cons, hp] at hi
      · simp [List.takeWhile_cons, hp]
    | true =>
      have hlen : ((a :: l).takeWhile p).length = (l.takeWhile p).length + 1 := by
        simp [List.takeWhile_cons, hp]
      rw [hlen]
      refine ⟨?_, ?_⟩
      · intro i e hi he
        cases i with
        | zero =>
          simp at he
          rw [← he]
          exact hp
        | succ j =>
          simp at he
          exact ih.1 j e (by omega) he
      · rcases ih.2 with h | ⟨e, he, hpe⟩
        · left
          simp [h]
        · right
          exact ⟨e, by simpa using he, hpe⟩

theorem trailingRun_le (c : Result) (history : List Entry) :
    trailingRun c history ≤ history.length := by
  unfold trailingRun
  calc (history.reverse.takeWhile _).length ≤ history.reverse.length :=
        (List.takeWhile_sublist _).length_le
    _ = history.length := List.length_reverse _

theorem trailingRun_all (c : Result) (history : List Entry) (i : Nat) (e : Entry)
    (hi : history.length - trailingRun c history ≤ i) (he : history[i]? = some e) :
    e.result = c := by
  have hlt : i < history.length := by
    by_contra hge
    rw [List.getElem?_eq_none (by omega)] at he
    cases he
  have hle := trailingRun_le c history
  have hrev : history.reverse[history.length - 1 - i]? = some e := by
    rw [List.getElem?_reverse (by omega)]
    rw [← he]
    congr 1
    omega
  have := (takeWhile_length_spec (fun e : Entry => decide (e.result = c)) history.reverse).1
    (history.length - 1 - i) e (by unfold trailingRun at hi hle; omega) hrev
  simpa using this

theorem trailingRun_maximal (c : Result) (history : List Entry) :
    trailingRun c history = history.length ∨
      ∃ e, history[history.length - trailingRun c history - 1]? = some e ∧ e.result ≠ c := by
  rcases (takeWhile_length_spec (fun e : Entry => decide (e.result = c)) history.reverse).2
    with h | ⟨e, he, hpe⟩
  · left
    simpa [trailingRun] using h
  · right
    have hlt : trailingRun c history < history.length := by
      by_contra hge
      unfold trailingRun at hge
      rw [List.getElem?_eq_none (by simpa using Nat.le_of_not_lt hge)] at he
      cases he
    refine ⟨e, ?_, by simpa using hpe⟩
    rw [List.getElem?_reverse (by simpa [trailingRun] using hlt)] at he
    rw [← he]
    congr 1
    unfold trailingRun
    omega

theorem breakProbPolicy_bounds (streak switches : Nat) (imbalance : ℚ) (h : 0 ≤ imbalance) :
    0 ≤ breakProbPolicy streak switches imbalance ∧
      breakProbPolicy streak switches imbalance ≤ 0.95 := by
  have hsw : (0 : ℚ) ≤ (switches : ℚ) := Nat.cast_nonneg _
  unfold breakProbPolicy
  split_ifs
  · refine ⟨le_min ?_ (by norm_num), min_le_right _ _⟩
    have : (0 : ℚ) ≤ (switches : ℚ) / 15 := by positivity
    have : (0 : ℚ) ≤ imbalance * 0.3 := by positivity
    linarith
  · refine ⟨le_min ?_ (by norm_num), le_trans (min_le_right _ _) (by norm_num)⟩
    have : (0 : ℚ) ≤ (switches : ℚ) / 12 := by positivity
    have : (0 : ℚ) ≤ imbalance * 0.25 := by positivity
    linarith
  · norm_num
  · norm_num
  · norm_num

theorem imbalanceOf_nonneg (last : List Result) : 0 ≤ imbalanceOf last := by
  unfold imbalanceOf
  positivity

/-! ## Claims C4 to C7 -/

/-- C4: for every history, empty or not, `detectStreakAndBreak` returns a result whose
`breakProb` lies between `0` and `0.95`. -/
theorem detectStreakAndBreak_breakProb_bounds (history : List Entry) :
    ∃ info, detectStreakAndBreak history = some info ∧
      0 ≤ info.breakProb ∧ info.breakProb ≤ 0.95 := by
  cases h : history.getLast? with
  | none =>
    rw [List.getLast?_eq_none_iff] at h
    subst h
    exact ⟨_, detectStreakAndBreak_nil, by norm_num, by norm_num⟩
  | some last =>
    exact ⟨_, detectStreakAndBreak_eq history last h,
      breakProbPolicy_bounds _ _ _ (imbalanceOf_nonneg _)⟩

/-- C5: the break-probability policy of `detectStreakAndBreak` is nondecreasing in the
streak length: for every switch count, every imbalance in `[0, 1]` and all streak lengths
`1 ≤ s1 ≤ s2`, the policy at `s1` is at most the policy at `s2`. -/
theorem breakProbPolicy_mono_streak (s1 s2 switches : Nat) (imbalance : ℚ)
    (h0 : 0 ≤ imbalance) (_h1 : imbalance ≤ 1) (hs1 : 1 ≤ s1) (hs : s1 ≤ s2) :
    breakProbPolicy s1 switches imbalance ≤ breakProbPolicy s2 switches imbalance := by
  have hsw : (0 : ℚ) ≤ (switches : ℚ) := Nat.cast_nonneg _
  unfold breakProbPolicy
  split_ifs <;> try omega
  all_goals try norm_num
  all_goals first
    | linarith
    | (by_cases hle : (switches : ℚ) ≤ 18
       · exact Or.inl (by linarith)
       · exact Or.inr (by linarith))

/-- Witness of C5: streaks 1 and 6 with 6 switches and imbalance 1/5. -/
theorem breakProbPolicy_mono_streak_witness :
    breakProbPolicy 1 6 (1 / 5) ≤ breakProbPolicy 6 6 (1 / 5) :=
  breakProbPolicy_mono_streak 1 6 6 (1 / 5) (by norm_num) (by norm_num) (by norm_num)
    (by norm_num)

/-- C7: for every integer score, `processResult` returns `'Xỉu'` exactly when
`4 ≤ score ≤ 10`, `'Tài'` exactly when `11 ≤ score ≤ 17`, and `'Không xác định'` for
every other score, in particular for 3 and 18. -/
theorem processResult_spec (score : Int) :
    (processResult score = Result.Xiu ↔ 4 ≤ score ∧ score ≤ 10) ∧
    (processResult score = Result.Tai ↔ 11 ≤ score ∧ score ≤ 17) ∧
    (processResult score = Result.KhongXacDinh ↔ ¬ (4 ≤ score ∧ score ≤ 17)) ∧
    processResult 3 = Result.KhongXacDinh ∧ processResult 18 = Result.KhongXacDinh := by
  unfold processResult
  refine ⟨?_, ?_, ?_, by decide, by decide⟩
  all_goals
    split_ifs
    all_goals simp
    all_goals omega

/-- C6: on the empty history `detectStreakAndBreak` returns streak 0, no current result and
break probability 0; on a non-empty history it returns the category of the last entry and
the length of the maximal trailing run of that category: the streak is at least 1, the last
`streak` entries all have the last category, and the streak either covers the whole history
or the entry just before the run has another category. Categories A,A,A,B give streak 1. -/
theorem detectStreakAndBreak_streak_spec (history : List Entry) :
    (history = [] → detectStreakAndBreak history = some ⟨0, none, 0⟩) ∧
    (∀ last, history.getLast? = some last →
      ∃ info, detectStreakAndBreak history = some info ∧
        info.currentResult = some last.result ∧
        1 ≤ info.streak ∧ info.streak ≤ history.length ∧
        (∀ i e, history.length - info.streak ≤ i → history[i]? = some e →
          e.result = last.result) ∧
        (info.streak = history.length ∨
          ∃ e, history[history.length - info.streak - 1]? = some e ∧
            e.result ≠ last.result)) ∧
    (∀ (s1 s2 s3 s4 : String) (x1 x2 x3 x4 : Int),
      (detectStreakAndBreak [⟨s1, x1, Result.Tai⟩, ⟨s2, x2, Result.Tai⟩,
        ⟨s3, x3, Result.Tai⟩, ⟨s4, x4, Result.Xiu⟩]).map (fun info => info.streak)
        = some 1) := by
  refine ⟨?_, ?_, ?_⟩
  · intro h
    subst h
    exact detectStreakAndBreak_nil
  · intro last hlast
    refine ⟨_, detectStreakAndBreak_eq history last hlast, rfl, ?_, trailingRun_le _ _,
      fun i e hi he => trailingRun_all _ _ i e hi he, trailingRun_maximal _ _⟩
    have hne : history ≠ [] := by
      intro hnil
      simp [hnil] at hlast
    obtain ⟨l, e, rfl⟩ : ∃ l e, history = l ++ [e] :=
      ⟨history.dropLast, history.getLast hne, (List.dropLast_append_getLast hne).symm⟩
    have he : e = last := by simpa using hlast
    subst he
    show 1 ≤ trailingRun e.result (l ++ [e])
    rw [trailingRun_concat]
    simp
  · intro s1 s2 s3 s4 x1 x2 x3 x4
    rw [detectStreakAndBreak_eq [⟨s1, x1, Result.Tai⟩, ⟨s2, x2, Result.Tai⟩,
      ⟨s3, x3, Result.Tai⟩, ⟨s4, x4, Result.Xiu⟩] ⟨s4, x4, Result.Xiu⟩ rfl]
    simp [trailingRun]

/-- Witness of C6 on the history with categories A,A,A,B. -/
theorem detectStreakAndBreak_streak_spec_witness :
    ∃ info, detectStreakAndBreak [⟨"#1", 12, Result.Tai⟩, ⟨"#2", 11, Result.Tai⟩,
        ⟨"#3", 15, Result.Tai⟩, ⟨"#4", 7, Result.Xiu⟩] = some info ∧
      info.currentResult = some Result.Xiu ∧ 1 ≤ info.streak :=
  have h := (detectStreakAndBreak_streak_spec [⟨"#1", 12, Result.Tai⟩, ⟨"#2", 11, Result.Tai⟩,
    ⟨"#3", 15, Result.Tai⟩, ⟨"#4", 7, Result.Xiu⟩]).2.1 ⟨"#4", 7, Result.Xiu⟩ rfl
  h.elim (fun info hi => ⟨info, hi.1, hi.2.1, hi.2.2.1⟩)

/-! ## Performance tracking -/

theorem voteStep_aux (x : Option Nat) (r : Result) (c : Nat) :
    (if (x.getD 0 = 1 ∧ r = Result.Tai) ∨ (x.getD 0 = 2 ∧ r = Result.Xiu)
      then some (c + 1) else some c)
    = some (c + if decide ((x = some 1 ∧ r = Result.Tai) ∨ (x = some 2 ∧ r = Result.Xiu)) = true
        then 1 else 0) := by
  have key : ((x.getD 0 = 1 ∧ r = Result.Tai) ∨ (x.getD 0 = 2 ∧ r = Result.Xiu)) ↔
      ((x = some 1 ∧ r = Result.Tai) ∨ (x = some 2 ∧ r = Result.Xiu)) := by
    cases x <;> simp
  by_cases h : (x = some 1 ∧ r = Result.Tai) ∨ (x = some 2 ∧ r = Result.Xiu)
  · rw [if_pos (key.mpr h)]
    simp [h]
  · rw [if_neg (fun h2 => h (key.mp h2))]
    simp [h]

theorem scoreStep_eq (table : String → Option Nat) (history : List Entry) (c i : Nat)
    (hi : i + 2 ≤ history.length) :
    scoreStep table history c i = some (c + if voteCorrect table history i then 1 else 0) := by
  have h2 : history.length - (i + 2) < history.length := by omega
  have h1 : history.length - (i + 1) < history.length := by omega
  have e2 : (history.length : Int) - ((i : Int) + 2) = ((history.length - (i + 2) : Nat) : Int) := by
    omega
  have e1 : (history.length : Int) - ((i : Int) + 1) = ((history.length - (i + 1) : Nat) : Int) := by
    omega
  have n2 : history.length - 2 - i = history.length - (i + 2) := by omega
  have n1 : history.length - 1 - i = history.length - (i + 1) := by omega
  unfold scoreStep voteCorrect
  rw [e2, e1, readAt_of_lt _ _ h2, readAt_of_lt _ _ h1, n2, n1,
    List.getElem?_eq_getElem h2, List.getElem?_eq_getElem h1]
  simp only [Option.bind_eq_bind, Option.some_bind, List.get_eq_getElem]
  exact voteStep_aux _ _ _

theorem correctCount_succ (table : String → Option Nat) (history : List Entry) (n : Nat) :
    correctCount table history (n + 1)
      = correctCount table history n + if voteCorrect table history n then 1 else 0 := by
  unfold correctCount
  rw [List.range_succ, List.filter_append, List.length_append]
  by_cases h : voteCorrect table history n = true
  · simp [h]
  · simp [h]

theorem correctCount_le (table : String → Option Nat) (history : List Entry) (n : Nat) :
    correctCount table history n ≤ n := by
  unfold correctCount
  calc ((List.range n).filter _).length ≤ (List.range n).length := List.length_filter_le _ _
    _ = n := List.length_range n

theorem scoreLoop_eq (table : String → Option Nat) (history : List Entry) (n : Nat)
    (hn : n + 1 ≤ history.length) :
    (List.range n).foldlM (scoreStep table history) 0
      = some (correctCount table history n) := by
  induction n with
  | zero => simp [correctCount]
  | succ k ih =>
    rw [List.range_succ, List.foldlM_append, ih (by omega)]
    simp only [Option.bind_eq_bind, Option.some_bind, List.foldlM_cons, List.foldlM_nil,
      bind, Option.bind]
    rw [scoreStep_eq _ _ _ _ (by omega), correctCount_succ]
    rfl

theorem evaluateModelPerformance_eq (mp : ModelPredictions) (history : List Entry)
    (modelName : String) (table : String → Option Nat) (lookback : Nat)
    (ht : mp.table modelName = some table) (hlen : 2 ≤ history.length) (hlb : 0 < lookback) :
    evaluateModelPerformance mp history modelName lookback
      = some (clampedScore (correctCount table history (min lookback (history.length - 1)))
          (min lookback (history.length - 1))) := by
  have hw : 0 < min lookback (history.length - 1) := by
    rw [Nat.lt_min]
    omega
  have hwq : ((min lookback (history.length - 1) : Nat) : ℚ) / 2 ≠ 0 := by
    have : (0 : ℚ) < ((min lookback (history.length - 1) : Nat) : ℚ) := by exact_mod_cast hw
    positivity
  unfold evaluateModelPerformance
  rw [ht]
  simp only []
  rw [if_neg (by omega), scoreLoop_eq _ _ _ (by omega)]
  simp only [Option.bind_eq_bind, Option.some_bind]
  rw [if_pos hw, divide_of_ne _ _ hwq]
  simp only [Option.some_bind, clampedScore]
  norm_num

theorem clamp_bounds (x : ℚ) : 0 ≤ max (0.0 : ℚ) (min 2.0 x) ∧ max (0.0 : ℚ) (min 2.0 x) ≤ 2 := by
  constructor
  · exact le_trans (by norm_num) (le_max_left _ _)
  · exact max_le (by norm_num) (le_trans (min_le_left _ _) (by norm_num))

theorem evaluateModelPerformance_range (mp : ModelPredictions) (history : List Entry)
    (modelName : String) (lookback : Nat) :
    ∃ s, evaluateModelPerformance mp history modelName lookback = some s ∧ 0 ≤ s ∧ s ≤ 2 := by
  unfold evaluateModelPerformance
  cases mp.table modelName with
  | none => exact ⟨1.0, rfl, by norm_num, by norm_num⟩
  | some table =>
    simp only []
    by_cases hlen : history.length < 2
    · rw [if_pos hlen]
      exact ⟨1.0, rfl, by norm_num, by norm_num⟩
    · rw [if_neg hlen, scoreLoop_eq _ _ _ (by omega)]
      simp only [Option.bind_eq_bind, Option.some_bind]
      by_cases hw : min lookback (history.length - 1) > 0
      · have hwq : ((min lookback (history.length - 1) : Nat) : ℚ) / 2 ≠ 0 := by
          have : (0 : ℚ) < ((min lookback (history.length - 1) : Nat) : ℚ) := by
            exact_mod_cast hw
          positivity
        rw [if_pos hw, divide_of_ne _ _ hwq]
        exact ⟨_, rfl, clamp_bounds _⟩
      · rw [if_neg hw]
        exact ⟨_, rfl, clamp_bounds _⟩

/-! ## Claims C3 and C9 -/

/-- C3: for every history, every predictor name (known or not), every store content and
every lookback, `evaluateModelPerformance` returns a score between 0 and 2. -/
theorem evaluateModelPerformance_bounds (mp : ModelPredictions) (history : List Entry)
    (modelName : String) (lookback : Nat) :
    ∃ s, evaluateModelPerformance mp history modelName lookback = some s ∧ 0 ≤ s ∧ s ≤ 2 :=
  evaluateModelPerformance_range mp history modelName lookback

/-- C9: for a known predictor name and a history with at least 2 entries,
`evaluateModelPerformance` (default lookback 10) returns
`clamp(0, 2, 1 + (c - w/2) / (w/2))` where `w = min(10, length - 1)` and `c` counts the
`i < w` whose stored vote for the session of entry `length - 2 - i` matches the category of
entry `length - 1 - i`; for a history with fewer than 2 entries it returns 1. -/
theorem evaluateModelPerformance_spec (mp : ModelPredictions) (history : List Entry)
    (modelName : String) (hknown : modelName ∈ knownModels) :
    ∃ table, mp.table modelName = some table ∧
      (2 ≤ history.length →
        evaluateModelPerformance mp history modelName 10
          = some (clampedScore (correctCount table history (min 10 (history.length - 1)))
              (min 10 (history.length - 1)))) ∧
      (history.length < 2 → evaluateModelPerformance mp history modelName 10 = some 1) := by
  have htable : ∃ table, mp.table modelName = some table := by
    simp only [knownModels, List.mem_cons, List.mem_singleton, List.not_mem_nil, or_false]
      at hknown
    rcases hknown with h | h | h | h | h <;> subst h
    · exact ⟨mp.trend, by simp [ModelPredictions.table]⟩
    · exact ⟨mp.short, by simp [ModelPredictions.table]⟩
    · exact ⟨mp.mean, by simp [ModelPredictions.table]⟩
    · exact ⟨mp.switch, by simp [ModelPredictions.table]⟩
    · exact ⟨mp.bridge, by simp [ModelPredictions.table]⟩
  obtain ⟨table, ht⟩ := htable
  refine ⟨table, ht, fun hlen => evaluateModelPerformance_eq mp history modelName table 10 ht
    hlen (by norm_num), fun hlen => ?_⟩
  unfold evaluateModelPerformance
  rw [ht]
  simp only []
  rw [if_pos hlen]
  norm_num

/-- Witness of C9: the model `trend` on a two-entry history and the empty store. -/
theorem evaluateModelPerformance_spec_witness :
    ∃ table, ModelPredictions.empty.table "trend" = some table ∧
      (2 ≤ [(⟨"#1", 12, Result.Tai⟩ : Entry), ⟨"#2", 7, Result.Xiu⟩].length →
        evaluateModelPerformance ModelPredictions.empty
            [⟨"#1", 12, Result.Tai⟩, ⟨"#2", 7, Result.Xiu⟩] "trend" 10
          = some (clampedScore (correctCount table
                [⟨"#1", 12, Result.Tai⟩, ⟨"#2", 7, Result.Xiu⟩]
                (min 10 ([(⟨"#1", 12, Result.Tai⟩ : Entry), ⟨"#2", 7, Result.Xiu⟩].length - 1)))
              (min 10 ([(⟨"#1", 12, Result.Tai⟩ : Entry), ⟨"#2", 7, Result.Xiu⟩].length - 1)))) ∧
      ([(⟨"#1", 12, Result.Tai⟩ : Entry), ⟨"#2", 7, Result.Xiu⟩].length < 2 →
        evaluateModelPerformance ModelPredictions.empty
          [⟨"#1", 12, Result.Tai⟩, ⟨"#2", 7, Result.Xiu⟩] "trend" 10 = some 1) :=
  evaluateModelPerformance_spec ModelPredictions.empty
    [⟨"#1", 12, Result.Tai⟩, ⟨"#2", 7, Result.Xiu⟩] "trend" (by decide)

/-! ## The sorted pattern tables -/

theorem bump_ne_nil (counts : List (List Result × Nat)) (pattern : List Result) :
    bump counts pattern ≠ [] := by
  cases counts with
  | nil => simp [bump]
  | cons c rest =>
    obtain ⟨k, n⟩ := c
    unfold bump
    split_ifs <;> simp

theorem foldl_bump_ne_nil (patterns : List (List Result)) (init : List (List Result × Nat))
    (h : init ≠ [] ∨ patterns ≠ []) : patterns.foldl bump init ≠ [] := by
  induction patterns generalizing init with
  | nil =>
    rcases h with h | h
    · exact h
    · exact absurd rfl h
  | cons a rest ih => exact ih (bump init a) (Or.inl (bump_ne_nil init a))

theorem sortEntries_ne_nil (counts : List (List Result × Nat)) (h : counts ≠ []) :
    sortEntries counts ≠ [] := by
  intro hnil
  have hlen : (sortEntries counts).length = counts.length := List.length_insertionSort _ _
  rw [hnil] at hlen
  exact h (List.length_eq_zero.mp hlen.symm)

theorem patternsOf_ne_nil_of_le (xs : List Result) (len : Nat) (h : len ≤ xs.length) :
    patternsOf xs len ≠ [] := by
  intro hnil
  have := congrArg List.length hnil
  simp [patternsOf] at this
  omega

theorem pattern_tables_ne_nil (history : List Entry) (hlen : 5 ≤ history.length) :
    trendTable history ≠ [] ∧ shortTable history ≠ [] ∧ bridgeTable history ≠ [] := by
  have h10 : (sliceLast ((sliceLast history 15).map (fun h => h.result)) 10).length ≥ 4 := by
    simp only [sliceLast_length, List.length_map]
    omega
  have h8 : ((sliceLast history 8).map (fun h => h.result)).length ≥ 2 := by
    simp only [sliceLast_length, List.length_map]
    omega
  have h20 : 2 ≤ ((sliceLast history 20).map (fun h => h.result)).length := by
    simp only [sliceLast_length, List.length_map]
    omega
  refine ⟨?_, ?_, ?_⟩
  · unfold trendTable
    simp only []
    rw [if_pos h10]
    exact sortEntries_ne_nil _ (foldl_bump_ne_nil _ _ (Or.inr (patternsOf_ne_nil_of_le _ _ h10)))
  · unfold shortTable
    simp only []
    rw [if_pos h8]
    exact sortEntries_ne_nil _ (foldl_bump_ne_nil _ _ (Or.inr (patternsOf_ne_nil_of_le _ _ h8)))
  · unfold bridgeTable
    simp only []
    exact sortEntries_ne_nil _ (foldl_bump_ne_nil _ _ (Or.inr (patternsOf_ne_nil_of_le _ _ h20)))

theorem readAt_zero {α : Type} (xs : List α) : readAt xs 0 = xs.head? := by
  cases xs <;> simp [readAt]

theorem trendTable_ne_nil (history : List Entry) (hlen : 4 ≤ history.length) :
    trendTable history ≠ [] := by
  have h10 : (sliceLast ((sliceLast history 15).map (fun h => h.result)) 10).length ≥ 4 := by
    simp only [sliceLast_length, List.length_map]
    omega
  unfold trendTable
  simp only []
  rw [if_pos h10]
  exact sortEntries_ne_nil _ (foldl_bump_ne_nil _ _ (Or.inr (patternsOf_ne_nil_of_le _ _ h10)))

theorem shortTable_ne_nil (history : List Entry) (hlen : 2 ≤ history.length) :
    shortTable history ≠ [] := by
  have h8 : ((sliceLast history 8).map (fun h => h.result)).length ≥ 2 := by
    simp only [sliceLast_length, List.length_map]
    omega
  unfold shortTable
  simp only []
  rw [if_pos h8]
  exact sortEntries_ne_nil _ (foldl_bump_ne_nil _ _ (Or.inr (patternsOf_ne_nil_of_le _ _ h8)))

theorem bridgeTable_ne_nil (history : List Entry) (hlen : 2 ≤ history.length) :
    bridgeTable history ≠ [] := by
  have h20 : 2 ≤ ((sliceLast history 20).map (fun h => h.result)).length := by
    simp only [sliceLast_length, List.length_map]
    omega
  unfold bridgeTable
  simp only []
  exact sortEntries_ne_nil _ (foldl_bump_ne_nil _ _ (Or.inr (patternsOf_ne_nil_of_le _ _ h20)))

theorem head?_ne_none {α : Type} (xs : List α) (h : xs ≠ []) : xs.head? ≠ none := by
  cases xs with
  | nil => exact absurd rfl h
  | cons a l => simp

theorem head?_of_ne_nil {α : Type} (xs : List α) (h : xs ≠ []) : ∃ a, xs.head? = some a := by
  cases xs with
  | nil => exact absurd rfl h
  | cons a l => exact ⟨a, rfl⟩

/-! ## Every predictor returns a vote -/

theorem weightedSum_total (last : List Result) (category : Result) (weights : List ℚ)
    (h : weights.length ≤ last.length) :
    ∃ q, weightedSum last category weights = some q := by
  unfold weightedSum
  apply reduceIdx_isSome
  intro acc x j _ hj
  have hlt : j < last.length := by omega
  rw [readAt_of_lt last j hlt]
  exact ⟨_, rfl⟩

theorem oppositeOfLast_total (last : List Result) (h : last ≠ []) :
    ∃ v, oppositeOfLast last = some v := by
  unfold oppositeOfLast
  rw [readAt_last last h]
  exact ⟨_, rfl⟩

theorem patternVote_total (pattern last : List Result) (hp : pattern ≠ []) (hl : last ≠ []) :
    ∃ v, patternVote pattern last = some v := by
  unfold patternVote
  rw [readAt_last pattern hp, readAt_last last hl]
  exact ⟨_, rfl⟩

theorem weightedVote_total (t x : ℚ) (last : List Result) (h : last ≠ []) :
    ∃ v, weightedVote t x last = some v := by
  unfold weightedVote
  simp only []
  by_cases hpos : t + x > 0
  · rw [if_pos hpos, divide_of_ne _ _ (ne_of_gt hpos)]
    simp only [Option.bind_eq_bind, Option.some_bind]
    by_cases hm : |t - x| / (t + x) ≥ 0.25
    · rw [if_pos hm]
      exact ⟨_, rfl⟩
    · rw [if_neg hm]
      exact oppositeOfLast_total last h
  · rw [if_neg hpos]
    exact oppositeOfLast_total last h

theorem mem_bump (counts : List (List Result × Nat)) (pattern : List Result)
    (p : List Result × Nat) (hp : p ∈ bump counts pattern) :
    p.1 = pattern ∨ ∃ q ∈ counts, q.1 = p.1 := by
  induction counts with
  | nil =>
    simp [bump] at hp
    left
    rw [hp]
  | cons c rest ih =>
    obtain ⟨k, n⟩ := c
    unfold bump at hp
    by_cases hk : k = pattern
    · rw [if_pos hk] at hp
      rcases List.mem_cons.mp hp with h | h
      · left
        rw [h]
        exact hk
      · right
        exact ⟨p, List.mem_cons_of_mem _ h, rfl⟩
    · rw [if_neg hk] at hp
      rcases List.mem_cons.mp hp with h | h
      · right
        exact ⟨(k, n), List.mem_cons_self _ _, by rw [h]⟩
      · rcases ih h with h2 | ⟨q, hq, hq2⟩
        · left
          exact h2
        · right
          exact ⟨q, List.mem_cons_of_mem _ hq, hq2⟩

theorem mem_foldl_bump (patterns : List (List Result)) (init : List (List Result × Nat))
    (p : List Result × Nat) (hp : p ∈ patterns.foldl bump init) :
    p.1 ∈ patterns ∨ ∃ q ∈ init, q.1 = p.1 := by
  induction patterns generalizing init with
  | nil => exact Or.inr ⟨p, hp, rfl⟩
  | cons a rest ih =>
    rcases ih (bump init a) hp with h | ⟨q, hq, hq2⟩
    · exact Or.inl (List.mem_cons_of_mem _ h)
    · rcases mem_bump init a q hq with h | ⟨r, hr, hr2⟩
      · left
        rw [← hq2, h]
        exact List.mem_cons_self _ _
      · right
        exact ⟨r, hr, hr2.trans hq2⟩

theorem mem_patternCounts (patterns : List (List Result)) (p : List Result × Nat)
    (hp : p ∈ patternCounts patterns) : p.1 ∈ patterns := by
  rcases mem_foldl_bump patterns [] p hp with h | ⟨q, hq, _⟩
  · exact h
  · cases hq

theorem mem_sortEntries (counts : List (List Result × Nat)) (p : List Result × Nat) :
    p ∈ sortEntries counts ↔ p ∈ counts :=
  (List.perm_insertionSort _ counts).mem_iff

theorem patternsOf_ne_nil (xs : List Result) (len : Nat) (hlen : 0 < len)
    (p : List Result) (hp : p ∈ patternsOf xs len) : p ≠ [] := by
  unfold patternsOf at hp
  rw [List.mem_map] at hp
  obtain ⟨i, hi, rfl⟩ := hp
  rw [List.mem_range] at hi
  intro hnil
  have := congrArg List.length hnil
  simp at this
  omega

theorem head_pattern_ne_nil (xs : List Result) (len : Nat) (hlen : 0 < len)
    (pattern : List Result) (count : Nat)
    (h : (sortEntries (patternCounts (patternsOf xs len))).head? = some (pattern, count)) :
    pattern ≠ [] := by
  have hmem : (pattern, count) ∈ sortEntries (patternCounts (patternsOf xs len)) :=
    List.mem_of_mem_head? (by rw [h]; exact rfl)
  rw [mem_sortEntries] at hmem
  exact patternsOf_ne_nil xs len hlen pattern (mem_patternCounts _ _ hmem)

theorem trendAndProb_total (history : List Entry) (hlen : 4 ≤ history.length) :
    ∃ v, trendAndProb history = some v := by
  obtain ⟨info, hinfo⟩ := detectStreakAndBreak_total history
  unfold trendAndProb
  rw [hinfo]
  simp only [Option.bind_eq_bind, Option.some_bind]
  by_cases hs : info.streak ≥ 3
  · rw [if_pos hs]
    exact ⟨_, rfl⟩
  rw [if_neg hs]
  by_cases h0 : ((sliceLast history 15).map (fun h => h.result)).length = 0
  · rw [if_pos h0]
    exact ⟨_, rfl⟩
  rw [if_neg h0]
  have hne15 : (sliceLast history 15).map (fun h => h.result) ≠ [] := by
    intro hnil
    rw [hnil] at h0
    exact h0 rfl
  have hne10 : sliceLast ((sliceLast history 15).map (fun h => h.result)) 10 ≠ [] :=
    sliceLast_ne_nil _ 10 hne15 (by norm_num)
  have h10 : (sliceLast ((sliceLast history 15).map (fun h => h.result)) 10).length ≥ 4 := by
    simp only [sliceLast_length, List.length_map]
    omega
  obtain ⟨t, ht⟩ := weightedSum_total ((sliceLast history 15).map (fun h => h.result))
    Result.Tai ((List.range ((sliceLast history 15).map (fun h => h.result)).length).map
      (fun i => (1.3 : ℚ) ^ i)) (by simp)
  obtain ⟨x, hx⟩ := weightedSum_total ((sliceLast history 15).map (fun h => h.result))
    Result.Xiu ((List.range ((sliceLast history 15).map (fun h => h.result)).length).map
      (fun i => (1.3 : ℚ) ^ i)) (by simp)
  rw [readAt_zero]
  cases hhead : (trendTable history).head? with
  | none => exact absurd hhead (head?_ne_none _ (trendTable_ne_nil history hlen))
  | some p =>
    obtain ⟨pattern, count⟩ := p
    rw [ht, hx]
    simp only [Option.some_bind]
    by_cases hc : count ≥ 3
    · rw [if_pos hc]
      refine patternVote_total pattern _ ?_ hne10
      unfold trendTable at hhead
      simp only [] at hhead
      rw [if_pos h10] at hhead
      exact head_pattern_ne_nil _ 4 (by norm_num) pattern count hhead
    · rw [if_neg hc]
      exact weightedVote_total t x _ hne15

theorem trendAndProb_nil : trendAndProb [] = some 0 := by
  unfold trendAndProb
  rw [detectStreakAndBreak_nil]
  rfl

/-- On a history of 1 to 3 entries with streak below 3, `trendAndProb` reads element 0 of an
empty sorted pattern table. -/
theorem trendAndProb_short (history : List Entry) (info : StreakInfo)
    (hinfo : detectStreakAndBreak history = some info) (hs : info.streak < 3)
    (h1 : 1 ≤ history.length) (h3 : history.length < 4) :
    trendTable history = [] ∧ trendAndProb history = none := by
  have h10 : ¬ (sliceLast ((sliceLast history 15).map (fun h => h.result)) 10).length ≥ 4 := by
    simp only [sliceLast_length, List.length_map]
    omega
  have htable : trendTable history = [] := by
    unfold trendTable
    simp only []
    rw [if_neg h10]
    rfl
  refine ⟨htable, ?_⟩
  have h0 : ¬ ((sliceLast history 15).map (fun h => h.result)).length = 0 := by
    simp only [sliceLast_length, List.length_map]
    omega
  obtain ⟨t, ht⟩ := weightedSum_total ((sliceLast history 15).map (fun h => h.result))
    Result.Tai ((List.range ((sliceLast history 15).map (fun h => h.result)).length).map
      (fun i => (1.3 : ℚ) ^ i)) (by simp)
  obtain ⟨x, hx⟩ := weightedSum_total ((sliceLast history 15).map (fun h => h.result))
    Result.Xiu ((List.range ((sliceLast history 15).map (fun h => h.result)).length).map
      (fun i => (1.3 : ℚ) ^ i)) (by simp)
  unfold trendAndProb
  rw [hinfo]
  simp only [Option.bind_eq_bind, Option.some_bind]
  rw [if_neg (by omega), if_neg h0, htable, readAt_zero, List.head?_nil, ht, hx]
  rfl

theorem shortPattern_total (history : List Entry) (hlen : 2 ≤ history.length) :
    ∃ v, shortPattern history = some v := by
  obtain ⟨info, hinfo⟩ := detectStreakAndBreak_total history
  unfold shortPattern
  rw [hinfo]
  simp only [Option.bind_eq_bind, Option.some_bind]
  by_cases hs : info.streak ≥ 2
  · rw [if_pos hs]
    exact ⟨_, rfl⟩
  rw [if_neg hs]
  by_cases h0 : ((sliceLast history 8).map (fun h => h.result)).length = 0
  · rw [if_pos h0]
    exact ⟨_, rfl⟩
  rw [if_neg h0]
  have hne8 : (sliceLast history 8).map (fun h => h.result) ≠ [] := by
    intro hnil
    rw [hnil] at h0
    exact h0 rfl
  have h8 : ((sliceLast history 8).map (fun h => h.result)).length ≥ 2 := by
    simp only [sliceLast_length, List.length_map]
    omega
  obtain ⟨⟨pattern, count⟩, hp⟩ := head?_of_ne_nil _ (shortTable_ne_nil history hlen)
  rw [readAt_zero, hp]
  simp only [Option.some_bind]
  by_cases hc : count ≥ 2
  · rw [if_pos hc]
    refine patternVote_total pattern _ ?_ hne8
    unfold shortTable at hp
    simp only [] at hp
    rw [if_pos h8] at hp
    exact head_pattern_ne_nil _ 2 (by norm_num) pattern count hp
  · rw [if_neg hc]
    exact oppositeOfLast_total _ hne8

theorem shortPattern_nil : shortPattern [] = some 0 := by
  unfold shortPattern
  rw [detectStreakAndBreak_nil]
  rfl

/-- On a history of exactly 1 entry `shortPattern` reads element 0 of an empty sorted
pattern table. -/
theorem shortPattern_single (e : Entry) :
    shortTable [e] = [] ∧ shortPattern [e] = none := by
  have hinfo := detectStreakAndBreak_eq [e] e rfl
  have hrun : trailingRun e.result [e] = 1 := by
    simp [trailingRun]
  have htable : shortTable [e] = [] := rfl
  refine ⟨htable, ?_⟩
  unfold shortPattern
  rw [hinfo, htable, readAt_zero, List.head?_nil]
  simp only [Option.bind_eq_bind, Option.some_bind, hrun]
  rfl

theorem meanDeviation_total (history : List Entry) : ∃ v, meanDeviation history = some v := by
  obtain ⟨info, hinfo⟩ := detectStreakAndBreak_total history
  unfold meanDeviation
  rw [hinfo]
  simp only [Option.bind_eq_bind, Option.some_bind]
  by_cases hs : info.streak ≥ 2
  · rw [if_pos hs]
    exact ⟨_, rfl⟩
  rw [if_neg hs]
  by_cases h0 : ((sliceLast history 12).map (fun h => h.result)).length = 0
  · rw [if_pos h0]
    exact ⟨_, rfl⟩
  rw [if_neg h0]
  have hne12 : (sliceLast history 12).map (fun h => h.result) ≠ [] := by
    intro hnil
    rw [hnil] at h0
    exact h0 rfl
  have hq : ((((sliceLast history 12).map (fun h => h.result)).length : Nat) : ℚ) ≠ 0 := by
    exact_mod_cast h0
  rw [divide_of_ne _ _ hq]
  simp only [Option.some_bind]
  by_cases hd : |((((sliceLast history 12).map (fun h => h.result)).filter
      (fun r => r = Result.Tai)).length : ℚ)
      - ((((sliceLast history 12).map (fun h => h.result)).length
        - (((sliceLast history 12).map (fun h => h.result)).filter
          (fun r => r = Result.Tai)).length : Nat) : ℚ)|
      / ((((sliceLast history 12).map (fun h => h.result)).length : Nat) : ℚ) < 0.2
  · rw [if_pos hd]
    exact oppositeOfLast_total _ hne12
  · rw [if_neg hd]
    exact ⟨_, rfl⟩

theorem recentSwitch_total (history : List Entry) : ∃ v, recentSwitch history = some v := by
  obtain ⟨info, hinfo⟩ := detectStreakAndBreak_total history
  unfold recentSwitch
  rw [hinfo]
  simp only [Option.bind_eq_bind, Option.some_bind]
  by_cases hs : info.streak ≥ 2
  · rw [if_pos hs]
    exact ⟨_, rfl⟩
  rw [if_neg hs]
  by_cases h0 : ((sliceLast history 10).map (fun h => h.result)).length = 0
  · rw [if_pos h0]
    exact ⟨_, rfl⟩
  rw [if_neg h0]
  have hne10 : (sliceLast history 10).map (fun h => h.result) ≠ [] := by
    intro hnil
    rw [hnil] at h0
    exact h0 rfl
  rw [countSwitches_eq]
  simp only [Option.some_bind, ite_self]
  exact oppositeOfLast_total _ hne10

theorem isBadPattern_total (history : List Entry) : ∃ b, isBadPattern history = some b := by
  obtain ⟨info, hinfo⟩ := detectStreakAndBreak_total history
  unfold isBadPattern
  simp only []
  by_cases h0 : ((sliceLast history 15).map (fun h => h.result)).length = 0
  · rw [if_pos h0]
    exact ⟨_, rfl⟩
  rw [if_neg h0, countSwitches_eq, hinfo]
  exact ⟨_, rfl⟩

theorem orOne_ne_zero (n : Nat) : ((orOne n : Nat) : ℚ) ≠ 0 := by
  unfold orOne
  split_ifs with h
  · norm_num
  · exact_mod_cast h

theorem smartBridgeBreak_total (history : List Entry) :
    ∃ b, smartBridgeBreak history = some b := by
  obtain ⟨info, hinfo⟩ := detectStreakAndBreak_total history
  unfold smartBridgeBreak
  by_cases h5 : history.length < 5
  · rw [if_pos h5]
    exact ⟨_, rfl⟩
  obtain ⟨p, hp⟩ := head?_of_ne_nil _ (bridgeTable_ne_nil history (by omega))
  rw [if_neg h5, hinfo, readAt_zero, hp]
  simp only [Option.bind_eq_bind, Option.some_bind]
  rw [divide_of_ne _ _ (orOne_ne_zero _)]
  simp only [Option.some_bind]
  rw [divide_of_ne _ _ (orOne_ne_zero _)]
  exact ⟨_, rfl⟩

theorem ite_total {α : Type} (c : Prop) [Decidable c] (x y : Option α)
    (hx : ∃ a, x = some a) (hy : ∃ a, y = some a) : ∃ a, (if c then x else y) = some a := by
  by_cases h : c
  · rw [if_pos h]
    exact hx
  · rw [if_neg h]
    exact hy

theorem aiHtddLogic_total (history : List Entry) : ∃ a, aiHtddLogic history = some a := by
  obtain ⟨info, hinfo⟩ := detectStreakAndBreak_total history
  unfold aiHtddLogic
  simp only []
  rw [hinfo, divide_of_ne _ _ (orOne_ne_zero _)]
  simp only [Option.bind_eq_bind, Option.some_bind]
  repeat' apply ite_total
  all_goals exact ⟨_, rfl⟩

/-! ## The ensemble combiner -/

theorem computeVotes_total (history : List Entry) (hlen : 4 ≤ history.length) :
    ∃ v, computeVotes history = some v := by
  obtain ⟨a, ha⟩ := trendAndProb_total history hlen
  obtain ⟨b, hb⟩ := shortPattern_total history (by omega)
  obtain ⟨c, hc⟩ := meanDeviation_total history
  obtain ⟨d, hd⟩ := recentSwitch_total history
  obtain ⟨e, he⟩ := smartBridgeBreak_total history
  obtain ⟨f, hf⟩ := aiHtddLogic_total history
  exact ⟨⟨a, b, c, d, e, f⟩, by simp [computeVotes, ha, hb, hc, hd, he, hf]⟩

theorem computeVotes_eq (history : List Entry) (v : Votes)
    (h : computeVotes history = some v) :
    trendAndProb history = some v.trendPred ∧ shortPattern history = some v.shortPred ∧
    meanDeviation history = some v.meanPred ∧ recentSwitch history = some v.switchPred ∧
    smartBridgeBreak history = some v.bridgePred ∧ aiHtddLogic history = some v.aiPred := by
  unfold computeVotes at h
  cases ha : trendAndProb history with
  | none => simp [ha] at h
  | some a =>
    cases hb : shortPattern history with
    | none => simp [ha, hb] at h
    | some b =>
      cases hc : meanDeviation history with
      | none => simp [ha, hb, hc] at h
      | some c =>
        cases hd : recentSwitch history with
        | none => simp [ha, hb, hc, hd] at h
        | some d =>
          cases he : smartBridgeBreak history with
          | none => simp [ha, hb, hc, hd, he] at h
          | some e =>
            cases hf : aiHtddLogic history with
            | none => simp [ha, hb, hc, hd, he, hf] at h
            | some f =>
              simp [ha, hb, hc, hd, he, hf] at h
              subst h
              exact ⟨rfl, rfl, rfl, rfl, rfl, rfl⟩

theorem computeScores_total (mp : ModelPredictions) (history : List Entry) :
    ∃ sc, computeScores mp history = some sc ∧
      (0 ≤ sc.trend ∧ sc.trend ≤ 2) ∧ (0 ≤ sc.short ∧ sc.short ≤ 2) ∧
      (0 ≤ sc.mean ∧ sc.mean ≤ 2) ∧ (0 ≤ sc.switch ∧ sc.switch ≤ 2) ∧
      (0 ≤ sc.bridge ∧ sc.bridge ≤ 2) := by
  obtain ⟨a, ha, ha2⟩ := evaluateModelPerformance_range mp history "trend" 10
  obtain ⟨b, hb, hb2⟩ := evaluateModelPerformance_range mp history "short" 10
  obtain ⟨c, hc, hc2⟩ := evaluateModelPerformance_range mp history "mean" 10
  obtain ⟨d, hd, hd2⟩ := evaluateModelPerformance_range mp history "switch" 10
  obtain ⟨e, he, he2⟩ := evaluateModelPerformance_range mp history "bridge" 10
  exact ⟨⟨a, b, c, d, e⟩, by simp [computeScores, ha, hb, hc, hd, he], ha2, hb2, hc2, hd2, he2⟩

theorem addVote_nonneg (s : ℚ × ℚ) (vote : Nat) (w : ℚ) (hs : 0 ≤ s.1 ∧ 0 ≤ s.2)
    (hw : 0 ≤ w) : 0 ≤ (addVote s vote w).1 ∧ 0 ≤ (addVote s vote w).2 := by
  unfold addVote
  split_ifs
  · exact ⟨add_nonneg hs.1 hw, hs.2⟩
  · exact ⟨hs.1, add_nonneg hs.2 hw⟩
  · exact hs

theorem accumulate_nonneg (streak : Nat) (v : Votes) (sc : ModelScores)
    (h1 : 0 ≤ sc.trend) (h2 : 0 ≤ sc.short) (h3 : 0 ≤ sc.mean) (h4 : 0 ≤ sc.switch)
    (h5 : 0 ≤ sc.bridge) :
    0 ≤ (accumulate streak v sc).1 ∧ 0 ≤ (accumulate streak v sc).2 := by
  have w1 : (0 : ℚ) ≤ if streak ≥ 3 then 0.15 * sc.trend else 0.2 * sc.trend := by
    split_ifs <;> positivity
  have w2 : (0 : ℚ) ≤ if streak ≥ 2 then 0.2 * sc.short else 0.15 * sc.short := by
    split_ifs <;> positivity
  have w3 : (0 : ℚ) ≤ 0.1 * sc.mean := by positivity
  have w4 : (0 : ℚ) ≤ 0.1 * sc.switch := by positivity
  have w5 : (0 : ℚ) ≤ if streak ≥ 3 then 0.35 * sc.bridge else 0.3 * sc.bridge := by
    split_ifs <;> positivity
  have w6 : (0 : ℚ) ≤ if streak ≥ 2 then (0.3 : ℚ) else 0.25 := by
    split_ifs <;> norm_num
  have hacc := addVote_nonneg _ v.bridgePred.prediction _
    (addVote_nonneg _ v.switchPred _
      (addVote_nonneg _ v.meanPred _
        (addVote_nonneg _ v.shortPred _
          (addVote_nonneg (0, 0) v.trendPred _ ⟨le_refl _, le_refl _⟩ w1) w2) w3) w4) w5
  unfold accumulate
  simp only []
  by_cases hai : v.aiPred.prediction = some Result.Tai
  · rw [if_pos hai]
    exact ⟨add_nonneg hacc.1 w6, hacc.2⟩
  · rw [if_neg hai]
    exact ⟨hacc.1, add_nonneg hacc.2 w6⟩

theorem applyBadPattern_nonneg (bad : Bool) (s : ℚ × ℚ) (hs : 0 ≤ s.1 ∧ 0 ≤ s.2) :
    0 ≤ (applyBadPattern bad s).1 ∧ 0 ≤ (applyBadPattern bad s).2 := by
  unfold applyBadPattern
  split_ifs
  · exact ⟨mul_nonneg hs.1 (by norm_num), mul_nonneg hs.2 (by norm_num)⟩
  · exact hs

theorem applyBonus_nonneg (streak : Nat) (b : BridgePred) (s : ℚ × ℚ)
    (hs : 0 ≤ s.1 ∧ 0 ≤ s.2) :
    0 ≤ (applyBonus streak b s).1 ∧ 0 ≤ (applyBonus streak b s).2 := by
  unfold applyBonus
  split_ifs
  · exact ⟨add_nonneg hs.1 (by norm_num), hs.2⟩
  · exact ⟨hs.1, add_nonneg hs.2 (by norm_num)⟩
  · exact ⟨add_nonneg hs.1 (by norm_num), hs.2⟩
  · exact ⟨hs.1, add_nonneg hs.2 (by norm_num)⟩
  · exact hs

theorem finalResult_spec (s : ℚ × ℚ) (aiReason bridgeReason : String)
    (hs : 0 ≤ s.1 ∧ 0 ≤ s.2) :
    ∃ p, finalResult s aiReason bridgeReason = some p ∧
      (p.prediction = Result.Tai ∨ p.prediction = Result.Xiu) ∧
      0 ≤ p.do_tin_cay ∧ p.do_tin_cay ≤ 1 := by
  unfold finalResult
  simp only []
  by_cases hpos : s.1 + s.2 > 0
  · rw [if_pos hpos]
    by_cases hgt : s.1 > s.2
    · rw [if_pos hgt, divide_of_ne _ _ (ne_of_gt hpos)]
      refine ⟨_, rfl, ?_, ?_, ?_⟩
      · simp [hgt]
      · exact div_nonneg hs.1 (le_of_lt hpos)
      · exact (div_le_one hpos).mpr (by linarith [hs.2])
    · rw [if_neg hgt, divide_of_ne _ _ (ne_of_gt hpos)]
      refine ⟨_, rfl, ?_, ?_, ?_⟩
      · simp [hgt]
      · exact div_nonneg hs.2 (le_of_lt hpos)
      · exact (div_le_one hpos).mpr (by linarith [hs.1])
  · rw [if_neg hpos]
    refine ⟨_, rfl, ?_, ?_, ?_⟩
    · by_cases hgt : s.1 > s.2 <;> simp [hgt]
    · norm_num
    · norm_num

/-- The run of `generatePrediction` on a history of at least 5 entries, step by step. -/
theorem generatePrediction_run (mp : ModelPredictions) (random : ℚ) (history : List Entry)
    (hlen : 5 ≤ history.length) :
    ∃ last info v sc bad p,
      history.getLast? = some last ∧
      detectStreakAndBreak history = some info ∧
      computeVotes history = some v ∧
      computeScores (recordVotes mp last.session v) history = some sc ∧
      isBadPattern history = some bad ∧
      finalResult (applyBonus info.streak v.bridgePred
        (applyBadPattern bad (accumulate info.streak v sc))) v.aiPred.reason
        v.bridgePred.reason = some p ∧
      generatePrediction mp random (some history)
        = some (p, recordVotes mp last.session v) ∧
      (p.prediction = Result.Tai ∨ p.prediction = Result.Xiu) ∧
      0 ≤ p.do_tin_cay ∧ p.do_tin_cay ≤ 1 := by
  have hne : history ≠ [] := by
    intro hnil
    rw [hnil] at hlen
    simp at hlen
  obtain ⟨info, hinfo⟩ := detectStreakAndBreak_total history
  obtain ⟨v, hv⟩ := computeVotes_total history (by omega)
  obtain ⟨sc, hsc, b1, b2, b3, b4, b5⟩ :=
    computeScores_total (recordVotes mp (history.getLast hne).session v) history
  obtain ⟨bad, hbad⟩ := isBadPattern_total history
  obtain ⟨p, hp, hp1, hp2, hp3⟩ := finalResult_spec
    (applyBonus info.streak v.bridgePred (applyBadPattern bad (accumulate info.streak v sc)))
    v.aiPred.reason v.bridgePred.reason
    (applyBonus_nonneg _ _ _ (applyBadPattern_nonneg _ _
      (accumulate_nonneg _ _ _ b1.1 b2.1 b3.1 b4.1 b5.1)))
  refine ⟨history.getLast hne, info, v, sc, bad, p, List.getLast?_eq_getLast _ hne, hinfo, hv,
    hsc, hbad, hp, ?_, hp1, hp2, hp3⟩
  unfold generatePrediction
  simp only []
  rw [if_neg (by omega), readAt_last history hne]
  simp only [Option.bind_eq_bind, Option.some_bind]
  rw [hinfo]
  simp only [Option.some_bind]
  rw [hv]
  simp only [Option.some_bind]
  rw [hsc]
  simp only [Option.some_bind]
  rw [hbad]
  simp only [Option.some_bind]
  rw [hp]
  rfl

theorem generatePrediction_guard (mp : ModelPredictions) (random : ℚ)
    (history : Option (List Entry)) (h : ∀ l, history = some l → l.length < 5) :
    generatePrediction mp random history = some (randomPrediction random, mp) := by
  cases history with
  | none => rfl
  | some l =>
    unfold generatePrediction
    simp only []
    rw [if_pos (h l rfl)]

theorem recordVotes_idem (mp : ModelPredictions) (s : String) (v : Votes) :
    recordVotes (recordVotes mp s v) s v = recordVotes mp s v := by
  have key : ∀ (t : String → Option Nat) (n : Nat), setVote (setVote t s n) s n = setVote t s n := by
    intro t n
    funext x
    unfold setVote
    split_ifs <;> rfl
  simp only [recordVotes, key]

/-! ## Claims C1, C2, C8 and C10 -/

/-- C1: for every history of length at least 5 and every state of the vote store,
`generatePrediction` returns a category that is `'Tài'` or `'Xỉu'` and a confidence
`do_tin_cay` between 0 and 1 (arithmetic over exact rationals). -/
theorem generatePrediction_category_confidence (mp : ModelPredictions) (random : ℚ)
    (history : List Entry) (hlen : 5 ≤ history.length) :
    ∃ p mp1, generatePrediction mp random (some history) = some (p, mp1) ∧
      (p.prediction = Result.Tai ∨ p.prediction = Result.Xiu) ∧
      0 ≤ p.do_tin_cay ∧ p.do_tin_cay ≤ 1 := by
  obtain ⟨last, info, v, sc, bad, p, _, _, _, _, _, _, hgen, h1, h2, h3⟩ :=
    generatePrediction_run mp random history hlen
  exact ⟨p, _, hgen, h1, h2, h3⟩

/-- Witness of C1: the five-entry history `shortWindow` and the empty store. -/
theorem generatePrediction_category_confidence_witness :
    ∃ p mp1, generatePrediction ModelPredictions.empty 0 (some shortWindow) = some (p, mp1) ∧
      (p.prediction = Result.Tai ∨ p.prediction = Result.Xiu) ∧
      0 ≤ p.do_tin_cay ∧ p.do_tin_cay ≤ 1 :=
  generatePrediction_category_confidence ModelPredictions.empty 0 shortWindow (by decide)

/-- C2: for a missing history and for every history with fewer than 5 entries, whatever
the random value, `generatePrediction` computes no predictor and leaves the store as it
is: it returns the category chosen by the random value alone (`'Tài'` below 0.5, `'Xỉu'`
otherwise), confidence exactly 0.5 and the fixed rationale
`'Không đủ lịch sử, dự đoán ngẫu nhiên'`. -/
theorem generatePrediction_insufficient_history (mp : ModelPredictions) (random : ℚ)
    (history : Option (List Entry)) (h : ∀ l, history = some l → l.length < 5) :
    ∃ p, generatePrediction mp random history = some (p, mp) ∧
      p = randomPrediction random ∧
      p.do_tin_cay = 0.5 ∧
      (p.prediction = Result.Tai ∨ p.prediction = Result.Xiu) ∧
      (p.prediction = Result.Tai ↔ random < 0.5) ∧
      p.reason = "Không đủ lịch sử, dự đoán ngẫu nhiên" := by
  refine ⟨randomPrediction random, generatePrediction_guard mp random history h, rfl, rfl,
    ?_, ?_, rfl⟩
  · unfold randomPrediction
    by_cases hr : random < 0.5 <;> simp [hr]
  · unfold randomPrediction
    by_cases hr : random < 0.5 <;> simp [hr]

/-- Witness of C2: the missing history. -/
theorem generatePrediction_insufficient_history_witness :
    ∃ p, generatePrediction ModelPredictions.empty (1 / 4) none
        = some (p, ModelPredictions.empty) ∧
      p = randomPrediction (1 / 4) ∧
      p.do_tin_cay = 0.5 ∧
      (p.prediction = Result.Tai ∨ p.prediction = Result.Xiu) ∧
      (p.prediction = Result.Tai ↔ (1 / 4 : ℚ) < 0.5) ∧
      p.reason = "Không đủ lịch sử, dự đoán ngẫu nhiên" :=
  generatePrediction_insufficient_history ModelPredictions.empty (1 / 4) none
    (fun _ hl => Option.noConfusion hl)

/-- C8 (as stated) fails for two predictors called on a short history: on the two-entry
history with categories A,B the sorted pattern table of `trendAndProb` is empty, so its
read of element 0 (source line 149) is out of bounds and the checked `trendAndProb` returns
`none`; the same holds for `shortPattern` (source line 176) on a one-entry history. -/
theorem short_history_reads_empty_table :
    trendTable [⟨"#1", 12, Result.Tai⟩, ⟨"#2", 8, Result.Xiu⟩] = [] ∧
    readAt (trendTable [⟨"#1", 12, Result.Tai⟩, ⟨"#2", 8, Result.Xiu⟩]) 0 = none ∧
    trendAndProb [⟨"#1", 12, Result.Tai⟩, ⟨"#2", 8, Result.Xiu⟩] = none ∧
    shortTable [⟨"#1", 12, Result.Tai⟩] = [] ∧
    readAt (shortTable [⟨"#1", 12, Result.Tai⟩]) 0 = none ∧
    shortPattern [⟨"#1", 12, Result.Tai⟩] = none := by
  have ht := trendAndProb_short [⟨"#1", 12, Result.Tai⟩, ⟨"#2", 8, Result.Xiu⟩] _
    (detectStreakAndBreak_eq [⟨"#1", 12, Result.Tai⟩, ⟨"#2", 8, Result.Xiu⟩]
      ⟨"#2", 8, Result.Xiu⟩ rfl)
    (lt_of_le_of_lt (trailingRun_le _ _) (by decide)) (by decide) (by decide)
  have hs := shortPattern_single ⟨"#1", 12, Result.Tai⟩
  refine ⟨ht.1, ?_, ht.2, hs.1, ?_, hs.2⟩
  · rw [ht.1]
    rfl
  · rw [hs.1]
    rfl

/-- C8 (amended): in the checked embedding, where an out-of-bounds element read or a zero
divisor makes a function return `none`, `generatePrediction` returns a result for every
store, random value and history (missing, short or long), so no run of the core makes such
a read or division. Called on their own, `detectStreakAndBreak`, `meanDeviation`,
`recentSwitch`, `smartBridgeBreak`, `aiHtddLogic`, `evaluateModelPerformance` and
`isBadPattern` return a result on every history, and the reads at
`history.length - (i + 2)` for `i` below `min(lookback, length - 1)` succeed;
`trendAndProb` returns a result on the empty history, on every history of at least 4
entries and whenever the streak is at least 3, and `shortPattern` on every history whose
length is not 1. On a history of 1 to 3 entries with streak below 3 `trendAndProb` reads
element 0 of an empty sorted pattern table, and so does `shortPattern` on a history of
exactly 1 entry. -/
theorem core_total :
    (∀ (mp : ModelPredictions) (random : ℚ) (history : Option (List Entry)),
      ∃ out, generatePrediction mp random history = some out) ∧
    (∀ history : List Entry, ∃ info, detectStreakAndBreak history = some info) ∧
    (∀ history : List Entry, ∃ v, meanDeviation history = some v) ∧
    (∀ history : List Entry, ∃ v, recentSwitch history = some v) ∧
    (∀ history : List Entry, ∃ b, smartBridgeBreak history = some b) ∧
    (∀ history : List Entry, ∃ a, aiHtddLogic history = some a) ∧
    (∀ (mp : ModelPredictions) (history : List Entry) (modelName : String) (lookback : Nat),
      ∃ s, evaluateModelPerformance mp history modelName lookback = some s) ∧
    (∀ history : List Entry, ∃ b, isBadPattern history = some b) ∧
    (∀ (history : List Entry) (lookback i : Nat), 2 ≤ history.length →
      i < min lookback (history.length - 1) →
      0 ≤ (history.length : Int) - ((i : Int) + 2) ∧
      ∃ e, readAt history ((history.length : Int) - ((i : Int) + 2)) = some e) ∧
    (∀ history : List Entry, history = [] ∨ 4 ≤ history.length →
      ∃ v, trendAndProb history = some v) ∧
    (∀ (history : List Entry) (info : StreakInfo),
      detectStreakAndBreak history = some info → 3 ≤ info.streak →
      ∃ v, trendAndProb history = some v) ∧
    (∀ history : List Entry, history.length ≠ 1 → ∃ v, shortPattern history = some v) ∧
    (∀ (history : List Entry) (info : StreakInfo),
      detectStreakAndBreak history = some info → info.streak < 3 →
      1 ≤ history.length → history.length < 4 →
      trendTable history = [] ∧ trendAndProb history = none) ∧
    (∀ e : Entry, shortTable [e] = [] ∧ shortPattern [e] = none) := by
  refine ⟨?_, detectStreakAndBreak_total, meanDeviation_total, recentSwitch_total,
    smartBridgeBreak_total, aiHtddLogic_total, ?_, isBadPattern_total, ?_, ?_, ?_, ?_,
    trendAndProb_short, shortPattern_single⟩
  · intro mp random history
    cases history with
    | none => exact ⟨_, rfl⟩
    | some l =>
      by_cases hlen : l.length < 5
      · exact ⟨_, generatePrediction_guard mp random (some l)
          (fun l2 hl => by cases hl; exact hlen)⟩
      · obtain ⟨last, info, v, sc, bad, p, _, _, _, _, _, _, hgen, _⟩ :=
          generatePrediction_run mp random l (by omega)
        exact ⟨_, hgen⟩
  · intro mp history modelName lookback
    obtain ⟨s, hs, _⟩ := evaluateModelPerformance_range mp history modelName lookback
    exact ⟨s, hs⟩
  · intro history lookback i hlen hi
    have hi2 : i + 2 ≤ history.length := by
      have := Nat.min_le_right lookback (history.length - 1)
      omega
    refine ⟨by omega, ?_⟩
    have e2 : (history.length : Int) - ((i : Int) + 2)
        = ((history.length - (i + 2) : Nat) : Int) := by omega
    rw [e2, readAt_of_lt history _ (by omega)]
    exact ⟨_, rfl⟩
  · rintro history (hnil | hlen)
    · rw [hnil]
      exact ⟨_, trendAndProb_nil⟩
    · exact trendAndProb_total history hlen
  · intro history info hinfo hs
    unfold trendAndProb
    rw [hinfo]
    simp only [Option.bind_eq_bind, Option.some_bind]
    rw [if_pos hs]
    exact ⟨_, rfl⟩
  · intro history hlen
    by_cases h0 : history.length = 0
    · rw [List.length_eq_zero.mp h0]
      exact ⟨_, shortPattern_nil⟩
    · exact shortPattern_total history (by omega)

/-- Witness of the amended C8: `trendAndProb` on the four-entry history A,A,B,B,
`shortPattern` on the two-entry history A,B, and the read of `evaluateModelPerformance` at
`i = 0` on that two-entry history. -/
theorem core_total_witness :
    (∃ v, trendAndProb [⟨"#1", 12, Result.Tai⟩, ⟨"#2", 13, Result.Tai⟩,
      ⟨"#3", 8, Result.Xiu⟩, ⟨"#4", 7, Result.Xiu⟩] = some v) ∧
    (∃ v, shortPattern [⟨"#1", 12, Result.Tai⟩, ⟨"#2", 8, Result.Xiu⟩] = some v) ∧
    (∃ e, readAt [(⟨"#1", 12, Result.Tai⟩ : Entry), ⟨"#2", 8, Result.Xiu⟩]
      ((([(⟨"#1", 12, Result.Tai⟩ : Entry), ⟨"#2", 8, Result.Xiu⟩].length : Nat) : Int)
        - (((0 : Nat) : Int) + 2)) = some e) :=
  ⟨core_total.2.2.2.2.2.2.2.2.2.1 _ (Or.inr (by decide)),
    core_total.2.2.2.2.2.2.2.2.2.2.2.1 _ (by decide),
    (core_total.2.2.2.2.2.2.2.2.1 _ 10 0 (by decide) (by decide)).2⟩

theorem recordVotes_lookup (mp : ModelPredictions) (s : String) (v : Votes) :
    (recordVotes mp s v).trend s = some v.trendPred ∧
    (recordVotes mp s v).short s = some v.shortPred ∧
    (recordVotes mp s v).mean s = some v.meanPred ∧
    (recordVotes mp s v).switch s = some v.switchPred ∧
    (recordVotes mp s v).bridge s = some v.bridgePred.prediction := by
  simp [recordVotes, setVote]

/-- C10 (as stated) fails: a first call on the five entries `#6` to `#10` records the vote
2 of `trend` for session `#10`; a later call on the ten entries `#1` to `#10`, whose last
session is `#10` as well, replaces that record by the vote 1. -/
theorem vote_record_overwritten :
    ∃ out1 out2,
      generatePrediction ModelPredictions.empty 0 (some shortWindow) = some out1 ∧
      generatePrediction out1.2 0 (some longWindow) = some out2 ∧
      shortWindow.getLast?.map (fun e => e.session) = some "#10" ∧
      longWindow.getLast?.map (fun e => e.session) = some "#10" ∧
      out1.2.trend "#10" = some 2 ∧ out2.2.trend "#10" = some 1 := by
  obtain ⟨last1, _, v1, _, _, p1, hl1, _, hv1, _, _, _, hgen1, _⟩ :=
    generatePrediction_run ModelPredictions.empty 0 shortWindow (by decide)
  obtain ⟨last2, _, v2, _, _, p2, hl2, _, hv2, _, _, _, hgen2, _⟩ :=
    generatePrediction_run (recordVotes ModelPredictions.empty last1.session v1) 0 longWindow
      (by decide)
  have hs1 : last1.session = "#10" := by
    have : last1 = ⟨"#10", 12, Result.Tai⟩ := by
      have h : shortWindow.getLast? = some ⟨"#10", 12, Result.Tai⟩ := rfl
      rw [h] at hl1
      exact (Option.some.inj hl1).symm
    rw [this]
  have hs2 : last2.session = "#10" := by
    have : last2 = ⟨"#10", 12, Result.Tai⟩ := by
      have h : longWindow.getLast? = some ⟨"#10", 12, Result.Tai⟩ := rfl
      rw [h] at hl2
      exact (Option.some.inj hl2).symm
    rw [this]
  have ht1 : trendAndProb shortWindow = some 2 := by decide!
  have ht2 : trendAndProb longWindow = some 1 := by decide!
  have e1 : v1.trendPred = 2 := by
    have := (computeVotes_eq shortWindow v1 hv1).1
    rw [ht1] at this
    exact (Option.some.inj this).symm
  have e2 : v2.trendPred = 1 := by
    have := (computeVotes_eq longWindow v2 hv2).1
    rw [ht2] at this
    exact (Option.some.inj this).symm
  refine ⟨_, _, hgen1, hgen2, rfl, rfl, ?_, ?_⟩
  · show (recordVotes ModelPredictions.empty last1.session v1).trend "#10" = some 2
    rw [← hs1, (recordVotes_lookup _ _ _).1, e1]
  · show (recordVotes (recordVotes ModelPredictions.empty last1.session v1)
      last2.session v2).trend "#10" = some 1
    rw [← hs2, (recordVotes_lookup _ _ _).1, e2]

/-- C10 (amended): every call of `generatePrediction` on a history of at least 5 entries
rewrites the five records of the last session with the votes computed on that history,
whatever the store held. After a first call on `h1` and a later call on `h2` ending in the
same session, each record is the vote of its predictor on `h2`; it equals the vote
written the first time whenever the predictor votes the same on both histories, and the
whole store is unchanged by the later call when `h2` is the history of the first call. -/
theorem vote_record_rewritten (mp : ModelPredictions) (r1 r2 : ℚ) (h1 h2 : List Entry)
    (last1 last2 : Entry) (hlen1 : 5 ≤ h1.length) (hlen2 : 5 ≤ h2.length)
    (hlast1 : h1.getLast? = some last1) (hlast2 : h2.getLast? = some last2)
    (hsession : last1.session = last2.session) :
    ∃ out1 out2 v1 v2,
      generatePrediction mp r1 (some h1) = some out1 ∧
      generatePrediction out1.2 r2 (some h2) = some out2 ∧
      computeVotes h1 = some v1 ∧ computeVotes h2 = some v2 ∧
      (out1.2.trend last1.session = some v1.trendPred ∧
        out2.2.trend last1.session = some v2.trendPred) ∧
      (out1.2.short last1.session = some v1.shortPred ∧
        out2.2.short last1.session = some v2.shortPred) ∧
      (out1.2.mean last1.session = some v1.meanPred ∧
        out2.2.mean last1.session = some v2.meanPred) ∧
      (out1.2.switch last1.session = some v1.switchPred ∧
        out2.2.switch last1.session = some v2.switchPred) ∧
      (out1.2.bridge last1.session = some v1.bridgePred.prediction ∧
        out2.2.bridge last1.session = some v2.bridgePred.prediction) ∧
      (h1 = h2 → out2.2 = out1.2) := by
  obtain ⟨l1, _, v1, _, _, p1, hl1, _, hv1, _, _, _, hgen1, _⟩ :=
    generatePrediction_run mp r1 h1 hlen1
  obtain ⟨l2, _, v2, _, _, p2, hl2, _, hv2, _, _, _, hgen2, _⟩ :=
    generatePrediction_run (recordVotes mp l1.session v1) r2 h2 hlen2
  have e1 : l1 = last1 := Option.some.inj (hl1.symm.trans hlast1)
  have e2 : l2 = last2 := Option.some.inj (hl2.symm.trans hlast2)
  subst e1 e2
  generalize l1.session = s1 at hgen1 hgen2 hsession ⊢
  generalize l2.session = s2 at hgen2 hsession ⊢
  subst hsession
  have k1 := recordVotes_lookup mp s1 v1
  have k2 := recordVotes_lookup (recordVotes mp s1 v1) s1 v2
  refine ⟨_, _, v1, v2, hgen1, hgen2, hv1, hv2, ⟨k1.1, k2.1⟩, ⟨k1.2.1, k2.2.1⟩,
    ⟨k1.2.2.1, k2.2.2.1⟩, ⟨k1.2.2.2.1, k2.2.2.2.1⟩, ⟨k1.2.2.2.2, k2.2.2.2.2⟩, ?_⟩
  intro hh
  subst hh
  have hv : v2 = v1 := Option.some.inj (hv2.symm.trans hv1)
  subst hv
  exact recordVotes_idem mp s1 v2

/-- Witness of the amended C10: the windows `shortWindow` and `longWindow`, which end in
the same session. -/
theorem vote_record_rewritten_witness :
    ∃ out1 out2 v1 v2,
      generatePrediction ModelPredictions.empty 0 (some shortWindow) = some out1 ∧
      generatePrediction out1.2 0 (some longWindow) = some out2 ∧
      computeVotes shortWindow = some v1 ∧ computeVotes longWindow = some v2 ∧
      (out1.2.trend "#10" = some v1.trendPred ∧ out2.2.trend "#10" = some v2.trendPred) ∧
      (out1.2.short "#10" = some v1.shortPred ∧ out2.2.short "#10" = some v2.shortPred) ∧
      (out1.2.mean "#10" = some v1.meanPred ∧ out2.2.mean "#10" = some v2.meanPred) ∧
      (out1.2.switch "#10" = some v1.switchPred ∧
        out2.2.switch "#10" = some v2.switchPred) ∧
      (out1.2.bridge "#10" = some v1.bridgePred.prediction ∧
        out2.2.bridge "#10" = some v2.bridgePred.prediction) ∧
      (shortWindow = longWindow → out2.2 = out1.2) :=
  vote_record_rewritten ModelPredictions.empty 0 0 shortWindow longWindow
    ⟨"#10", 12, Result.Tai⟩ ⟨"#10", 12, Result.Tai⟩ (by decide) (by decide) rfl rfl rfl

/-! ## Claim C17 -/

theorem table_of_known (mp : ModelPredictions) (modelName : String)
    (hknown : modelName ∈ knownModels) : ∃ table, mp.table modelName = some table := by
  simp only [knownModels, List.mem_cons, List.mem_singleton, List.not_mem_nil, or_false]
    at hknown
  rcases hknown with h | h | h | h | h <;> subst h
  · exact ⟨mp.trend, by simp [ModelPredictions.table]⟩
  · exact ⟨mp.short, by simp [ModelPredictions.table]⟩
  · exact ⟨mp.mean, by simp [ModelPredictions.table]⟩
  · exact ⟨mp.switch, by simp [ModelPredictions.table]⟩
  · exact ⟨mp.bridge, by simp [ModelPredictions.table]⟩

theorem score_formula (c w : ℚ) (hw : 0 < w) : 1 + (c - w / 2) / (w / 2) = 2 * c / w := by
  field_simp
  ring

theorem clampedScore_eq (c w : Nat) (hw : 0 < w) (hc : c ≤ w) :
    clampedScore c w = 2 * (c : ℚ) / (w : ℚ) := by
  have hwq : (0 : ℚ) < (w : ℚ) := by exact_mod_cast hw
  have hcq : (c : ℚ) ≤ (w : ℚ) := by exact_mod_cast hc
  have hcq0 : (0 : ℚ) ≤ (c : ℚ) := Nat.cast_nonneg c
  have e : 1 + ((c : ℚ) - (w : ℚ) / 2) / ((w : ℚ) / 2) = 2 * (c : ℚ) / (w : ℚ) :=
    score_formula _ _ hwq
  have h0 : (0 : ℚ) ≤ 2 * (c : ℚ) / (w : ℚ) := by positivity
  have h2 : 2 * (c : ℚ) / (w : ℚ) ≤ 2 := by
    rw [div_le_iff₀ hwq]
    linarith
  unfold clampedScore
  rw [e, min_eq_right h2, max_eq_right h0]

theorem correctCount_eq_zero (table : String → Option Nat) (history : List Entry) (w : Nat)
    (h : ∀ i, i < w → ∀ e, history[history.length - 2 - i]? = some e →
      table e.session = none) :
    correctCount table history w = 0 := by
  unfold correctCount
  rw [List.length_eq_zero, List.filter_eq_nil_iff]
  intro i hi
  rw [List.mem_range] at hi
  unfold voteCorrect
  cases hv : history[history.length - 2 - i]? with
  | none => simp
  | some voted =>
    cases hn : history[history.length - 1 - i]? with
    | none => simp
    | some next => simp [h i hi voted hv]

/-! ### Double-precision arithmetic -/

theorem halvings_spec (fuel n : Nat) (hfuel : n < 2 ^ fuel) (hn : 0 < n) :
    2 ^ halvings fuel n ≤ n ∧ n < 2 ^ (halvings fuel n + 1) := by
  induction fuel generalizing n with
  | zero =>
    rw [pow_zero] at hfuel
    omega
  | succ k ih =>
    unfold halvings
    by_cases h2 : 2 ≤ n
    · rw [if_pos h2]
      have hk : n / 2 < 2 ^ k := by
        rw [pow_succ] at hfuel
        omega
      obtain ⟨hlo, hhi⟩ := ih (n / 2) hk (by omega)
      rw [pow_succ] at hhi ⊢
      rw [pow_succ (2 : Nat) (halvings k (n / 2) + 1), pow_succ (2 : Nat) (halvings k (n / 2))]
      constructor <;> omega
    · rw [if_neg h2]
      have h1 : n = 1 := by omega
      rw [h1]
      norm_num

/-- The fuel of `floorLog2` suffices: its value is the binary logarithm rounded down. -/
theorem floorLog2_spec (n : Nat) (hn : 0 < n) :
    2 ^ floorLog2 n ≤ n ∧ n < 2 ^ (floorLog2 n + 1) :=
  halvings_spec n n (Nat.lt_two_pow n) hn

/-- Values of `binary64` at the double nearest to `0.1`, at a tie, at half of the least
positive double, at the least positive double, and at the overflow threshold. -/
theorem binary64_values :
    binary64 (1 / 10) = some (3602879701896397 / 36028797018963968) ∧
    binary64 (1 + pow2 (-53)) = some 1 ∧
    binary64 (1 + 3 * pow2 (-53)) = some (1 + 4 * pow2 (-53)) ∧
    binary64 (pow2 (-1074) / 2) = some 0 ∧
    binary64 (pow2 (-1074)) = some (pow2 (-1074)) ∧
    binary64 (pow2 1024 - pow2 970 - 1) = some (pow2 1024 - pow2 971) ∧
    binary64 (pow2 1024 - pow2 970) = none := by
  refine ⟨by decide!, by decide!, by decide!, by decide!, by decide!, by decide!, by decide!⟩

/-! ### The score of `evaluateModelPerformance` -/

theorem evaluateModelPerformanceDouble_eq (mp : ModelPredictions) (history : List Entry)
    (modelName : String) (table : String → Option Nat) (lookback : Nat)
    (ht : mp.table modelName = some table) (hlen : 2 ≤ history.length) (hlb : 0 < lookback) :
    evaluateModelPerformanceDouble mp history modelName lookback
      = (performanceScoreDouble (correctCount table history (min lookback (history.length - 1)))
          (min lookback (history.length - 1))).bind
          (fun p => some (max 0.0 (min 2.0 p))) := by
  have hw : 0 < min lookback (history.length - 1) := by
    rw [Nat.lt_min]
    omega
  unfold evaluateModelPerformanceDouble
  rw [ht]
  simp only []
  rw [if_neg (by omega), scoreLoop_eq _ _ _ (by omega)]
  simp only [Option.bind_eq_bind, Option.some_bind]
  rw [if_pos hw]

theorem performanceScoreDouble_table :
    ∀ w, w < 11 → ∀ c, c < w + 1 → 0 < w →
      (performanceScoreDouble c w).any (fun p =>
        decide (0 ≤ p ∧ p ≤ 2 ∧ |p - 2 * (c : ℚ) / (w : ℚ)| ≤ pow2 (-52) ∧
          (c = 0 → p = 0))) = true := by
  decide!

theorem performanceScoreDouble_spec (c w : Nat) (hw : 0 < w) (hw10 : w ≤ 10) (hc : c ≤ w) :
    ∃ p, performanceScoreDouble c w = some p ∧ 0 ≤ p ∧ p ≤ 2 ∧
      |p - 2 * (c : ℚ) / (w : ℚ)| ≤ pow2 (-52) ∧ (c = 0 → p = 0) := by
  have h := performanceScoreDouble_table w (by omega) c (by omega) hw
  cases hp : performanceScoreDouble c w with
  | none =>
    rw [hp] at h
    exact absurd h (by simp)
  | some p =>
    rw [hp, Option.any_some, decide_eq_true_eq] at h
    exact ⟨p, rfl, h⟩

/-- C17 (as stated) fails in double precision: on the seven-entry history `sevenTai` and
the store `oneVoteStore` the window is `w = 6` and the model `trend` has `c = 1` correct
vote, the source computes `1.0 + (1 - 3) / 3` to the double `0.33333333333333337`
(`3002399751580331 / 2^53`), which is neither the number `2 * 1 / 6` nor the double
`0.3333333333333333` of the expression `2 * 1 / 6`; over exact rationals the result is
`2 * 1 / 6`. -/
theorem evaluateModelPerformance_rounding :
    2 ≤ sevenTai.length ∧ "trend" ∈ knownModels ∧
    oneVoteStore.table "trend" = some oneVoteStore.trend ∧
    min 10 (sevenTai.length - 1) = 6 ∧
    correctCount oneVoteStore.trend sevenTai 6 = 1 ∧
    evaluateModelPerformanceDouble oneVoteStore sevenTai "trend" 10
      = some (3002399751580331 / 9007199254740992) ∧
    (3002399751580331 / 9007199254740992 : ℚ) ≠ 2 * 1 / 6 ∧
    (binary64 (2 * 1)).bind (fun n => binary64 (n / 6))
      = some (6004799503160661 / 18014398509481984) ∧
    (3002399751580331 / 9007199254740992 : ℚ) ≠ 6004799503160661 / 18014398509481984 ∧
    evaluateModelPerformance oneVoteStore sevenTai "trend" 10 = some (2 * 1 / 6) := by
  refine ⟨by decide, by decide, by simp [ModelPredictions.table], by decide, by decide!,
    by decide!, by norm_num,
    by decide!, by norm_num, by decide!⟩

/-- C17 (amended): for every known predictor and every history with at least 2 entries,
with `c` the number of correct stored votes in the window and `w = min(10, length - 1)`:
over exact rationals `evaluateModelPerformance` returns exactly `2 * c / w`, the unclamped
formula `1 + (c - w/2) / (w/2)` equals `2 * c / w` and lies in `[0, 2]`; in double
precision the unclamped score `p` of the source lies in `[0, 2]`, so the clamp does not
change it and `evaluateModelPerformance` returns `p`, and `p` differs from `2 * c / w` by
at most `2^-52`. In both arithmetics the score is 0 when the store holds no vote for any
of the `w` scored sessions. -/
theorem evaluateModelPerformance_score (mp : ModelPredictions) (history : List Entry)
    (modelName : String) (hknown : modelName ∈ knownModels) (hlen : 2 ≤ history.length) :
    ∃ table, mp.table modelName = some table ∧
      evaluateModelPerformance mp history modelName 10
        = some (2 * (correctCount table history (min 10 (history.length - 1)) : ℚ)
            / ((min 10 (history.length - 1) : Nat) : ℚ)) ∧
      1 + ((correctCount table history (min 10 (history.length - 1)) : ℚ)
            - ((min 10 (history.length - 1) : Nat) : ℚ) / 2)
          / (((min 10 (history.length - 1) : Nat) : ℚ) / 2)
        = 2 * (correctCount table history (min 10 (history.length - 1)) : ℚ)
            / ((min 10 (history.length - 1) : Nat) : ℚ) ∧
      0 ≤ 2 * (correctCount table history (min 10 (history.length - 1)) : ℚ)
            / ((min 10 (history.length - 1) : Nat) : ℚ) ∧
      2 * (correctCount table history (min 10 (history.length - 1)) : ℚ)
            / ((min 10 (history.length - 1) : Nat) : ℚ) ≤ 2 ∧
      (∃ p, performanceScoreDouble (correctCount table history (min 10 (history.length - 1)))
            (min 10 (history.length - 1)) = some p ∧
          0 ≤ p ∧ p ≤ 2 ∧
          evaluateModelPerformanceDouble mp history modelName 10 = some p ∧
          |p - 2 * (correctCount table history (min 10 (history.length - 1)) : ℚ)
            / ((min 10 (history.length - 1) : Nat) : ℚ)| ≤ pow2 (-52)) ∧
      ((∀ i, i < min 10 (history.length - 1) → ∀ e,
          history[history.length - 2 - i]? = some e → table e.session = none) →
        evaluateModelPerformance mp history modelName 10 = some 0 ∧
        evaluateModelPerformanceDouble mp history modelName 10 = some 0) := by
  obtain ⟨table, ht⟩ := table_of_known mp modelName hknown
  have hw : 0 < min 10 (history.length - 1) := by
    rw [Nat.lt_min]
    omega
  have hwq : (0 : ℚ) < ((min 10 (history.length - 1) : Nat) : ℚ) := by exact_mod_cast hw
  have hc := correctCount_le table history (min 10 (history.length - 1))
  have hcq : (correctCount table history (min 10 (history.length - 1)) : ℚ)
      ≤ ((min 10 (history.length - 1) : Nat) : ℚ) := by exact_mod_cast hc
  have heval := evaluateModelPerformance_eq mp history modelName table 10 ht hlen (by norm_num)
  have hdouble :=
    evaluateModelPerformanceDouble_eq mp history modelName table 10 ht hlen (by norm_num)
  obtain ⟨p, hp, hp0, hp2, hperr, hpzero⟩ := performanceScoreDouble_spec
    (correctCount table history (min 10 (history.length - 1)))
    (min 10 (history.length - 1)) hw (Nat.min_le_left _ _) hc
  have hclamp : max (0.0 : ℚ) (min 2.0 p) = p := by
    rw [min_eq_right (le_trans hp2 (by norm_num)), max_eq_right (le_trans (by norm_num) hp0)]
  have hres : evaluateModelPerformanceDouble mp history modelName 10 = some p := by
    rw [hdouble, hp, Option.some_bind, hclamp]
  refine ⟨table, ht, ?_, ?_, by positivity, ?_, ⟨p, hp, hp0, hp2, hres, hperr⟩, ?_⟩
  · rw [heval, clampedScore_eq _ _ hw hc]
  · exact score_formula _ _ hwq
  · rw [div_le_iff₀ hwq]
    linarith
  · intro hnone
    have hzero := correctCount_eq_zero table history _ hnone
    constructor
    · rw [heval, clampedScore_eq _ _ hw hc, hzero]
      simp
    · rw [hres, hpzero hzero]

/-- Witness of the amended C17: the model `short` on a three-entry history and the empty
store has score 0 in both arithmetics. -/
theorem evaluateModelPerformance_score_witness :
    ∃ table, ModelPredictions.empty.table "short" = some table ∧
      evaluateModelPerformance ModelPredictions.empty
          [⟨"#1", 12, Result.Tai⟩, ⟨"#2", 7, Result.Xiu⟩, ⟨"#3", 9, Result.Xiu⟩] "short" 10
        = some 0 ∧
      evaluateModelPerformanceDouble ModelPredictions.empty
          [⟨"#1", 12, Result.Tai⟩, ⟨"#2", 7, Result.Xiu⟩, ⟨"#3", 9, Result.Xiu⟩] "short" 10
        = some 0 :=
  have h := evaluateModelPerformance_score ModelPredictions.empty
    [⟨"#1", 12, Result.Tai⟩, ⟨"#2", 7, Result.Xiu⟩, ⟨"#3", 9, Result.Xiu⟩] "short"
    (by decide) (by decide)
  h.elim (fun table ht => ⟨table, ht.1, ht.2.2.2.2.2.2 (fun i _ e _ => by
    have h0 : ModelPredictions.empty.table "short" = some (fun _ => none) := by
      simp [ModelPredictions.table, ModelPredictions.empty]
    rw [h0] at ht
    have := Option.some.inj ht.1
    rw [← this])⟩)

/-! ## Claims C19 and C20 -/

theorem addVote_sum (s : ℚ × ℚ) (vote : Nat) (w : ℚ) (hw : 0 ≤ w) :
    s.1 + s.2 ≤ (addVote s vote w).1 + (addVote s vote w).2 := by
  unfold addVote
  split_ifs
  · show s.1 + s.2 ≤ s.1 + w + s.2
    linarith
  · show s.1 + s.2 ≤ s.1 + (s.2 + w)
    linarith
  · exact le_refl _

theorem accumulate_sum (streak : Nat) (v : Votes) (sc : ModelScores)
    (h1 : 0 ≤ sc.trend) (h2 : 0 ≤ sc.short) (h3 : 0 ≤ sc.mean) (h4 : 0 ≤ sc.switch)
    (h5 : 0 ≤ sc.bridge) :
    0.25 ≤ (accumulate streak v sc).1 + (accumulate streak v sc).2 := by
  have w1 : (0 : ℚ) ≤ if streak ≥ 3 then 0.15 * sc.trend else 0.2 * sc.trend := by
    split_ifs <;> positivity
  have w2 : (0 : ℚ) ≤ if streak ≥ 2 then 0.2 * sc.short else 0.15 * sc.short := by
    split_ifs <;> positivity
  have w3 : (0 : ℚ) ≤ 0.1 * sc.mean := by positivity
  have w4 : (0 : ℚ) ≤ 0.1 * sc.switch := by positivity
  have w5 : (0 : ℚ) ≤ if streak ≥ 3 then 0.35 * sc.bridge else 0.3 * sc.bridge := by
    split_ifs <;> positivity
  have w6 : (0.25 : ℚ) ≤ if streak ≥ 2 then (0.3 : ℚ) else 0.25 := by
    split_ifs <;> norm_num
  have a5 := le_trans (le_trans (le_trans (le_trans
    (addVote_sum (0, 0) v.trendPred _ w1) (addVote_sum _ v.shortPred _ w2))
    (addVote_sum _ v.meanPred _ w3)) (addVote_sum _ v.switchPred _ w4))
    (addVote_sum _ v.bridgePred.prediction _ w5)
  have a0 : ((0 : ℚ), (0 : ℚ)).1 + ((0 : ℚ), (0 : ℚ)).2 = 0 := by norm_num
  unfold accumulate
  simp only []
  by_cases hai : v.aiPred.prediction = some Result.Tai
  · rw [if_pos hai]
    simp only []
    linarith
  · rw [if_neg hai]
    simp only []
    linarith

theorem applyBadPattern_sum (bad : Bool) (s : ℚ × ℚ) (hs : 0 ≤ s.1 + s.2) :
    0.5 * (s.1 + s.2) ≤ (applyBadPattern bad s).1 + (applyBadPattern bad s).2 := by
  unfold applyBadPattern
  split_ifs
  · show 0.5 * (s.1 + s.2) ≤ s.1 * 0.5 + s.2 * 0.5
    linarith
  · linarith

theorem applyBonus_sum (streak : Nat) (b : BridgePred) (s : ℚ × ℚ) :
    s.1 + s.2 ≤ (applyBonus streak b s).1 + (applyBonus streak b s).2 := by
  unfold applyBonus
  split_ifs
  · show s.1 + s.2 ≤ s.1 + 0.4 + s.2
    linarith
  · show s.1 + s.2 ≤ s.1 + (s.2 + 0.4)
    linarith
  · show s.1 + s.2 ≤ s.1 + 0.35 + s.2
    linarith
  · show s.1 + s.2 ≤ s.1 + (s.2 + 0.35)
    linarith
  · exact le_refl _

theorem finalScores_bounds (streak : Nat) (v : Votes) (sc : ModelScores) (bad : Bool)
    (h1 : 0 ≤ sc.trend) (h2 : 0 ≤ sc.short) (h3 : 0 ≤ sc.mean) (h4 : 0 ≤ sc.switch)
    (h5 : 0 ≤ sc.bridge) :
    0 ≤ (finalScores streak v sc bad).1 ∧ 0 ≤ (finalScores streak v sc bad).2 ∧
      0.125 ≤ (finalScores streak v sc bad).1 + (finalScores streak v sc bad).2 := by
  have hacc := accumulate_nonneg streak v sc h1 h2 h3 h4 h5
  have hsum := accumulate_sum streak v sc h1 h2 h3 h4 h5
  have hbad := applyBadPattern_nonneg bad _ hacc
  have hbadsum := applyBadPattern_sum bad (accumulate streak v sc) (by linarith)
  have hbonus := applyBonus_nonneg streak v.bridgePred _ hbad
  have hbonussum := applyBonus_sum streak v.bridgePred (applyBadPattern bad (accumulate streak v sc))
  refine ⟨hbonus.1, hbonus.2, ?_⟩
  unfold finalScores
  linarith

theorem finalResult_pos (s : ℚ × ℚ) (aiReason bridgeReason : String) (hpos : 0 < s.1 + s.2) :
    finalResult s aiReason bridgeReason = some
      ⟨if s.1 > s.2 then Result.Tai else Result.Xiu, aiReason ++ " | " ++ bridgeReason,
       if s.1 > s.2 then s.1 / (s.1 + s.2) else s.2 / (s.1 + s.2),
       "Dự đoán " ++ (if s.1 > s.2 then Result.Tai else Result.Xiu).toString⟩ := by
  unfold finalResult
  simp only []
  rw [if_pos hpos]
  by_cases hgt : s.1 > s.2
  · rw [if_pos hgt, divide_of_ne _ _ (ne_of_gt hpos)]
    simp [hgt]
  · rw [if_neg hgt, divide_of_ne _ _ (ne_of_gt hpos)]
    simp [hgt]

/-- C19: for every history of at least 5 entries and every vote store, the two
accumulators of `generatePrediction` are non-negative and their sum is at least 0.125, so
the branch for a zero sum is never taken: the confidence is the larger accumulator divided
by the sum, and it lies between 0.5 and 1. -/
theorem generatePrediction_accumulators (mp : ModelPredictions) (random : ℚ)
    (history : List Entry) (hlen : 5 ≤ history.length) :
    ∃ info v sc bad p mp1,
      detectStreakAndBreak history = some info ∧
      computeVotes history = some v ∧
      computeScores mp1 history = some sc ∧
      isBadPattern history = some bad ∧
      generatePrediction mp random (some history) = some (p, mp1) ∧
      0 ≤ (finalScores info.streak v sc bad).1 ∧
      0 ≤ (finalScores info.streak v sc bad).2 ∧
      0.125 ≤ (finalScores info.streak v sc bad).1 + (finalScores info.streak v sc bad).2 ∧
      p.do_tin_cay
        = (if (finalScores info.streak v sc bad).1 > (finalScores info.streak v sc bad).2
           then (finalScores info.streak v sc bad).1
             / ((finalScores info.streak v sc bad).1 + (finalScores info.streak v sc bad).2)
           else (finalScores info.streak v sc bad).2
             / ((finalScores info.streak v sc bad).1 + (finalScores info.streak v sc bad).2)) ∧
      0.5 ≤ p.do_tin_cay ∧ p.do_tin_cay ≤ 1 := by
  obtain ⟨last, info, v, sc, bad, p, _, hinfo, hv, hsc, hbad, hfinal, hgen, _, _, hle⟩ :=
    generatePrediction_run mp random history hlen
  obtain ⟨sc2, hsc2, b1, b2, b3, b4, b5⟩ :=
    computeScores_total (recordVotes mp last.session v) history
  have hsceq : sc2 = sc := Option.some.inj (hsc2.symm.trans hsc)
  subst hsceq
  obtain ⟨n1, n2, hsum⟩ := finalScores_bounds info.streak v sc2 bad b1.1 b2.1 b3.1 b4.1 b5.1
  have hpos : 0 < (finalScores info.streak v sc2 bad).1 + (finalScores info.streak v sc2 bad).2 := by
    have : (0 : ℚ) < 0.125 := by norm_num
    linarith
  have hfinal2 : finalResult (finalScores info.streak v sc2 bad) v.aiPred.reason
      v.bridgePred.reason = some p := hfinal
  rw [finalResult_pos _ _ _ hpos] at hfinal2
  have hp := Option.some.inj hfinal2
  have hconf : p.do_tin_cay
      = (if (finalScores info.streak v sc2 bad).1 > (finalScores info.streak v sc2 bad).2
         then (finalScores info.streak v sc2 bad).1
           / ((finalScores info.streak v sc2 bad).1 + (finalScores info.streak v sc2 bad).2)
         else (finalScores info.streak v sc2 bad).2
           / ((finalScores info.streak v sc2 bad).1 + (finalScores info.streak v sc2 bad).2)) := by
    rw [← hp]
  refine ⟨info, v, sc2, bad, p, _, hinfo, hv, hsc, hbad, hgen, n1, n2, hsum, hconf, ?_, hle⟩
  rw [hconf]
  by_cases hgt : (finalScores info.streak v sc2 bad).1 > (finalScores info.streak v sc2 bad).2
  · rw [if_pos hgt, le_div_iff₀ hpos]
    linarith
  · rw [if_neg hgt, le_div_iff₀ hpos]
    linarith

/-- Witness of C19: the ten-entry history `longWindow` and the empty store. -/
theorem generatePrediction_accumulators_witness :
    ∃ p mp1, generatePrediction ModelPredictions.empty 0 (some longWindow) = some (p, mp1) ∧
      0.5 ≤ p.do_tin_cay ∧ p.do_tin_cay ≤ 1 :=
  have h := generatePrediction_accumulators ModelPredictions.empty 0 longWindow (by decide)
  h.elim (fun _ h1 => h1.elim (fun _ h2 => h2.elim (fun _ h3 => h3.elim (fun _ h4 =>
    h4.elim (fun p h5 => h5.elim (fun mp1 h6 =>
      ⟨p, mp1, h6.2.2.2.2.1, h6.2.2.2.2.2.2.2.2.2.1, h6.2.2.2.2.2.2.2.2.2.2⟩))))))

/-- C20: `generatePrediction` is idempotent on a fixed history of at least 5 entries:
whatever the initial store and the random values, a second call on the same history
returns the same prediction (category, rationale, confidence) as the first and leaves the
store as the first call left it; the first call changes no store entry other than the five
records of the last session. -/
theorem generatePrediction_idempotent (mp : ModelPredictions) (r1 r2 : ℚ)
    (history : List Entry) (hlen : 5 ≤ history.length) :
    ∃ p mp1 last,
      history.getLast? = some last ∧
      generatePrediction mp r1 (some history) = some (p, mp1) ∧
      generatePrediction mp1 r2 (some history) = some (p, mp1) ∧
      (∀ s, s ≠ last.session →
        mp1.trend s = mp.trend s ∧ mp1.short s = mp.short s ∧ mp1.mean s = mp.mean s ∧
        mp1.switch s = mp.switch s ∧ mp1.bridge s = mp.bridge s) := by
  obtain ⟨last, info, v, sc, bad, p, hlast, hinfo, hv, hsc, hbad, hfinal, hgen, _⟩ :=
    generatePrediction_run mp r1 history hlen
  obtain ⟨last2, info2, v2, sc2, bad2, p2, hlast2, hinfo2, hv2, hsc2, hbad2, hfinal2, hgen2, _⟩ :=
    generatePrediction_run (recordVotes mp last.session v) r2 history hlen
  have e1 : last2 = last := Option.some.inj (hlast2.symm.trans hlast)
  have e2 : info2 = info := Option.some.inj (hinfo2.symm.trans hinfo)
  have e3 : v2 = v := Option.some.inj (hv2.symm.trans hv)
  have e5 : bad2 = bad := Option.some.inj (hbad2.symm.trans hbad)
  subst e1 e2 e3 e5
  rw [recordVotes_idem] at hsc2 hgen2
  have e4 : sc2 = sc := Option.some.inj (hsc2.symm.trans hsc)
  subst e4
  have e6 : p2 = p := Option.some.inj (hfinal2.symm.trans hfinal)
  subst e6
  refine ⟨p2, _, last2, hlast, hgen, hgen2, ?_⟩
  intro s hs
  simp [recordVotes, setVote, hs]

/-- Witness of C20: two calls on `shortWindow`, starting from the empty store. -/
theorem generatePrediction_idempotent_witness :
    ∃ p mp1 last,
      shortWindow.getLast? = some last ∧
      generatePrediction ModelPredictions.empty 0 (some shortWindow) = some (p, mp1) ∧
      generatePrediction mp1 (3 / 4) (some shortWindow) = some (p, mp1) ∧
      (∀ s, s ≠ last.session →
        mp1.trend s = ModelPredictions.empty.trend s ∧
        mp1.short s = ModelPredictions.empty.short s ∧
        mp1.mean s = ModelPredictions.empty.mean s ∧
        mp1.switch s = ModelPredictions.empty.switch s ∧
        mp1.bridge s = ModelPredictions.empty.bridge s) :=
  generatePrediction_idempotent ModelPredictions.empty 0 (3 / 4) shortWindow (by decide)

/-! ## Claims C15 and C16 -/

theorem readAt_last_of_getLast? {α : Type} (xs : List α) (a : α) (h : xs.getLast? = some a) :
    readAt xs ((xs.length : Int) - 1) = some a := by
  have hne : xs ≠ [] := by
    intro hnil
    rw [hnil] at h
    cases h
  rw [readAt_last xs hne, ← List.getLast?_eq_getLast xs hne, h]

theorem lastCats_getLast? (history : List Entry) (n : Nat) (hn : 0 < n) (last : Entry)
    (hlast : history.getLast? = some last) :
    ((sliceLast history n).map (fun h => h.result)).getLast? = some last.result := by
  have hne : history ≠ [] := by
    intro hnil
    rw [hnil] at hlast
    cases hlast
  have hlen : 0 < history.length := List.length_pos.mpr hne
  rw [List.getLast?_map]
  unfold sliceLast
  rw [List.getLast?_drop, if_neg (by omega), hlast]
  rfl

theorem oppositeOfLast_eq (last : List Result) (l : Result) (h : last.getLast? = some l) :
    oppositeOfLast last = some (if l = Result.Xiu then 1 else 2) := by
  unfold oppositeOfLast
  rw [readAt_last_of_getLast? last l h]
  rfl

theorem streakVote_classified (info : StreakInfo) (c : Result)
    (hcur : info.currentResult = some c) (hc : c ≠ Result.KhongXacDinh) :
    streakVote info
      = if info.breakProb ≤ 0.6 then categoryVote c else categoryVote (opposite c) := by
  unfold streakVote
  rw [hcur]
  by_cases hb : info.breakProb ≤ 0.6
  · rw [if_neg (not_lt.mpr hb), if_pos hb]
    cases c <;> simp [categoryVote] at hc ⊢
  · rw [if_pos (not_le.mp hb), if_neg hb]
    cases c <;> simp [categoryVote, opposite] at hc ⊢

theorem trendAndProb_streak (history : List Entry) (info : StreakInfo)
    (hinfo : detectStreakAndBreak history = some info) (hs : 3 ≤ info.streak) :
    trendAndProb history = some (streakVote info) := by
  unfold trendAndProb
  rw [hinfo]
  simp only [Option.bind_eq_bind, Option.some_bind]
  rw [if_pos hs]

theorem shortPattern_streak (history : List Entry) (info : StreakInfo)
    (hinfo : detectStreakAndBreak history = some info) (hs : 2 ≤ info.streak) :
    shortPattern history = some (streakVote info) := by
  unfold shortPattern
  rw [hinfo]
  simp only [Option.bind_eq_bind, Option.some_bind]
  rw [if_pos hs]

theorem meanDeviation_streak (history : List Entry) (info : StreakInfo)
    (hinfo : detectStreakAndBreak history = some info) (hs : 2 ≤ info.streak) :
    meanDeviation history = some (streakVote info) := by
  unfold meanDeviation
  rw [hinfo]
  simp only [Option.bind_eq_bind, Option.some_bind]
  rw [if_pos hs]

theorem recentSwitch_streak (history : List Entry) (info : StreakInfo)
    (hinfo : detectStreakAndBreak history = some info) (hs : 2 ≤ info.streak) :
    recentSwitch history = some (streakVote info) := by
  unfold recentSwitch
  rw [hinfo]
  simp only [Option.bind_eq_bind, Option.some_bind]
  rw [if_pos hs]

theorem recentSwitch_fallback (history : List Entry) (info : StreakInfo) (last : Entry)
    (hinfo : detectStreakAndBreak history = some info) (hs : info.streak < 2)
    (hlast : history.getLast? = some last) :
    recentSwitch history = some (if last.result = Result.Xiu then 1 else 2) := by
  have hcat := lastCats_getLast? history 10 (by norm_num) last hlast
  have hne : ((sliceLast history 10).map (fun h => h.result)).length ≠ 0 := by
    intro h0
    rw [List.length_eq_zero] at h0
    rw [h0] at hcat
    cases hcat
  unfold recentSwitch
  rw [hinfo]
  simp only [Option.bind_eq_bind, Option.some_bind]
  rw [if_neg (by omega), if_neg hne, countSwitches_eq]
  simp only [Option.some_bind, ite_self]
  exact oppositeOfLast_eq _ _ hcat

/-- C15: the shared streak regime. On a history of classified categories whose streak
reaches the threshold of the predictor (3 for `trendAndProb`, 2 for `shortPattern`,
`meanDeviation` and `recentSwitch`), the vote is the current category when the
`breakProb` of `detectStreakAndBreak` is at most 0.6 and the opposite category when it is
above 0.6; so the three predictors with threshold 2 return the same vote whenever the
streak is at least 2. -/
theorem streak_regime_vote (history : List Entry) (last : Entry)
    (hlast : history.getLast? = some last)
    (hclass : ∀ e ∈ history, e.result ≠ Result.KhongXacDinh) :
    ∃ info, detectStreakAndBreak history = some info ∧
      info.currentResult = some last.result ∧
      (3 ≤ info.streak →
        trendAndProb history = some (if info.breakProb ≤ 0.6 then categoryVote last.result
          else categoryVote (opposite last.result))) ∧
      (2 ≤ info.streak →
        shortPattern history = some (if info.breakProb ≤ 0.6 then categoryVote last.result
          else categoryVote (opposite last.result)) ∧
        meanDeviation history = some (if info.breakProb ≤ 0.6 then categoryVote last.result
          else categoryVote (opposite last.result)) ∧
        recentSwitch history = some (if info.breakProb ≤ 0.6 then categoryVote last.result
          else categoryVote (opposite last.result)) ∧
        shortPattern history = meanDeviation history ∧
        meanDeviation history = recentSwitch history) := by
  have hinfo := detectStreakAndBreak_eq history last hlast
  have hc : last.result ≠ Result.KhongXacDinh :=
    hclass last (List.mem_of_mem_getLast? (by rw [hlast]; exact rfl))
  refine ⟨_, hinfo, rfl, ?_, ?_⟩
  · intro hs
    rw [trendAndProb_streak history _ hinfo hs, streakVote_classified _ last.result rfl hc]
  · intro hs
    rw [shortPattern_streak history _ hinfo hs, meanDeviation_streak history _ hinfo hs,
      recentSwitch_streak history _ hinfo hs, streakVote_classified _ last.result rfl hc]
    exact ⟨rfl, rfl, rfl, rfl, rfl⟩

/-- Witness of C15: the history `shortWindow`, five A entries. -/
theorem streak_regime_vote_witness :
    ∃ info, detectStreakAndBreak shortWindow = some info ∧
      info.currentResult = some Result.Tai ∧
      (3 ≤ info.streak →
        trendAndProb shortWindow = some (if info.breakProb ≤ 0.6 then categoryVote Result.Tai
          else categoryVote (opposite Result.Tai))) :=
  have h := streak_regime_vote shortWindow ⟨"#10", 12, Result.Tai⟩ rfl (by decide)
  h.elim (fun info hi => ⟨info, hi.1, hi.2.1, hi.2.2.1⟩)

/-- C16: on a non-empty history of classified categories whose streak is 1, `recentSwitch`
votes the category opposite to the most recent entry; the number of adjacent switches in
the last 10 entries plays no part in the result. -/
theorem recentSwitch_fallback_vote (history : List Entry) (last : Entry)
    (hlast : history.getLast? = some last)
    (hclass : ∀ e ∈ history, e.result ≠ Result.KhongXacDinh) :
    ∃ info, detectStreakAndBreak history = some info ∧
      (info.streak = 1 →
        recentSwitch history = some (categoryVote (opposite last.result))) := by
  have hinfo := detectStreakAndBreak_eq history last hlast
  have hc : last.result ≠ Result.KhongXacDinh :=
    hclass last (List.mem_of_mem_getLast? (by rw [hlast]; exact rfl))
  refine ⟨_, hinfo, ?_⟩
  intro hs
  rw [recentSwitch_fallback history _ last hinfo (by omega) hlast]
  cases hr : last.result <;> simp [categoryVote, opposite, hr] at hc ⊢

/-- Witness of C16: the history with categories A,A,A,B, whose streak is 1. -/
theorem recentSwitch_fallback_vote_witness :
    ∃ info, detectStreakAndBreak [⟨"#1", 12, Result.Tai⟩, ⟨"#2", 11, Result.Tai⟩,
        ⟨"#3", 15, Result.Tai⟩, ⟨"#4", 7, Result.Xiu⟩] = some info ∧
      (info.streak = 1 →
        recentSwitch [⟨"#1", 12, Result.Tai⟩, ⟨"#2", 11, Result.Tai⟩,
          ⟨"#3", 15, Result.Tai⟩, ⟨"#4", 7, Result.Xiu⟩]
          = some (categoryVote (opposite Result.Xiu))) :=
  recentSwitch_fallback_vote [⟨"#1", 12, Result.Tai⟩, ⟨"#2", 11, Result.Tai⟩,
    ⟨"#3", 15, Result.Tai⟩, ⟨"#4", 7, Result.Xiu⟩] ⟨"#4", 7, Result.Xiu⟩ rfl (by decide)

/-! ## Histories described by their last categories -/

theorem map_sliceLast {α β : Type} (f : α → β) (xs : List α) (n : Nat) :
    (sliceLast xs n).map f = sliceLast (xs.map f) n := by
  simp [sliceLast]

theorem sliceLast_sliceLast {α : Type} (xs : List α) (m n : Nat) (h : m ≤ n) :
    sliceLast (sliceLast xs n) m = sliceLast xs m := by
  unfold sliceLast
  rw [List.drop_drop, List.length_drop]
  congr 1
  omega

theorem lastCats_mono (history : List Entry) (m n : Nat) (h : m ≤ n) :
    (sliceLast history m).map (fun h => h.result)
      = sliceLast ((sliceLast history n).map (fun h => h.result)) m := by
  rw [← map_sliceLast, sliceLast_sliceLast _ _ _ h]

theorem cats_split (history : List Entry) (n : Nat) :
    history.map (fun h => h.result)
      = (history.map (fun h => h.result)).take (history.length - n)
        ++ (sliceLast history n).map (fun h => h.result) := by
  rw [map_sliceLast]
  unfold sliceLast
  rw [List.length_map, List.take_append_drop]

theorem trailingRun_eq_categoryRun (c : Result) (history : List Entry) :
    trailingRun c history = categoryRun c (history.map (fun h => h.result)) := by
  unfold trailingRun categoryRun
  rw [← List.map_reverse]
  induction history.reverse with
  | nil => rfl
  | cons e l ih =>
    simp only [List.map_cons, List.takeWhile_cons]
    by_cases hc : e.result = c
    · simp only [hc, decide_True, if_true, List.length_cons, ih]
    · simp [hc]

theorem categoryRun_append_all (c : Result) (pre suf : List Result)
    (h : ∀ r ∈ suf, r = c) :
    categoryRun c (pre ++ suf) = suf.length + categoryRun c pre := by
  unfold categoryRun
  rw [List.reverse_append, List.takeWhile_append_of_pos, List.length_append,
    List.length_reverse]
  intro a ha
  simpa using h a (List.mem_reverse.mp ha)

theorem categoryRun_append_not_all (c : Result) (pre suf : List Result)
    (h : ∃ r ∈ suf, r ≠ c) :
    categoryRun c (pre ++ suf) = categoryRun c suf := by
  unfold categoryRun
  rw [List.reverse_append, List.takeWhile_append, if_neg]
  intro hlen
  obtain ⟨r, hr, hrc⟩ := h
  have hpre : (suf.reverse.takeWhile (fun r => decide (r = c))) <+: suf.reverse :=
    List.takeWhile_prefix _
  have heq := hpre.eq_of_length hlen
  have hmem : r ∈ suf.reverse.takeWhile (fun r => decide (r = c)) := by
    rw [heq]
    exact List.mem_reverse.mpr hr
  have := List.mem_takeWhile_imp hmem
  exact hrc (by simpa using this)

/-- The streak data of a history whose last categories are known. -/
theorem detect_of_lastCats (history : List Entry) (n : Nat) (suf : List Result) (c : Result)
    (hsuf : (sliceLast history n).map (fun h => h.result) = suf)
    (hc : suf.getLast? = some c) :
    ∃ info, detectStreakAndBreak history = some info ∧ info.currentResult = some c ∧
      info.streak = categoryRun c ((history.map (fun h => h.result)).take (history.length - n)
        ++ suf) := by
  have hcats := cats_split history n
  rw [hsuf] at hcats
  have hsufne : suf ≠ [] := by
    intro hnil
    rw [hnil] at hc
    cases hc
  have hl : (history.map (fun h => h.result)).getLast? = some c := by
    rw [hcats, List.getLast?_append_of_ne_nil _ hsufne, hc]
  rw [List.getLast?_map] at hl
  cases hlast : history.getLast? with
  | none =>
    rw [hlast] at hl
    cases hl
  | some last =>
    rw [hlast] at hl
    have hres : last.result = c := Option.some.inj hl
    refine ⟨_, detectStreakAndBreak_eq history last hlast, by rw [hres], ?_⟩
    show trailingRun last.result history = _
    rw [hres, trailingRun_eq_categoryRun, ← hcats]

/-! ## The rule cascade of `aiHtddLogic` -/

theorem aiHtddLogic_rule_a (history : List Entry) (info : StreakInfo)
    (hinfo : detectStreakAndBreak history = some info)
    (ha : info.streak ≥ 2 ∧ info.streak ≤ 4) :
    aiHtddLogic history = some
      ⟨info.currentResult,
       "[Theo Cầu Thông Minh] Chuỗi ngắn " ++ toString info.streak ++ " "
         ++ showCurrent info.currentResult ++ ", tiếp tục theo cầu", "AI HTDD"⟩ := by
  unfold aiHtddLogic
  simp only []
  rw [hinfo]
  simp only [Option.bind_eq_bind, Option.some_bind]
  rw [if_pos ha]

theorem aiHtddLogic_rule_b (history : List Entry) (info : StreakInfo)
    (hinfo : detectStreakAndBreak history = some info)
    (ha : ¬ (info.streak ≥ 2 ∧ info.streak ≤ 4)) (hlen : history.length ≥ 3)
    (h3 : (sliceLast history 3).map (fun h => h.result)
      = [Result.Xiu, Result.Tai, Result.Xiu]) :
    aiHtddLogic history = some
      ⟨some Result.Tai, "[Bẻ Cầu Thông Minh] Phát hiện mẫu 1X1T → tiếp theo nên đánh Tài",
       "AI HTDD"⟩ := by
  unfold aiHtddLogic
  simp only []
  rw [hinfo]
  simp only [Option.bind_eq_bind, Option.some_bind]
  rw [if_neg ha, h3, if_neg (by simp), if_pos ⟨hlen, rfl⟩]

theorem all_result (xs : List Entry) (c : Result) :
    xs.all (fun h => decide (h.result = c))
      = (xs.map (fun h => h.result)).all (fun r => decide (r = c)) := by
  induction xs with
  | nil => rfl
  | cons e l ih => simp only [List.all_cons, List.map_cons, ih]

theorem aiHtddLogic_rule_d_tai (history : List Entry) (info : StreakInfo)
    (hinfo : detectStreakAndBreak history = some info)
    (ha : ¬ (info.streak ≥ 2 ∧ info.streak ≤ 4)) (hlen : history.length ≥ 7)
    (h7 : (sliceLast history 7).map (fun h => h.result) = List.replicate 7 Result.Tai) :
    aiHtddLogic history = some
      ⟨some Result.Xiu, "[Bẻ Cầu Thông Minh] Chuỗi Tài quá dài (7 lần) → dự đoán Xỉu",
       "AI HTDD"⟩ := by
  have h3 : (sliceLast history 3).map (fun h => h.result)
      = [Result.Tai, Result.Tai, Result.Tai] := by
    rw [lastCats_mono history 3 7 (by norm_num), h7]
    rfl
  have h4 : (sliceLast history 4).map (fun h => h.result)
      = [Result.Tai, Result.Tai, Result.Tai, Result.Tai] := by
    rw [lastCats_mono history 4 7 (by norm_num), h7]
    rfl
  have hallX : ¬ (history.length ≥ 7 ∧
      (sliceLast history 7).all (fun h => decide (h.result = Result.Xiu)) = true) := by
    rintro ⟨_, hall⟩
    rw [all_result, h7] at hall
    revert hall
    decide
  have hallT : (sliceLast history 7).all (fun h => decide (h.result = Result.Tai)) = true := by
    rw [all_result, h7]
    decide
  unfold aiHtddLogic
  simp only []
  rw [hinfo]
  simp only [Option.bind_eq_bind, Option.some_bind]
  rw [if_neg ha, h3, h4, if_neg (by simp), if_neg (by simp), if_neg (by simp),
    if_neg (by simp), if_neg hallX, if_pos ⟨hlen, hallT⟩]

theorem aiHtddLogic_rule_d_xiu (history : List Entry) (info : StreakInfo)
    (hinfo : detectStreakAndBreak history = some info)
    (ha : ¬ (info.streak ≥ 2 ∧ info.streak ≤ 4)) (hlen : history.length ≥ 7)
    (h7 : (sliceLast history 7).map (fun h => h.result) = List.replicate 7 Result.Xiu) :
    aiHtddLogic history = some
      ⟨some Result.Tai, "[Bẻ Cầu Thông Minh] Chuỗi Xỉu quá dài (7 lần) → dự đoán Tài",
       "AI HTDD"⟩ := by
  have h3 : (sliceLast history 3).map (fun h => h.result)
      = [Result.Xiu, Result.Xiu, Result.Xiu] := by
    rw [lastCats_mono history 3 7 (by norm_num), h7]
    rfl
  have h4 : (sliceLast history 4).map (fun h => h.result)
      = [Result.Xiu, Result.Xiu, Result.Xiu, Result.Xiu] := by
    rw [lastCats_mono history 4 7 (by norm_num), h7]
    rfl
  have hallX : (sliceLast history 7).all (fun h => decide (h.result = Result.Xiu)) = true := by
    rw [all_result, h7]
    decide
  unfold aiHtddLogic
  simp only []
  rw [hinfo]
  simp only [Option.bind_eq_bind, Option.some_bind]
  rw [if_neg ha, h3, h4, if_neg (by simp), if_neg (by simp), if_neg (by simp),
    if_neg (by simp), if_pos ⟨hlen, hallX⟩]

theorem lastCats_replicate (history : List Entry) (n : Nat) (c : Result)
    (hlen : n ≤ history.length) (hall : ∀ e ∈ sliceLast history n, e.result = c) :
    (sliceLast history n).map (fun h => h.result) = List.replicate n c := by
  rw [List.eq_replicate_iff]
  refine ⟨?_, ?_⟩
  · rw [List.length_map, sliceLast_length]
    omega
  · intro r hr
    rw [List.mem_map] at hr
    obtain ⟨e, he, rfl⟩ := hr
    exact hall e he

theorem streak_of_replicate (history : List Entry) (n : Nat) (c : Result) (hn : 0 < n)
    (h : (sliceLast history n).map (fun h => h.result) = List.replicate n c) :
    ∃ info, detectStreakAndBreak history = some info ∧ info.currentResult = some c ∧
      n ≤ info.streak := by
  have hc : (List.replicate n c).getLast? = some c := by
    cases n with
    | zero => omega
    | succ k => simp [List.getLast?_replicate]
  obtain ⟨info, hinfo, hcur, hstreak⟩ := detect_of_lastCats history n _ c h hc
  refine ⟨info, hinfo, hcur, ?_⟩
  rw [hstreak, categoryRun_append_all c _ _ (fun r hr => List.eq_of_mem_replicate hr),
    List.length_replicate]
  omega

/-! ## Claims C12, C14 and C11 -/

/-- C12: for every history of at least 7 entries whose last 7 entries all have category A,
`aiHtddLogic` returns by rule (d): it votes B with the rationale `Chuỗi Tài quá dài`; when
the last 7 entries all have category B it votes A with the rationale `Chuỗi Xỉu quá dài`.
The history of exactly 7 A entries is an instance. -/
theorem aiHtddLogic_long_streak (history : List Entry) (hlen : 7 ≤ history.length) :
    ((∀ e ∈ sliceLast history 7, e.result = Result.Tai) →
      aiHtddLogic history = some
        ⟨some Result.Xiu, "[Bẻ Cầu Thông Minh] Chuỗi Tài quá dài (7 lần) → dự đoán Xỉu",
         "AI HTDD"⟩) ∧
    ((∀ e ∈ sliceLast history 7, e.result = Result.Xiu) →
      aiHtddLogic history = some
        ⟨some Result.Tai, "[Bẻ Cầu Thông Minh] Chuỗi Xỉu quá dài (7 lần) → dự đoán Tài",
         "AI HTDD"⟩) := by
  refine ⟨fun hall => ?_, fun hall => ?_⟩
  · have h7 := lastCats_replicate history 7 Result.Tai hlen hall
    obtain ⟨info, hinfo, _, hstreak⟩ := streak_of_replicate history 7 Result.Tai (by norm_num) h7
    exact aiHtddLogic_rule_d_tai history info hinfo (by omega) hlen h7
  · have h7 := lastCats_replicate history 7 Result.Xiu hlen hall
    obtain ⟨info, hinfo, _, hstreak⟩ := streak_of_replicate history 7 Result.Xiu (by norm_num) h7
    exact aiHtddLogic_rule_d_xiu history info hinfo (by omega) hlen h7

/-- Witness of C12: the history of exactly 7 A entries. -/
theorem aiHtddLogic_long_streak_witness :
    aiHtddLogic [⟨"#1", 12, Result.Tai⟩, ⟨"#2", 11, Result.Tai⟩, ⟨"#3", 15, Result.Tai⟩,
        ⟨"#4", 13, Result.Tai⟩, ⟨"#5", 12, Result.Tai⟩, ⟨"#6", 14, Result.Tai⟩,
        ⟨"#7", 11, Result.Tai⟩]
      = some ⟨some Result.Xiu, "[Bẻ Cầu Thông Minh] Chuỗi Tài quá dài (7 lần) → dự đoán Xỉu",
          "AI HTDD"⟩ :=
  (aiHtddLogic_long_streak [⟨"#1", 12, Result.Tai⟩, ⟨"#2", 11, Result.Tai⟩,
    ⟨"#3", 15, Result.Tai⟩, ⟨"#4", 13, Result.Tai⟩, ⟨"#5", 12, Result.Tai⟩,
    ⟨"#6", 14, Result.Tai⟩, ⟨"#7", 11, Result.Tai⟩] (by decide)).1 (by decide)

theorem streak_of_two_two (history : List Entry) (a b : Result) (hab : a ≠ b)
    (h4 : (sliceLast history 4).map (fun h => h.result) = [a, a, b, b]) :
    ∃ info, detectStreakAndBreak history = some info ∧ info.currentResult = some b ∧
      info.streak = 2 := by
  obtain ⟨info, hinfo, hcur, hstreak⟩ := detect_of_lastCats history 4 [a, a, b, b] b h4 rfl
  refine ⟨info, hinfo, hcur, ?_⟩
  rw [hstreak, categoryRun_append_not_all b _ _ ⟨a, by simp, hab⟩]
  simp [categoryRun, hab]

/-- Rule (a) shadows rule (c): every history whose last four categories are A,A,B,B has
streak 2, so `aiHtddLogic` returns by rule (a), the first rule of the cascade, and votes the
current category B with the short-streak rationale; every history whose last four
categories are B,B,A,A gets the vote A in the same way. The two returns of rule (c) are
never reached. -/
theorem aiHtddLogic_two_two (history : List Entry) :
    ((sliceLast history 4).map (fun h => h.result)
        = [Result.Tai, Result.Tai, Result.Xiu, Result.Xiu] →
      aiHtddLogic history = some
        ⟨some Result.Xiu, "[Theo Cầu Thông Minh] Chuỗi ngắn 2 Xỉu, tiếp tục theo cầu",
         "AI HTDD"⟩) ∧
    ((sliceLast history 4).map (fun h => h.result)
        = [Result.Xiu, Result.Xiu, Result.Tai, Result.Tai] →
      aiHtddLogic history = some
        ⟨some Result.Tai, "[Theo Cầu Thông Minh] Chuỗi ngắn 2 Tài, tiếp tục theo cầu",
         "AI HTDD"⟩) := by
  refine ⟨fun h4 => ?_, fun h4 => ?_⟩
  · obtain ⟨info, hinfo, hcur, hstreak⟩ :=
      streak_of_two_two history Result.Tai Result.Xiu (by decide) h4
    rw [aiHtddLogic_rule_a history info hinfo (by omega), hcur, hstreak]
    decide
  · obtain ⟨info, hinfo, hcur, hstreak⟩ :=
      streak_of_two_two history Result.Xiu Result.Tai (by decide) h4
    rw [aiHtddLogic_rule_a history info hinfo (by omega), hcur, hstreak]
    decide

/-- C14: the source does not do what the claim and its own rule (c) say. On the four-entry
history with categories A,A,B,B the streak is 2, so rule (a) returns first and
`aiHtddLogic` votes B, where rule (c) would vote A; on B,B,A,A it votes A, where rule (c)
would vote B. -/
theorem aiHtddLogic_two_two_votes_current :
    aiHtddLogic [⟨"#1", 12, Result.Tai⟩, ⟨"#2", 13, Result.Tai⟩, ⟨"#3", 8, Result.Xiu⟩,
        ⟨"#4", 7, Result.Xiu⟩]
      = some ⟨some Result.Xiu, "[Theo Cầu Thông Minh] Chuỗi ngắn 2 Xỉu, tiếp tục theo cầu",
          "AI HTDD"⟩ ∧
    aiHtddLogic [⟨"#1", 8, Result.Xiu⟩, ⟨"#2", 7, Result.Xiu⟩, ⟨"#3", 12, Result.Tai⟩,
        ⟨"#4", 13, Result.Tai⟩]
      = some ⟨some Result.Tai, "[Theo Cầu Thông Minh] Chuỗi ngắn 2 Tài, tiếp tục theo cầu",
          "AI HTDD"⟩ :=
  ⟨(aiHtddLogic_two_two _).1 rfl, (aiHtddLogic_two_two _).2 rfl⟩

/-- C11 (as stated) fails: on the fifteen-entry history `alternatingHistory`, whose
categories alternate and end in B, `aiHtddLogic` returns by rule (b) with the rationale of
the pattern B,A,B; its rationale is neither of the two rationales of the fallback rule
(g). -/
theorem aiHtddLogic_alternating_not_fallback :
    alternatingHistory.map (fun h => h.result) = alternating15 ∧
    ∃ a, aiHtddLogic alternatingHistory = some a ∧
      a.reason = "[Bẻ Cầu Thông Minh] Phát hiện mẫu 1X1T → tiếp theo nên đánh Tài" ∧
      a.reason ≠ "[Bẻ Cầu Thông Minh] Tổng thể Tài nhiều hơn → dự đoán Xỉu" ∧
      a.reason ≠ "[Theo Cầu Thông Minh] Tổng thể Xỉu nhiều hơn hoặc bằng → dự đoán Tài" := by
  refine ⟨rfl, ⟨some Result.Tai,
    "[Bẻ Cầu Thông Minh] Phát hiện mẫu 1X1T → tiếp theo nên đánh Tài", "AI HTDD"⟩,
    by decide!, rfl, by decide, by decide⟩

/-- C11 (amended): for every fifteen-entry history whose categories strictly alternate and
end in B, the number of adjacent switches in the last 15 is 14 and `isBadPattern` is true;
the streak is 1, so rule (a) of `aiHtddLogic` does not fire, and the last three categories
are B,A,B, so `aiHtddLogic` returns by rule (b): it votes A with the rationale of that
pattern, and the later rules, the fallback (g) included, are not reached. -/
theorem alternating_history_spec (history : List Entry)
    (hcats : history.map (fun h => h.result) = alternating15) :
    countSwitches (last15Of history) = some 14 ∧
    isBadPattern history = some true ∧
    (∃ info, detectStreakAndBreak history = some info ∧ info.streak = 1) ∧
    aiHtddLogic history = some
      ⟨some Result.Tai, "[Bẻ Cầu Thông Minh] Phát hiện mẫu 1X1T → tiếp theo nên đánh Tài",
       "AI HTDD"⟩ := by
  have hlen : history.length = 15 := by
    have := congrArg List.length hcats
    rw [List.length_map] at this
    exact this
  have h15 : (sliceLast history 15).map (fun h => h.result) = alternating15 := by
    rw [map_sliceLast, hcats]
    rfl
  have h3 : (sliceLast history 3).map (fun h => h.result)
      = [Result.Xiu, Result.Tai, Result.Xiu] := by
    rw [map_sliceLast, hcats]
    rfl
  obtain ⟨info, hinfo, _, hstreak⟩ :=
    detect_of_lastCats history 15 alternating15 Result.Xiu h15 rfl
  have hs1 : info.streak = 1 := by
    rw [hstreak, hlen]
    rfl
  have hsw : countSwitches (last15Of history) = some 14 := by
    unfold last15Of
    rw [h15, countSwitches_eq]
    rfl
  refine ⟨hsw, ?_, ⟨info, hinfo, hs1⟩, ?_⟩
  · unfold isBadPattern
    simp only []
    rw [h15]
    have hsw2 : countSwitches alternating15 = some 14 := by
      rw [countSwitches_eq]
      rfl
    rw [if_neg (by decide), hsw2, hinfo]
    simp
  · exact aiHtddLogic_rule_b history info hinfo (by omega) (by omega) h3

/-- Witness of the amended C11: the history `alternatingHistory`. -/
theorem alternating_history_spec_witness :
    countSwitches (last15Of alternatingHistory) = some 14 ∧
    isBadPattern alternatingHistory = some true ∧
    (∃ info, detectStreakAndBreak alternatingHistory = some info ∧ info.streak = 1) ∧
    aiHtddLogic alternatingHistory = some
      ⟨some Result.Tai, "[Bẻ Cầu Thông Minh] Phát hiện mẫu 1X1T → tiếp theo nên đánh Tài",
       "AI HTDD"⟩ :=
  alternating_history_spec alternatingHistory rfl

/-! ## The pattern table of `smartBridgeBreak` on a long streak -/

theorem countOf_bump (counts : List (List Result × Nat)) (p k : List Result) :
    countOf (bump counts p) k = countOf counts k + if p = k then 1 else 0 := by
  induction counts with
  | nil =>
    by_cases hpk : p = k
    · simp [bump, countOf, hpk]
    · simp [bump, countOf, hpk]
  | cons c rest ih =>
    obtain ⟨key, n⟩ := c
    unfold bump
    by_cases hkp : key = p
    · rw [if_pos hkp]
      by_cases hk : key = k
      · have hpk : p = k := hkp ▸ hk
        simp [countOf, hk, hpk]
      · have hpk : ¬ p = k := fun h => hk (hkp.trans h)
        simp [countOf, hk, hpk]
    · rw [if_neg hkp]
      by_cases hk : key = k
      · have hpk : ¬ p = k := fun h => hkp (hk.trans h.symm)
        simp [countOf, hk, hpk]
      · simp only [countOf, if_neg hk]
        exact ih

theorem countOf_foldl_bump (patterns : List (List Result)) (init : List (List Result × Nat))
    (k : List Result) :
    countOf (patterns.foldl bump init) k = countOf init k + patterns.count k := by
  induction patterns generalizing init with
  | nil => simp
  | cons p rest ih =>
    rw [List.foldl_cons, ih, countOf_bump, List.count_cons]
    by_cases hpk : p = k
    · simp [hpk]
      omega
    · simp [hpk]

theorem mem_of_countOf_pos (counts : List (List Result × Nat)) (k : List Result)
    (h : 0 < countOf counts k) : (k, countOf counts k) ∈ counts := by
  induction counts with
  | nil => simp [countOf] at h
  | cons c rest ih =>
    obtain ⟨key, n⟩ := c
    by_cases hk : key = k
    · simp [countOf, hk]
    · simp only [countOf, if_neg hk] at h ⊢
      exact List.mem_cons_of_mem _ (ih h)

theorem head_sortEntries_max (counts : List (List Result × Nat)) (e : List Result × Nat)
    (he : e ∈ counts) :
    ∃ h, (sortEntries counts).head? = some h ∧ e.2 ≤ h.2 := by
  haveI : IsTotal (List Result × Nat) (fun a b => b.2 ≤ a.2) := ⟨fun a b => le_total b.2 a.2⟩
  haveI : IsTrans (List Result × Nat) (fun a b => b.2 ≤ a.2) :=
    ⟨fun a b c hab hbc => le_trans hbc hab⟩
  have hsorted : (sortEntries counts).Sorted (fun a b => b.2 ≤ a.2) :=
    List.sorted_insertionSort _ counts
  have hmem : e ∈ sortEntries counts := (mem_sortEntries counts e).mpr he
  cases hs : sortEntries counts with
  | nil =>
    rw [hs] at hmem
    cases hmem
  | cons h t =>
    rw [hs] at hmem hsorted
    refine ⟨h, rfl, ?_⟩
    rcases List.mem_cons.mp hmem with heq | ht
    · rw [heq]
    · exact List.rel_of_sorted_cons hsorted e ht

theorem patternsOf_append_four (l : List Result) (c : Result) :
    patternsOf (l ++ [c, c, c, c]) 2
      = (List.range l.length).map (fun i => ((l ++ [c, c, c, c]).drop i).take 2)
        ++ [[c, c], [c, c], [c, c]] := by
  unfold patternsOf
  have hlen : (l ++ [c, c, c, c]).length + 1 - 2 = l.length + 1 + 1 + 1 := by
    simp
  rw [hlen, List.range_succ, List.range_succ, List.range_succ]
  simp [List.drop_append]

theorem bridgeTable_stable (history : List Entry) (c : Result)
    (h4 : (sliceLast history 4).map (fun h => h.result) = List.replicate 4 c) :
    ∃ pattern count, (bridgeTable history).head? = some (pattern, count) ∧ 3 ≤ count := by
  have hsplit : (sliceLast history 20).map (fun h => h.result)
      = ((sliceLast history 20).map (fun h => h.result)).take
          (((sliceLast history 20).map (fun h => h.result)).length - 4) ++ [c, c, c, c] := by
    have h := lastCats_mono history 4 20 (by norm_num)
    rw [h4] at h
    have hrep : List.replicate 4 c = [c, c, c, c] := rfl
    rw [hrep] at h
    conv_lhs => rw [← List.take_append_drop
      (((sliceLast history 20).map (fun h => h.result)).length - 4)
      ((sliceLast history 20).map (fun h => h.result))]
    rw [h]
    rfl
  have hcount : 3 ≤ countOf (patternCounts (patternsOf
      ((sliceLast history 20).map (fun h => h.result)) 2)) [c, c] := by
    rw [hsplit, patternsOf_append_four]
    unfold patternCounts
    rw [countOf_foldl_bump, List.count_append]
    simp [countOf]
  have hmem := mem_of_countOf_pos _ [c, c] (lt_of_lt_of_le (by norm_num) hcount)
  obtain ⟨h, hh, hle⟩ := head_sortEntries_max _ _ hmem
  exact ⟨h.1, h.2, hh, le_trans hcount hle⟩

theorem mem_sliceLast {α : Type} (xs : List α) (n : Nat) (e : α) (h : e ∈ sliceLast xs n) :
    ∃ i, xs.length - n ≤ i ∧ xs[i]? = some e := by
  unfold sliceLast at h
  rw [List.mem_iff_getElem?] at h
  obtain ⟨i, hi⟩ := h
  rw [List.getElem?_drop] at hi
  exact ⟨xs.length - n + i, by omega, hi⟩

theorem lastCats_of_trailingRun (history : List Entry) (c : Result) (n : Nat)
    (hrun : n ≤ trailingRun c history) :
    (sliceLast history n).map (fun h => h.result) = List.replicate n c := by
  have hle := trailingRun_le c history
  apply lastCats_replicate history n c (by omega)
  intro e he
  obtain ⟨i, hi, hget⟩ := mem_sliceLast history n e he
  exact trailingRun_all c history i e (by omega) hget

theorem breakProbPolicy_long (streak switches : Nat) (imbalance : ℚ) (hs : 6 ≤ streak)
    (h : 0 ≤ imbalance) : 0.8 ≤ breakProbPolicy streak switches imbalance := by
  have hsw : (0 : ℚ) ≤ (switches : ℚ) := Nat.cast_nonneg _
  unfold breakProbPolicy
  rw [if_pos hs]
  refine le_min ?_ (by norm_num)
  have : (0 : ℚ) ≤ (switches : ℚ) / 15 := by positivity
  have : (0 : ℚ) ≤ imbalance * 0.3 := by positivity
  linarith

theorem smartBridgeBreak_rule2 (history : List Entry) (info : StreakInfo)
    (pattern : List Result) (count : Nat) (hlen : 5 ≤ history.length)
    (hinfo : detectStreakAndBreak history = some info) (hs : 6 ≤ info.streak)
    (hhead : (bridgeTable history).head? = some (pattern, count)) (hc : 3 ≤ count)
    (hbp : 0.8 ≤ info.breakProb) :
    smartBridgeBreak history = some
      ⟨if info.currentResult = some Result.Tai then 2 else 1, 0.95,
       "[Bẻ Cầu Thông Minh] Chuỗi " ++ toString info.streak ++ " "
         ++ showCurrent info.currentResult ++ " quá dài, khả năng bẻ cầu cao"⟩ := by
  have hdec : decide (count ≥ 3) = true := by simpa using hc
  have hmin : min (info.breakProb + 0.3) (0.95 : ℚ) = 0.95 := by
    apply min_eq_right
    linarith
  unfold smartBridgeBreak
  rw [if_neg (by omega), hinfo, readAt_zero, hhead]
  simp only [Option.bind_eq_bind, Option.some_bind]
  rw [divide_of_ne _ _ (orOne_ne_zero _)]
  simp only [Option.some_bind]
  rw [divide_of_ne _ _ (orOne_ne_zero _)]
  simp only [Option.some_bind, hdec, Bool.true_eq_false, and_false, if_false,
    ge_iff_le, hs, if_true, hmin]
  norm_num

/-! ## Claim C13 -/

/-- C13 (as stated) fails on a streak of unclassified entries: the history
`sixUnclassified` (totals 3 and 18, which `processResult` leaves unclassified) has 6
entries and trailing streak 6 with the unclassified value as current category;
`smartBridgeBreak` applies rule 2 with adjusted `breakProb` 0.95 and votes 1 (A), which is
not the vote of a category opposite to the current one: the unclassified value is neither
A nor B and has no opposite. -/
theorem smartBridgeBreak_unclassified_streak :
    5 ≤ sixUnclassified.length ∧
    (∀ e ∈ sixUnclassified, e.result = processResult e.totalScore) ∧
    (detectStreakAndBreak sixUnclassified).map (fun info => (info.streak, info.currentResult))
      = some (6, some Result.KhongXacDinh) ∧
    (smartBridgeBreak sixUnclassified).map (fun b => (b.prediction, b.breakProb, b.reason))
      = some (1, 0.95,
          "[Bẻ Cầu Thông Minh] Chuỗi 6 Không xác định quá dài, khả năng bẻ cầu cao") ∧
    opposite Result.KhongXacDinh = Result.KhongXacDinh ∧
    (smartBridgeBreak sixUnclassified).map (fun b => b.prediction)
      ≠ some (categoryVote (opposite Result.KhongXacDinh)) := by
  refine ⟨by decide, by decide, by decide!, by decide!, rfl, by decide!⟩

/-- C13 (amended): for every history of at least 5 entries whose trailing streak is at
least 6, whatever the scores, the pair pattern of the streak heads the sorted pattern table
with a count of at least 3, so adjustment rule 1 of `smartBridgeBreak` cannot fire and
rule 2 applies: the rationale is the one of the too long streak, the adjusted `breakProb`
is 0.95, hence at least 0.8, and the vote is 2 (B) when the current category is A and 1 (A)
otherwise; this is the category opposite to the current one when the current category is
classified (A or B), and A when it is unclassified. -/
theorem smartBridgeBreak_long_streak (history : List Entry) (hlen : 5 ≤ history.length) :
    ∃ info, detectStreakAndBreak history = some info ∧
      (6 ≤ info.streak →
        (∃ pattern count, (bridgeTable history).head? = some (pattern, count) ∧ 3 ≤ count) ∧
        ∃ b, smartBridgeBreak history = some b ∧
          b.reason = "[Bẻ Cầu Thông Minh] Chuỗi " ++ toString info.streak ++ " "
            ++ showCurrent info.currentResult ++ " quá dài, khả năng bẻ cầu cao" ∧
          b.breakProb = 0.95 ∧ 0.8 ≤ b.breakProb ∧
          b.prediction = (if info.currentResult = some Result.Tai then 2 else 1) ∧
          (∀ c, info.currentResult = some c → c ≠ Result.KhongXacDinh →
            b.prediction = categoryVote (opposite c))) := by
  have hne : history ≠ [] := by
    intro hnil
    rw [hnil] at hlen
    simp at hlen
  have hlast := List.getLast?_eq_getLast history hne
  have hinfo := detectStreakAndBreak_eq history (history.getLast hne) hlast
  refine ⟨_, hinfo, ?_⟩
  intro hs
  have hs' : 6 ≤ trailingRun (history.getLast hne).result history := hs
  have h4 := lastCats_of_trailingRun history (history.getLast hne).result 4 (by omega)
  obtain ⟨pattern, count, hhead, hcount⟩ := bridgeTable_stable history _ h4
  have hbp := breakProbPolicy_long (trailingRun (history.getLast hne).result history)
    (switchCount (last15Of history)) (imbalanceOf (last15Of history)) hs'
    (imbalanceOf_nonneg _)
  have hb := smartBridgeBreak_rule2 history _ pattern count hlen hinfo hs hhead hcount hbp
  refine ⟨⟨pattern, count, hhead, hcount⟩, _, hb, rfl, rfl, by norm_num, rfl, ?_⟩
  intro c hc hclass
  have hcc : (history.getLast hne).result = c := Option.some.inj hc
  show (if some (history.getLast hne).result = some Result.Tai then 2 else 1)
    = categoryVote (opposite c)
  rw [hcc]
  cases c <;> simp [categoryVote, opposite] at hclass ⊢

/-- Witness of the amended C13: on the history of 7 identical A entries `smartBridgeBreak` votes 2 (B)
with adjusted `breakProb` 0.95 and the rationale of the too long streak. -/
theorem smartBridgeBreak_long_streak_witness :
    ∃ b, smartBridgeBreak sevenTai = some b ∧
      b.reason = "[Bẻ Cầu Thông Minh] Chuỗi 7 Tài quá dài, khả năng bẻ cầu cao" ∧
      b.breakProb = 0.95 ∧ b.prediction = 2 := by
  obtain ⟨info, hinfo, h⟩ := smartBridgeBreak_long_streak sevenTai (by decide)
  have hdet : detectStreakAndBreak sevenTai = some ⟨7, some Result.Tai, 19 / 20⟩ := by decide!
  rw [hdet] at hinfo
  have hi := Option.some.inj hinfo
  subst hi
  obtain ⟨_, b, hb, hreason, hprob, _, hvote, _⟩ := h (by decide)
  refine ⟨b, hb, ?_, hprob, ?_⟩
  · rw [hreason]
    decide
  · rw [hvote]
    rfl

/-! ## Claim C18 -/

theorem earlier_session_ne (history : List Entry) (last e : Entry) (j : Nat)
    (hnodup : (history.map (fun h => h.session)).Nodup)
    (hlast : history.getLast? = some last) (hj : j + 1 < history.length)
    (he : history[j]? = some e) :
    e ∈ history.dropLast ∧ e.session ≠ last.session := by
  have hne : history ≠ [] := by
    intro hnil
    rw [hnil] at hlast
    cases hlast
  constructor
  · rw [List.dropLast_eq_take, List.mem_iff_getElem?]
    exact ⟨j, by rw [List.getElem?_take, if_pos (by omega), he]⟩
  · intro hs
    have hl : history[history.length - 1]? = some last := by
      rw [← hlast, List.getLast?_eq_getElem?]
    have := (List.nodup_iff_getElem?_ne_getElem?.mp hnodup) j (history.length - 1)
      (by omega) (by rw [List.length_map]; omega)
    rw [List.getElem?_map, List.getElem?_map, he, hl] at this
    exact this (by simp [hs])

theorem evaluate_zero_of_no_votes (mp : ModelPredictions) (history : List Entry)
    (modelName : String) (table : String → Option Nat) (last : Entry)
    (ht : mp.table modelName = some table) (hlen : 2 ≤ history.length)
    (hlast : history.getLast? = some last)
    (hnodup : (history.map (fun h => h.session)).Nodup)
    (hnone : ∀ e ∈ history.dropLast, e.session ≠ last.session → table e.session = none) :
    evaluateModelPerformance mp history modelName 10 = some 0 := by
  have hw : 0 < min 10 (history.length - 1) := by
    rw [Nat.lt_min]
    omega
  rw [evaluateModelPerformance_eq mp history modelName table 10 ht hlen (by norm_num),
    clampedScore_eq _ _ hw (correctCount_le _ _ _), correctCount_eq_zero]
  · simp
  · intro i hi e he
    have hi2 : i < history.length - 1 := lt_of_lt_of_le hi (Nat.min_le_right _ _)
    have hlt : history.length - 2 - i < history.length := by omega
    obtain ⟨hmem, hs⟩ := earlier_session_ne history last e (history.length - 2 - i) hnodup
      hlast (by omega) he
    exact hnone e hmem hs

theorem computeScores_zero (mp : ModelPredictions) (history : List Entry) (last : Entry)
    (v : Votes) (hlen : 5 ≤ history.length) (hlast : history.getLast? = some last)
    (hnodup : (history.map (fun h => h.session)).Nodup)
    (hempty : ∀ e ∈ history.dropLast,
      mp.trend e.session = none ∧ mp.short e.session = none ∧ mp.mean e.session = none ∧
      mp.switch e.session = none ∧ mp.bridge e.session = none) :
    computeScores (recordVotes mp last.session v) history = some ⟨0, 0, 0, 0, 0⟩ := by
  have h1 := evaluate_zero_of_no_votes (recordVotes mp last.session v) history "trend"
    (setVote mp.trend last.session v.trendPred) last (by simp [ModelPredictions.table, recordVotes])
    (by omega) hlast hnodup
    (fun e he hs => by simp [setVote, hs, (hempty e he).1])
  have h2 := evaluate_zero_of_no_votes (recordVotes mp last.session v) history "short"
    (setVote mp.short last.session v.shortPred) last (by simp [ModelPredictions.table, recordVotes])
    (by omega) hlast hnodup
    (fun e he hs => by simp [setVote, hs, (hempty e he).2.1])
  have h3 := evaluate_zero_of_no_votes (recordVotes mp last.session v) history "mean"
    (setVote mp.mean last.session v.meanPred) last (by simp [ModelPredictions.table, recordVotes])
    (by omega) hlast hnodup
    (fun e he hs => by simp [setVote, hs, (hempty e he).2.2.1])
  have h4 := evaluate_zero_of_no_votes (recordVotes mp last.session v) history "switch"
    (setVote mp.switch last.session v.switchPred) last
    (by simp [ModelPredictions.table, recordVotes])
    (by omega) hlast hnodup
    (fun e he hs => by simp [setVote, hs, (hempty e he).2.2.2.1])
  have h5 := evaluate_zero_of_no_votes (recordVotes mp last.session v) history "bridge"
    (setVote mp.bridge last.session v.bridgePred.prediction) last
    (by simp [ModelPredictions.table, recordVotes])
    (by omega) hlast hnodup
    (fun e he hs => by simp [setVote, hs, (hempty e he).2.2.2.2])
  simp [computeScores, h1, h2, h3, h4, h5]

theorem smartBridgeBreak_prediction (history : List Entry) (info : StreakInfo)
    (b : BridgePred) (hlen : 5 ≤ history.length)
    (hinfo : detectStreakAndBreak history = some info)
    (hb : smartBridgeBreak history = some b) :
    b.prediction = (if b.breakProb > 0.5
      then (if info.currentResult = some Result.Tai then 2 else 1)
      else (if info.currentResult = some Result.Tai then 1 else 2)) := by
  obtain ⟨p, hp⟩ := head?_of_ne_nil _ (bridgeTable_ne_nil history (by omega))
  unfold smartBridgeBreak at hb
  rw [if_neg (by omega), hinfo, readAt_zero, hp] at hb
  simp only [Option.bind_eq_bind, Option.some_bind] at hb
  rw [divide_of_ne _ _ (orOne_ne_zero _)] at hb
  simp only [Option.some_bind] at hb
  rw [divide_of_ne _ _ (orOne_ne_zero _)] at hb
  simp only [Option.some_bind] at hb
  have := Option.some.inj hb
  rw [← this]

theorem two_way_vote (P Q : Prop) [Decidable P] [Decidable Q] :
    (if P then (if Q then 2 else 1) else (if Q then 1 else 2) : Nat) = 1 ∨
    (if P then (if Q then 2 else 1) else (if Q then 1 else 2) : Nat) = 2 := by
  by_cases hP : P <;> by_cases hQ : Q <;> simp [hP, hQ]

theorem accumulate_zero (streak : Nat) (v : Votes) :
    accumulate streak v ⟨0, 0, 0, 0, 0⟩
      = if v.aiPred.prediction = some Result.Tai
        then ((if streak ≥ 2 then (0.3 : ℚ) else 0.25), 0)
        else (0, (if streak ≥ 2 then (0.3 : ℚ) else 0.25)) := by
  have hadd : ∀ (s : ℚ × ℚ) (vote : Nat), addVote s vote 0 = s := by
    intro s vote
    unfold addVote
    split_ifs <;> simp
  unfold accumulate
  simp only [mul_zero, ite_self, hadd, zero_add]

theorem final_category_zero_scores (streak : Nat) (v : Votes) (bad : Bool) :
    ((v.bridgePred.breakProb > 0.5 ∨ streak ≥ 3) →
      ((finalScores streak v ⟨0, 0, 0, 0, 0⟩ bad).1 > (finalScores streak v ⟨0, 0, 0, 0, 0⟩ bad).2
        ↔ v.bridgePred.prediction = 1)) ∧
    (¬ (v.bridgePred.breakProb > 0.5 ∨ streak ≥ 3) →
      ((finalScores streak v ⟨0, 0, 0, 0, 0⟩ bad).1 > (finalScores streak v ⟨0, 0, 0, 0, 0⟩ bad).2
        ↔ v.aiPred.prediction = some Result.Tai)) := by
  unfold finalScores
  rw [accumulate_zero]
  unfold applyBonus applyBadPattern
  constructor
  · intro hbonus
    by_cases hprob : v.bridgePred.breakProb > 0.5
    · rw [if_pos hprob]
      split_ifs <;> norm_num <;> omega
    · have hs : streak ≥ 3 := by
        rcases hbonus with h | h
        · exact absurd h hprob
        · exact h
      rw [if_neg hprob, if_pos hs]
      split_ifs <;> norm_num <;> omega
  · intro hbonus
    have hprob : ¬ v.bridgePred.breakProb > 0.5 := fun h => hbonus (Or.inl h)
    have hs : ¬ streak ≥ 3 := fun h => hbonus (Or.inr h)
    rw [if_neg hprob, if_neg hs]
    split_ifs <;> norm_num <;> assumption

theorem ite_cases {α : Type} (c : Prop) [Decidable c] (x y : Option α) (Q : α → Prop)
    (hx : ∀ a, x = some a → Q a) (hy : ∀ a, y = some a → Q a) :
    ∀ a, (if c then x else y) = some a → Q a := by
  intro a h
  by_cases hc : c
  · rw [if_pos hc] at h
    exact hx a h
  · rw [if_neg hc] at h
    exact hy a h

theorem aiHtddLogic_vote_classified (history : List Entry) (last : Entry)
    (hlast : history.getLast? = some last) (hc : last.result ≠ Result.KhongXacDinh) :
    ∀ a, aiHtddLogic history = some a →
      a.prediction = some Result.Tai ∨ a.prediction = some Result.Xiu := by
  have hinfo := detectStreakAndBreak_eq history last hlast
  unfold aiHtddLogic
  simp only []
  rw [hinfo, divide_of_ne _ _ (orOne_ne_zero _)]
  simp only [Option.bind_eq_bind, Option.some_bind]
  repeat' apply ite_cases
  all_goals
    intro a h
    cases h
    first
      | exact Or.inl rfl
      | exact Or.inr rfl
      | (cases hr : last.result
         · exact Or.inl rfl
         · exact Or.inr rfl
         · exact absurd hr hc)

/-- C18 (as stated) fails: on the five-entry history `unclassifiedTail` with distinct
sessions and the empty store no bonus applies (streak 2, adjusted `breakProb` 0.1), the
vote of `aiHtddLogic` is the unclassified value, and the category of `generatePrediction`
is B. -/
theorem first_prediction_not_heuristic_vote :
    (unclassifiedTail.map (fun h => h.session)).Nodup ∧
    (detectStreakAndBreak unclassifiedTail).map (fun info => info.streak) = some 2 ∧
    (smartBridgeBreak unclassifiedTail).map (fun b => b.breakProb) = some (1 / 10) ∧
    (aiHtddLogic unclassifiedTail).map (fun a => a.prediction)
      = some (some Result.KhongXacDinh) ∧
    (generatePrediction ModelPredictions.empty 0 (some unclassifiedTail)).map
      (fun out => out.1.prediction) = some Result.Xiu := by
  refine ⟨by decide, by decide!, by decide!, by decide!, by decide!⟩

/-- C18 (amended): on a store with no vote for the sessions of the earlier entries and a
history of at least 5 entries with pairwise distinct sessions, the five performance scores
are 0, so the five performance-scaled weights are 0. The category of `generatePrediction`
is the vote of `smartBridgeBreak` whenever the bonus applies (adjusted `breakProb` above
0.5, or streak at least 3); otherwise it is A when `aiHtddLogic` votes A and B in every
other case, so it equals the vote of `aiHtddLogic` whenever that vote is A or B, which is
the case when the last entry is classified. -/
theorem first_prediction_category (mp : ModelPredictions) (random : ℚ)
    (history : List Entry) (hlen : 5 ≤ history.length)
    (hnodup : (history.map (fun h => h.session)).Nodup)
    (hempty : ∀ e ∈ history.dropLast,
      mp.trend e.session = none ∧ mp.short e.session = none ∧ mp.mean e.session = none ∧
      mp.switch e.session = none ∧ mp.bridge e.session = none) :
    ∃ last info v sc p mp1,
      history.getLast? = some last ∧
      detectStreakAndBreak history = some info ∧
      computeVotes history = some v ∧
      generatePrediction mp random (some history) = some (p, mp1) ∧
      computeScores mp1 history = some sc ∧
      (sc.trend = 0 ∧ sc.short = 0 ∧ sc.mean = 0 ∧ sc.switch = 0 ∧ sc.bridge = 0) ∧
      ((if info.streak ≥ 3 then 0.15 * sc.trend else 0.2 * sc.trend) = 0 ∧
        (if info.streak ≥ 2 then 0.2 * sc.short else 0.15 * sc.short) = 0 ∧
        0.1 * sc.mean = 0 ∧ 0.1 * sc.switch = 0 ∧
        (if info.streak ≥ 3 then 0.35 * sc.bridge else 0.3 * sc.bridge) = 0) ∧
      ((v.bridgePred.breakProb > 0.5 ∨ info.streak ≥ 3) →
        categoryVote p.prediction = v.bridgePred.prediction) ∧
      (¬ (v.bridgePred.breakProb > 0.5 ∨ info.streak ≥ 3) →
        (v.aiPred.prediction = some Result.Tai → p.prediction = Result.Tai) ∧
        (v.aiPred.prediction ≠ some Result.Tai → p.prediction = Result.Xiu) ∧
        (v.aiPred.prediction = some Result.Tai ∨ v.aiPred.prediction = some Result.Xiu →
          some p.prediction = v.aiPred.prediction) ∧
        (last.result ≠ Result.KhongXacDinh → some p.prediction = v.aiPred.prediction)) := by
  obtain ⟨last, info, v, sc, bad, p, hlast, hinfo, hv, hsc, hbad, hfinal, hgen, _⟩ :=
    generatePrediction_run mp random history hlen
  have hzero := computeScores_zero mp history last v hlen hlast hnodup hempty
  have hsceq : sc = ⟨0, 0, 0, 0, 0⟩ := Option.some.inj (hsc.symm.trans hzero)
  subst hsceq
  obtain ⟨_, _, hsum⟩ := finalScores_bounds info.streak v ⟨0, 0, 0, 0, 0⟩ bad
    (le_refl _) (le_refl _) (le_refl _) (le_refl _) (le_refl _)
  have hpos : 0 < (finalScores info.streak v ⟨0, 0, 0, 0, 0⟩ bad).1
      + (finalScores info.streak v ⟨0, 0, 0, 0, 0⟩ bad).2 := by
    have : (0 : ℚ) < 0.125 := by norm_num
    linarith
  have hfinal2 : finalResult (finalScores info.streak v ⟨0, 0, 0, 0, 0⟩ bad) v.aiPred.reason
      v.bridgePred.reason = some p := hfinal
  rw [finalResult_pos _ _ _ hpos] at hfinal2
  have hp : p.prediction
      = if (finalScores info.streak v ⟨0, 0, 0, 0, 0⟩ bad).1
          > (finalScores info.streak v ⟨0, 0, 0, 0, 0⟩ bad).2
        then Result.Tai else Result.Xiu := by
    rw [← Option.some.inj hfinal2]
  obtain ⟨hbonus, hplain⟩ := final_category_zero_scores info.streak v bad
  have hvotes := computeVotes_eq history v hv
  have hbridge : v.bridgePred.prediction = 1 ∨ v.bridgePred.prediction = 2 := by
    rw [smartBridgeBreak_prediction history info v.bridgePred hlen hinfo hvotes.2.2.2.2.1]
    exact two_way_vote _ _
  refine ⟨last, info, v, _, p, _, hlast, hinfo, hv, hgen, hsc, ⟨rfl, rfl, rfl, rfl, rfl⟩,
    ⟨by simp, by simp, by simp, by simp, by simp⟩, ?_, ?_⟩
  · intro hb
    rw [hp]
    by_cases h1 : v.bridgePred.prediction = 1
    · rw [if_pos ((hbonus hb).mpr h1), h1]
      rfl
    · rw [if_neg (fun h => h1 ((hbonus hb).mp h))]
      rcases hbridge with h | h
      · exact absurd h h1
      · rw [h]
        rfl
  · intro hnb
    have hT : v.aiPred.prediction = some Result.Tai → p.prediction = Result.Tai := by
      intro hai
      rw [hp, if_pos ((hplain hnb).mpr hai)]
    have hX : v.aiPred.prediction ≠ some Result.Tai → p.prediction = Result.Xiu := by
      intro hai
      rw [hp, if_neg (fun h => hai ((hplain hnb).mp h))]
    have hTX : v.aiPred.prediction = some Result.Tai ∨ v.aiPred.prediction = some Result.Xiu →
        some p.prediction = v.aiPred.prediction := by
      rintro (hai | hai)
      · rw [hT hai, hai]
      · rw [hX (by rw [hai]; decide), hai]
    exact ⟨hT, hX, hTX, fun hc =>
      hTX (aiHtddLogic_vote_classified history last hlast hc v.aiPred hvotes.2.2.2.2.2)⟩

/-- Witness of the amended C18: the history `longWindow` and the empty store. -/
theorem first_prediction_category_witness :
    ∃ p mp1 sc,
      generatePrediction ModelPredictions.empty 0 (some longWindow) = some (p, mp1) ∧
      computeScores mp1 longWindow = some sc ∧
      (sc.trend = 0 ∧ sc.short = 0 ∧ sc.mean = 0 ∧ sc.switch = 0 ∧ sc.bridge = 0) :=
  have h := first_prediction_category ModelPredictions.empty 0 longWindow (by decide)
    (by decide) (fun _ _ => ⟨rfl, rfl, rfl, rfl, rfl⟩)
  h.elim (fun _ h1 => h1.elim (fun _ h2 => h2.elim (fun _ h3 => h3.elim (fun sc h4 =>
    h4.elim (fun p h5 => h5.elim (fun mp1 h6 =>
      ⟨p, mp1, sc, h6.2.2.2.1, h6.2.2.2.2.1, h6.2.2.2.2.2.1⟩))))))

end Sicbo
